import Mathlib

/-!
EcoWorthy Bluetooth battery logger: frame codec and protocol engine

A shallow embedding of `src/src/BatteryProtocol.cpp` (with the constants of
`src/include/config.h` and the record of `src/include/BatteryProtocol.h`) and of
the reassembly and command exchange of `src/src/BluetoothManager.cpp`, followed
by theorems about it.

Conventions of the embedding:

* a `uint8_t` byte is a `Byte` (`Fin 256`); the `const uint8_t* data` argument is
  the memory behind the pointer, a function from index to byte, and the
  `uint8_t length` argument is a natural number (below 256 in the theorems);
* `uint16_t`, `int16_t` and `uint8_t` locals are `Nat`/`Int` values reduced
  explicitly where the C++ conversion reduces them;
* `float` fields are exact rationals (no rounding is modelled);
* `millis()` is the parameter `now`, or a reading supplied by the environment;
* every decoder returns, next to its C++ result, the list of the indices of
  `data` it read and of the `cellVoltages` slots it wrote, in program order.
-/

namespace BatteryProtocol

/-- One `uint8_t`. -/
abbrev Byte := Fin 256

/-- Conversion of an integer value to `uint8_t`. -/
def toByte (n : Nat) : Byte := ⟨n % 256, Nat.mod_lt _ (by decide)⟩

/-- `CMD_READ_BASIC_INFO` of config.h. -/
def CMD_READ_BASIC_INFO : Byte := 0x03

/-- `CMD_READ_CELL_VOLTAGES` of config.h. -/
def CMD_READ_CELL_VOLTAGES : Byte := 0x04

/-- `CMD_READ_HARDWARE_VERSION` of config.h. -/
def CMD_READ_HARDWARE_VERSION : Byte := 0x05

/-- `FRAME_START` of config.h. -/
def FRAME_START : Byte := 0xDD

/-- `FRAME_READ` of config.h. -/
def FRAME_READ : Byte := 0xA5

/-- `FRAME_END` of config.h. -/
def FRAME_END : Byte := 0x77

/-- The record `struct BatteryData` of BatteryProtocol.h. The array
`cellVoltages[32]` is a function from slot index to value. -/
structure BatteryData where
  macAddress : String
  voltage : ℚ
  current : ℚ
  remainingAh : ℚ
  maxAh : ℚ
  watts : ℚ
  soc : ℚ
  temperature : ℚ
  switches : String
  numCells : Nat
  cellVoltages : Nat → ℚ
  dataValid : Bool
  timestamp : Nat

/-- What a decoder call leaves behind: the returned `bool`, the record behind
the `BatteryData&` argument, and the access log. -/
structure Outcome where
  ret : Bool
  batteryData : BatteryData
  reads : List Nat
  cellWrites : List Nat

/-- The memory behind a pointer to a buffer holding the bytes `l`, zero beyond. -/
def ofList (l : List Byte) : Nat → Byte := fun i => l.getD i 0

/-- The expression `(hi << 8) | lo` evaluated in `int`. -/
def shiftOr (hi lo : Byte) : Nat := (hi.val <<< 8) ||| lo.val

/-- The expression `(hi << 8) | lo` stored in a `uint16_t`. -/
def be16 (hi lo : Byte) : Nat := shiftOr hi lo % 65536

/-- Conversion of an `int` value to `int16_t` (two's-complement wrap). -/
def wrapInt16 (v : Int) : Int := (v + 32768) % 65536 - 32768

/-- The frame builder `BatteryProtocol::createCommand`: the buffer after the
seven stores and the value stored in `length`. -/
def createCommand (cmd : Byte) (buffer : Nat → Byte) : (Nat → Byte) × Nat :=
  let b0 := Function.update buffer 0 FRAME_START
  let b1 := Function.update b0 1 FRAME_READ
  let b2 := Function.update b1 2 cmd
  let b3 := Function.update b2 3 (0x00 : Byte)
  let checksum : Nat := Int.toNat (((0x10000 : Int) - (cmd.val : Int)) % 65536)
  let b4 := Function.update b3 4 (toByte ((checksum >>> 8) &&& 0xFF))
  let b5 := Function.update b4 5 (toByte (checksum &&& 0xFF))
  let b6 := Function.update b5 6 FRAME_END
  (b6, 7)

/-- The decoder `BatteryProtocol::parseBasicInfoResponse`. The leading call of
`printHex` has an empty loop body and is omitted. -/
def parseBasicInfoResponse (data : Nat → Byte) (length : Nat) (batteryData : BatteryData)
    (now : Nat) : Outcome :=
  if length < 7 then
    { ret := false, batteryData := batteryData, reads := [], cellWrites := [] }
  else if data 0 ≠ FRAME_START then
    { ret := false, batteryData := batteryData, reads := [0], cellWrites := [] }
  else if data (length - 1) ≠ FRAME_END then
    { ret := false, batteryData := batteryData, reads := [0, length - 1], cellWrites := [] }
  else if data 1 ≠ CMD_READ_BASIC_INFO then
    { ret := false, batteryData := batteryData, reads := [0, length - 1, 1], cellWrites := [] }
  else
    let dataLength := be16 (data 2) (data 3)
    let hdr : List Nat := [0, length - 1, 1, 2, 3]
    if (length : Int) < (dataLength : Int) + 7 then
      { ret := false, batteryData := batteryData, reads := hdr, cellWrites := [] }
    else
      let offset0 : Nat := 4
      let voltage_raw := be16 (data offset0) (data (offset0 + 1))
      let voltage : ℚ := (voltage_raw : ℚ) / 100
      let offset1 : Nat := (offset0 + 2) % 256
      let current_raw0 : Int := wrapInt16 (shiftOr (data offset1) (data (offset1 + 1)))
      let current_raw : Int :=
        if current_raw0 > 0x7fff then wrapInt16 (current_raw0 - 0x10000) else current_raw0
      let current : ℚ := (current_raw : ℚ) / 100
      let offset2 : Nat := (offset1 + 2) % 256
      let remaining_raw := be16 (data offset2) (data (offset2 + 1))
      let remainingAh : ℚ := (remaining_raw : ℚ) / 100
      let offset3 : Nat := (offset2 + 2) % 256
      let max_raw := be16 (data offset3) (data (offset3 + 1))
      let maxAh : ℚ := (max_raw : ℚ) / 100
      let watts : ℚ := voltage * current
      let soc : ℚ := if maxAh > 0 then 100 * (remainingAh / maxAh) else 0
      let rd1 : List Nat :=
        hdr ++ [offset0, offset0 + 1, offset1, offset1 + 1, offset2, offset2 + 1,
          offset3, offset3 + 1]
      let offsetS : Nat := 24
      let hasSwitches : Bool := decide ((offsetS : Int) < (length : Int) - 3)
      let switches : String :=
        if hasSwitches then
          (if (data offsetS).val &&& 0x01 ≠ 0 then "C+" else "C-") ++
            (if (data offsetS).val &&& 0x02 ≠ 0 then "D+" else "D-")
        else batteryData.switches
      let rd2 : List Nat := if hasSwitches then rd1 ++ [offsetS] else rd1
      let offsetT : Nat := 27
      let hasTemp : Bool := decide ((offsetT : Int) + 1 < (length : Int) - 3)
      let temperature : ℚ :=
        if hasTemp then
          ((((be16 (data offsetT) (data (offsetT + 1)) : Nat) : Int) - 2731 : Int) : ℚ) * 0.1
        else 0
      let rd3 : List Nat := if hasTemp then rd2 ++ [offsetT, offsetT + 1] else rd2
      { ret := true
        batteryData :=
          { batteryData with
            voltage := voltage
            current := current
            remainingAh := remainingAh
            maxAh := maxAh
            watts := watts
            soc := soc
            switches := switches
            temperature := temperature
            dataValid := true
            timestamp := now }
        reads := rd3
        cellWrites := [] }

/-- The state of the `for` loop of `parseCellVoltageResponse`: the counter `i`,
the `uint8_t offset`, the array being filled and the access log. -/
structure CellLoop where
  i : Nat
  offset : Nat
  cellVoltages : Nat → ℚ
  reads : List Nat
  cellWrites : List Nat

/-- The loop `for (int i = 0; i < numCells && i < 32; i++)` of
`parseCellVoltageResponse`, run for at most `fuel` iterations from state `s`. -/
def cellLoop (data : Nat → Byte) (numCells : Nat) : Nat → CellLoop → CellLoop
  | 0, s => s
  | fuel + 1, s =>
    if s.i < numCells ∧ s.i < 32 then
      let cellVoltage := be16 (data s.offset) (data (s.offset + 1))
      cellLoop data numCells fuel
        { i := s.i + 1
          offset := (s.offset + 2) % 256
          cellVoltages := Function.update s.cellVoltages s.i ((cellVoltage : ℚ) / 1000)
          reads := s.reads ++ [s.offset, s.offset + 1]
          cellWrites := s.cellWrites ++ [s.i] }
    else s

/-- The decoder `BatteryProtocol::parseCellVoltageResponse`. The loop is given
32 iterations of fuel, which its guard `i < 32` never exceeds. -/
def parseCellVoltageResponse (data : Nat → Byte) (length : Nat) (batteryData : BatteryData)
    (now : Nat) : Outcome :=
  if length < 7 then
    { ret := false, batteryData := batteryData, reads := [], cellWrites := [] }
  else if data 0 ≠ FRAME_START then
    { ret := false, batteryData := batteryData, reads := [0], cellWrites := [] }
  else if data (length - 1) ≠ FRAME_END then
    { ret := false, batteryData := batteryData, reads := [0, length - 1], cellWrites := [] }
  else if data 1 ≠ CMD_READ_CELL_VOLTAGES then
    { ret := false, batteryData := batteryData, reads := [0, length - 1, 1], cellWrites := [] }
  else
    let dataLength := be16 (data 2) (data 3)
    let hdr : List Nat := [0, length - 1, 1, 2, 3]
    if (length : Int) < (dataLength : Int) + 7 then
      { ret := false, batteryData := batteryData, reads := hdr, cellWrites := [] }
    else
      let numCells : Nat := (dataLength / 2) % 256
      let s := cellLoop data numCells 32
        { i := 0, offset := 4, cellVoltages := batteryData.cellVoltages, reads := hdr,
          cellWrites := [] }
      { ret := true
        batteryData :=
          { batteryData with
            numCells := numCells
            cellVoltages := s.cellVoltages
            dataValid := true
            timestamp := now }
        reads := s.reads
        cellWrites := s.cellWrites }

/-- The function `BatteryProtocol::calculateChecksum`: the loop
`for (int i = 0; i < length - 3; i++) sum += data[i]` on a `uint16_t sum` (it
does not run when `length - 3 ≤ 0`), then `(~sum) + 1` converted to `uint16_t`. -/
def calculateChecksum (data : Nat → Byte) (length : Nat) : Nat :=
  let sum : Nat :=
    (List.range (length - 3)).foldl (fun sum i => (sum + (data i).val) % 65536) 0
  Int.toNat (((-(sum : Int) - 1) + 1) % 65536)

/-- The function `BatteryProtocol::verifyChecksum`. -/
def verifyChecksum (data : Nat → Byte) (length : Nat) : Bool :=
  if length < 7 then false
  else
    let calculatedChecksum := calculateChecksum data length
    let receivedChecksum := be16 (data (length - 3)) (data (length - 2))
    decide (calculatedChecksum = receivedChecksum)

/-- The frame checks shared by the two decoders, for the echoed command `cmd`. -/
def FrameOk (cmd : Byte) (data : Nat → Byte) (n : Nat) : Prop :=
  7 ≤ n ∧ data 0 = 0xDD ∧ data (n - 1) = 0x77 ∧ data 1 = cmd ∧
    256 * (data 2).val + (data 3).val + 7 ≤ n

/-- The state in which `parseCellVoltageResponse` enters its loop. -/
def cellLoopInit (n : Nat) (bd : BatteryData) : CellLoop :=
  { i := 0, offset := 4, cellVoltages := bd.cellVoltages, reads := [0, n - 1, 1, 2, 3],
    cellWrites := [] }

/-- A well-formed basic-info frame: declared length 8, raw voltage 5120, raw
current 0xFF9C, raw remaining capacity 2000, raw nominal capacity 10000. -/
def basicFrame : List Byte :=
  [0xDD, 0x03, 0x00, 0x08, 0x14, 0x00, 0xFF, 0x9C, 0x07, 0xD0, 0x27, 0x10, 0xFC, 0x5B, 0x77]

/-- A well-formed cell-voltage frame: declared length 8, raw cell values
3300, 3310, 3290, 3305. -/
def cellFrame : List Byte :=
  [0xDD, 0x04, 0x00, 0x08, 0x0C, 0xE4, 0x0C, 0xEE, 0x0C, 0xDA, 0x0C, 0xE9, 0xFB, 0x52, 0x77]

/-- A record with every field cleared. -/
def emptyRecord : BatteryData :=
  { macAddress := "", voltage := 0, current := 0, remainingAh := 0, maxAh := 0, watts := 0,
    soc := 0, temperature := 0, switches := "", numCells := 0, cellVoltages := fun _ => 0,
    dataValid := false, timestamp := 0 }


/-- The basic-info frame `basicFrame` with its two checksum bytes zeroed. -/
def badChecksumFrame : List Byte :=
  [0xDD, 0x03, 0x00, 0x08, 0x14, 0x00, 0xFF, 0x9C, 0x07, 0xD0, 0x27, 0x10, 0x00, 0x00, 0x77]

/-- A basic-info frame cut short: three bytes. -/
def truncatedFrame : List Byte := [0xDD, 0x03, 0x00]

/-- The basic-info frame `basicFrame` with a wrong end marker. -/
def badEndFrame : List Byte :=
  [0xDD, 0x03, 0x00, 0x08, 0x14, 0x00, 0xFF, 0x9C, 0x07, 0xD0, 0x27, 0x10, 0xFC, 0x5B, 0x78]

/-- A seven-byte basic-info response with declared length 0 (no payload). -/
def emptyPayloadFrame : List Byte := [0xDD, 0x03, 0x00, 0x00, 0xFF, 0xFD, 0x77]

/-- An 87-byte cell-voltage response declaring 80 payload bytes (40 cells), all
payload and checksum bytes zero. -/
def wideCellFrame : Nat → Byte := fun i =>
  if i = 0 then 0xDD else if i = 1 then 0x04 else if i = 3 then 80
  else if i = 86 then 0x77 else 0

/-- The buffer `data` with the two checksum positions `n - 3` and `n - 2` of an
`n`-byte frame overwritten by `x` and `y`. -/
def withChecksum (data : Nat → Byte) (n : Nat) (x y : Byte) : Nat → Byte :=
  Function.update (Function.update data (n - 3) x) (n - 2) y

/-- A 34-byte basic-info response with declared length 27: the four leading
fields of `basicFrame`, status byte `sw` at index 24 and raw temperature
`thi:tlo` at indices 27 and 28; every other payload byte and the checksum are 0. -/
def fullFrame (sw thi tlo : Byte) : List Byte :=
  [0xDD, 0x03, 0x00, 0x1B, 0x14, 0x00, 0xFF, 0x9C, 0x07, 0xD0, 0x27, 0x10,
    0, 0, 0, 0, 0, 0, 0, 0, 0, 0, 0, 0, sw, 0, 0, thi, tlo, 0, 0, 0x00, 0x00, 0x77]

/-! ## The reassembly buffer of `BluetoothManager`

The embedding of `BluetoothManager::handleNotification` and of the
`// Reset response state` block of `sendCommandAndWaitResponse`
(`src/src/BluetoothManager.cpp`). `int` members are `Int`, the `size_t` argument
is a `Nat`, and `size_t` is 32 bits wide as on the target. The array
`responseBuffer[256]` is the memory from its first byte on, so that a store past
index 255 would show; each call also reports the indices it stored to. -/

/-- Conversion of an `int` value to `size_t`. -/
def toSizeT (v : Int) : Nat := Int.toNat (v % 4294967296)

/-- The call `memcpy(dst + off, src, k)`: the memory `dst` afterwards. -/
def memcpy (dst : Nat → Byte) (off : Nat) (src : Nat → Byte) (k : Nat) : Nat → Byte :=
  fun i => if off ≤ i ∧ i < off + k then src (i - off) else dst i

/-- The data members of `class BluetoothManager` that the protocol engine uses.
The three pointers are kept as "is not null". -/
structure BluetoothManager where
  hasClient : Bool
  hasWriteCharacteristic : Bool
  hasReadCharacteristic : Bool
  bleConnected : Bool
  currentBatteryMac : String
  responseBuffer : Nat → Byte
  responseLength : Int
  responseReceived : Bool
  expectingMoreData : Bool
  expectedTotalLength : Int

/-- What one call of `handleNotification` leaves behind: the manager and the
indices of `responseBuffer` it stored to, in order. -/
structure Notified where
  manager : BluetoothManager
  stores : List Nat

/-- The manager as the constructor `BluetoothManager::BluetoothManager` builds it. -/
def idleManager : BluetoothManager :=
  { hasClient := false, hasWriteCharacteristic := false, hasReadCharacteristic := false,
    bleConnected := false, currentBatteryMac := "", responseBuffer := fun _ => 0,
    responseLength := 0, responseReceived := false, expectingMoreData := false,
    expectedTotalLength := 0 }

/-- The block `// Reset response state` of `sendCommandAndWaitResponse`: the four
assignments and `memset(responseBuffer, 0, sizeof(responseBuffer))`. -/
def BluetoothManager.resetResponseState (self : BluetoothManager) : BluetoothManager :=
  { self with
    responseReceived := false
    responseLength := 0
    expectingMoreData := false
    expectedTotalLength := 0
    responseBuffer := fun i => if i < 256 then 0 else self.responseBuffer i }

/-- The completion test at the end of `handleNotification`. -/
def BluetoothManager.checkComplete (self : BluetoothManager) : BluetoothManager :=
  if self.expectingMoreData = false ∨ self.responseLength ≥ self.expectedTotalLength ∨
      (self.responseLength > 0 ∧
        self.responseBuffer (Int.toNat (self.responseLength - 1)) = 0x77) then
    { self with responseReceived := true, expectingMoreData := false }
  else self

/-- The method `BluetoothManager::handleNotification` for a non-null `pData`.
The closing call of `printHex` has an empty loop body and is omitted. -/
def BluetoothManager.handleNotification (self : BluetoothManager) (pData : Nat → Byte)
    (length : Nat) : Notified :=
  if length = 0 ∨ length > 256 then { manager := self, stores := [] }
  else if length > 0 ∧ (toSizeT self.responseLength + length) % 4294967296 ≤ 256 then
    if length ≥ 4 ∧ pData 0 = 0xDD ∧ self.responseLength = 0 then
      let expected0 : Int := (shiftOr (pData 2) (pData 3) : Int)
      let expected1 : Int := expected0 + 7
      let expected2 : Int := if toSizeT expected1 > 256 then 256 else expected1
      { manager :=
          BluetoothManager.checkComplete
            { self with
              expectedTotalLength := expected2
              expectingMoreData := decide (toSizeT expected2 > length)
              responseBuffer := memcpy self.responseBuffer 0 pData length
              responseLength := (length : Int) }
        stores := List.range' 0 length }
    else if self.expectingMoreData = true ∧ self.responseLength > 0 then
      let copyLength : Nat :=
        min ((256 + 4294967296 - toSizeT self.responseLength) % 4294967296) length
      { manager :=
          BluetoothManager.checkComplete
            { self with
              responseBuffer :=
                memcpy self.responseBuffer (Int.toNat self.responseLength) pData copyLength
              responseLength := self.responseLength + (copyLength : Int) }
        stores := List.range' (Int.toNat self.responseLength) copyLength }
    else
      let copyLength : Nat := min 256 length
      { manager :=
          BluetoothManager.checkComplete
            { self with
              responseBuffer := memcpy self.responseBuffer 0 pData copyLength
              responseLength := (copyLength : Int)
              expectingMoreData := false }
        stores := List.range' 0 copyLength }
  else { manager := self, stores := [] }

/-- Delivery of the chunks `chunks`, in order, each as one notification. -/
def BluetoothManager.feed (self : BluetoothManager) (chunks : List (List Byte)) :
    BluetoothManager :=
  chunks.foldl (fun s c => (s.handleNotification (ofList c) c.length).manager) self

/-- The states reachable from the reset state of `s0` by calls of
`handleNotification`. -/
inductive Reachable (s0 : BluetoothManager) : BluetoothManager → Prop
  | reset : Reachable s0 s0.resetResponseState
  | notify (s : BluetoothManager) (pData : Nat → Byte) (length : Nat) :
      Reachable s0 s → Reachable s0 (s.handleNotification pData length).manager

/-- The manager while (`done = false`) or after (`done = true`) the bytes `got`
of a frame of `total` bytes have been accumulated from the reset state of `s0`. -/
def assembled (s0 : BluetoothManager) (total : Nat) (got : List Byte) (done : Bool) :
    BluetoothManager :=
  { s0.resetResponseState with
    expectedTotalLength := (total : Int)
    expectingMoreData := !done
    responseBuffer := memcpy s0.resetResponseState.responseBuffer 0 (ofList got) got.length
    responseLength := (got.length : Int)
    responseReceived := done }

/-- The value `handleNotification` stores in `expectedTotalLength` for a first
packet `pData`: the declared length plus 7, clamped to the buffer size. -/
def clampedTotal (pData : Nat → Byte) : Nat :=
  min (256 * (pData 2).val + (pData 3).val + 7) 256

/-- The frame `frame30` cut after its third byte: a 3-byte chunk and a 27-byte
chunk. -/
def frame30Early : List (List Byte) :=
  [[0xDD, 0x03, 0x00],
    [0x17, 0x14, 0x00, 0xFF, 0x9C, 0x07, 0xD0, 0x27, 0x10, 0, 0, 0, 0, 0, 0, 0, 0,
      0, 0, 0, 0, 0, 0, 0, 0x00, 0x00, 0x77]]

/-- Consistency of the reassembly members: the length is within the buffer,
the completion flag is up exactly when something was received and no
continuation is awaited, and a continuation is awaited only below the expected
total. -/
def Consistent (s : BluetoothManager) : Prop :=
  0 ≤ s.responseLength ∧ s.responseLength ≤ 256 ∧
    (s.responseReceived = true ↔ 0 < s.responseLength ∧ s.expectingMoreData = false) ∧
    (s.expectingMoreData = true →
      0 < s.responseLength ∧ s.responseLength < s.expectedTotalLength ∧
        s.expectedTotalLength ≤ 256)

/-- A 30-byte basic-info response: declared length 23, the four leading fields
of `basicFrame`, the remaining payload and the checksum bytes 0. -/
def frame30 : List Byte :=
  [0xDD, 0x03, 0x00, 0x17, 0x14, 0x00, 0xFF, 0x9C, 0x07, 0xD0,
    0x27, 0x10, 0, 0, 0, 0, 0, 0, 0, 0,
    0, 0, 0, 0, 0, 0, 0, 0x00, 0x00, 0x77]

/-- The frame `frame30` cut into three chunks of 10 bytes. -/
def frame30Split : List (List Byte) :=
  [[0xDD, 0x03, 0x00, 0x17, 0x14, 0x00, 0xFF, 0x9C, 0x07, 0xD0],
    [0x27, 0x10, 0, 0, 0, 0, 0, 0, 0, 0],
    [0, 0, 0, 0, 0, 0, 0, 0x00, 0x00, 0x77]]

/-! ## The command exchange of `BluetoothManager`

The embedding of `sendCommandAndWaitResponse`, `tryCommand`, `disconnect` and
`readBatteryData` (`src/src/BluetoothManager.cpp`). The BLE library and the clock
are the environment: it supplies every `millis()` reading (`unsigned long`, 32
bits), every `pClient->isConnected()` answer, whether `writeValue` throws, and
the notifications that arrive while the caller cedes control, which is inside
`writeValue`, `yield()` and `delay()`; each arriving chunk runs
`handleNotification`. Debug output is omitted. -/

/-- The `unsigned long` difference `now - start`. -/
def elapsed (now start : Nat) : Nat := Int.toNat (((now : Int) - (start : Int)) % 4294967296)

/-- What the environment supplies to one pass of the wait loop of
`sendCommandAndWaitResponse`, in program order: the `millis()` reading of the
loop condition, the one of the watchdog test, the chunks arriving during
`yield()`, the reading stored in `lastWatchdogFeed`, the answer of
`pClient->isConnected()`, the chunks arriving during `delay(25)`, the reading of
the retry test and the chunks arriving during `delay(100)`. What belongs to a
call the pass does not make is ignored. -/
structure Tick where
  nowCond : Nat
  nowFeed : Nat
  yielded : List (List Byte)
  nowFed : Nat
  linkUp : Bool
  delayed : List (List Byte)
  nowRetry : Nat
  retried : List (List Byte)

/-- What the environment supplies to one call of `sendCommandAndWaitResponse`:
whether `writeValue` throws, the chunks arriving during `writeValue`, the two
`millis()` readings before the loop, and one `Tick` per pass of the loop. -/
structure Exchange where
  writeThrows : Bool
  onWrite : List (List Byte)
  startTime : Nat
  firstFeed : Nat
  ticks : List Tick

/-- How the wait loop stands: still waiting when the supplied ticks ran out,
left by `return false` on a lost link, or left through its condition or `break`. -/
inductive WaitStatus where
  | pending
  | linkLost
  | left
  deriving DecidableEq

/-- The wait loop's view: its status, the manager, and the locals
`lastWatchdogFeed` and `retryCount`. -/
structure Waiting where
  status : WaitStatus
  manager : BluetoothManager
  lastWatchdogFeed : Nat
  retryCount : Int

/-- The loop `while (!responseReceived && (millis() - startTime) < timeoutMs)` of
`sendCommandAndWaitResponse`, run over the supplied ticks. -/
def waitLoop (startTime timeoutMs : Nat) : List Tick → Waiting → Waiting
  | [], w =>
    if w.manager.responseReceived = true then { w with status := WaitStatus.left }
    else { w with status := WaitStatus.pending }
  | t :: ts, w =>
    if w.manager.responseReceived = true then { w with status := WaitStatus.left }
    else if ¬ (elapsed t.nowCond startTime < timeoutMs) then
      { w with status := WaitStatus.left }
    else
      let fed : Bool := decide (elapsed t.nowFeed w.lastWatchdogFeed ≥ 500)
      let s1 : BluetoothManager := if fed then w.manager.feed t.yielded else w.manager
      let feed1 : Nat := if fed then t.nowFed else w.lastWatchdogFeed
      if s1.hasClient = false ∨ t.linkUp = false then
        { status := WaitStatus.linkLost, manager := s1, lastWatchdogFeed := feed1,
          retryCount := w.retryCount }
      else
        let s2 : BluetoothManager := s1.feed t.delayed
        if elapsed t.nowRetry startTime > timeoutMs / 2 ∧ w.retryCount < 3 then
          let s3 : BluetoothManager := s2.feed t.retried
          if s3.responseReceived = true then
            { status := WaitStatus.left, manager := s3, lastWatchdogFeed := feed1,
              retryCount := w.retryCount + 1 }
          else
            waitLoop startTime timeoutMs ts
              { status := WaitStatus.pending, manager := s3, lastWatchdogFeed := feed1,
                retryCount := w.retryCount + 1 }
        else
          waitLoop startTime timeoutMs ts
            { status := WaitStatus.pending, manager := s2, lastWatchdogFeed := feed1,
              retryCount := w.retryCount }

/-- What a call of `sendCommandAndWaitResponse` leaves behind: the returned
`bool`, the manager, and the byte strings passed to `writeValue`. -/
structure Exchanged where
  ret : Bool
  manager : BluetoothManager
  writes : List (List Byte)

/-- The `try` block of `sendCommandAndWaitResponse`: the write, the wait loop
and `return responseReceived`; a throwing `writeValue` ends in the `catch`
handlers, which return false. The result is `none` when the supplied ticks run
out while the loop is still waiting. -/
def BluetoothManager.writeAndWait (self : BluetoothManager) (command : Nat → Byte)
    (commandLength : Nat) (timeoutMs : Nat) (env : Exchange) : Option Exchanged :=
  let sent : List (List Byte) := [List.map command (List.range commandLength)]
  if env.writeThrows = true then some { ret := false, manager := self, writes := sent }
  else
    let w := waitLoop env.startTime timeoutMs env.ticks
      { status := WaitStatus.pending, manager := self.feed env.onWrite,
        lastWatchdogFeed := env.firstFeed, retryCount := 0 }
    match w.status with
    | WaitStatus.pending => none
    | WaitStatus.linkLost => some { ret := false, manager := w.manager, writes := sent }
    | WaitStatus.left =>
      some { ret := w.manager.responseReceived, manager := w.manager, writes := sent }

/-- The method `BluetoothManager::sendCommandAndWaitResponse` for a non-null
`command`. -/
def BluetoothManager.sendCommandAndWaitResponse (self : BluetoothManager)
    (command : Nat → Byte) (commandLength : Nat) (timeoutMs : Nat) (env : Exchange) :
    Option Exchanged :=
  if commandLength = 0 ∨ commandLength > 20 then
    some { ret := false, manager := self, writes := [] }
  else if self.hasWriteCharacteristic = false ∨ self.bleConnected = false then
    some { ret := false, manager := self, writes := [] }
  else self.resetResponseState.writeAndWait command commandLength timeoutMs env

/-- What a call of `tryCommand` leaves behind: the returned `bool`, the manager,
the record behind the `BatteryData&` argument and the byte strings passed to
`writeValue`. -/
structure Tried where
  ret : Bool
  manager : BluetoothManager
  batteryData : BatteryData
  writes : List (List Byte)

/-- Conversion of an `int` value to `uint8_t`. -/
def toUInt8 (v : Int) : Nat := Int.toNat (v % 256)

/-- The method `BluetoothManager::tryCommand`; its arguments `macAddress` and
`cmdName` are not used by the body. The local array `command` starts zeroed, and
`now` is the `millis()` reading of the decoder. -/
def BluetoothManager.tryCommand (self : BluetoothManager) (cmd : Byte)
    (batteryData : BatteryData) (env : Exchange) (now : Nat) : Option Tried :=
  if cmd = CMD_READ_BASIC_INFO ∨ cmd = CMD_READ_CELL_VOLTAGES ∨
      cmd = CMD_READ_HARDWARE_VERSION then
    let command := createCommand cmd (fun _ => 0)
    match self.sendCommandAndWaitResponse command.1 command.2 5000 env with
    | none => none
    | some r =>
      if r.ret = false then
        some { ret := false, manager := r.manager, batteryData := batteryData,
               writes := r.writes }
      else if r.manager.responseLength < 3 ∨ r.manager.responseBuffer 2 ≠ 0x00 then
        some { ret := false, manager := r.manager, batteryData := batteryData,
               writes := r.writes }
      else if cmd = CMD_READ_BASIC_INFO then
        let o := parseBasicInfoResponse r.manager.responseBuffer
          (toUInt8 r.manager.responseLength) batteryData now
        some { ret := o.ret, manager := r.manager, batteryData := o.batteryData,
               writes := r.writes }
      else if cmd = CMD_READ_CELL_VOLTAGES then
        let o := parseCellVoltageResponse r.manager.responseBuffer
          (toUInt8 r.manager.responseLength) batteryData now
        some { ret := o.ret, manager := r.manager, batteryData := o.batteryData,
               writes := r.writes }
      else
        some { ret := false, manager := r.manager, batteryData := batteryData,
               writes := r.writes }
  else some { ret := false, manager := self, batteryData := batteryData, writes := [] }

/-- The method `BluetoothManager::disconnect`, on the path without exception. -/
def BluetoothManager.disconnect (self : BluetoothManager) : BluetoothManager :=
  { self with bleConnected := false, hasWriteCharacteristic := false,
              hasReadCharacteristic := false }

/-- What the environment supplies to one call of `readBatteryData`: the call
`connectToBattery(macAddress)`, as its result and the manager it leaves, and for
each of the two `tryCommand` calls its exchange and decoder clock reading. -/
structure Scan where
  connect : BluetoothManager → Bool × BluetoothManager
  basic : Exchange
  basicNow : Nat
  cell : Exchange
  cellNow : Nat

/-- What a call of `readBatteryData` leaves behind: the returned `bool`, the
manager, the record, and the command codes passed to `tryCommand`, in order. -/
structure Scanned where
  ret : Bool
  manager : BluetoothManager
  batteryData : BatteryData
  attempted : List Byte

/-- The method `BluetoothManager::readBatteryData`. `tryCommand` throws nothing,
so the `catch` handler of the method is not reached. -/
def BluetoothManager.readBatteryData (self : BluetoothManager) (macAddress : String)
    (batteryData : BatteryData) (env : Scan) : Option Scanned :=
  if (env.connect self).1 = false then
    some { ret := false, manager := (env.connect self).2, batteryData := batteryData,
           attempted := [] }
  else
    let bd0 : BatteryData := { batteryData with macAddress := macAddress, dataValid := false }
    match (env.connect self).2.tryCommand CMD_READ_BASIC_INFO bd0 env.basic env.basicNow with
    | none => none
    | some r1 =>
      if r1.ret = true then
        match r1.manager.tryCommand CMD_READ_CELL_VOLTAGES r1.batteryData env.cell
            env.cellNow with
        | none => none
        | some r2 =>
          some { ret := true && r2.batteryData.dataValid, manager := r2.manager.disconnect,
                 batteryData := r2.batteryData,
                 attempted := [CMD_READ_BASIC_INFO, CMD_READ_CELL_VOLTAGES] }
      else
        some { ret := false && r1.batteryData.dataValid, manager := r1.manager.disconnect,
               batteryData := r1.batteryData, attempted := [CMD_READ_BASIC_INFO] }

/-- A `connectToBattery` that succeeds and leaves the manager with a client,
both characteristics and the link up. -/
def connectOk (s : BluetoothManager) : Bool × BluetoothManager :=
  (true, { s with hasClient := true, hasWriteCharacteristic := true,
                  hasReadCharacteristic := true, bleConnected := true })

/-- An exchange in which nothing arrives and the first reading of the loop
condition is already `late` milliseconds after the start. -/
def silentExchange (late : Nat) : Exchange :=
  { writeThrows := false, onWrite := [], startTime := 1000, firstFeed := 1000,
    ticks :=
      [{ nowCond := 1000 + late, nowFeed := 0, yielded := [], nowFed := 0, linkUp := true,
         delayed := [], nowRetry := 0, retried := [] }] }

/-- An exchange in which nothing arrives during the write, the first pass of the
loop (25 ms after the start) receives `chunks` during `delay(25)`, and a second
pass follows at 50 ms. -/
def promptExchange (chunks : List (List Byte)) : Exchange :=
  { writeThrows := false, onWrite := [], startTime := 1000, firstFeed := 1000,
    ticks :=
      [{ nowCond := 1000, nowFeed := 1000, yielded := [], nowFed := 1000, linkUp := true,
         delayed := chunks, nowRetry := 1025, retried := [] },
       { nowCond := 1050, nowFeed := 1050, yielded := [], nowFed := 1050, linkUp := true,
         delayed := [], nowRetry := 1075, retried := [] }] }

/-- An exchange in which the first pass of the loop (at the start time)
receives only the first 10 bytes of `frame30` during `delay(25)`, nothing
follows, and the second reading of the loop condition is 5000 ms after the
start. -/
def stalledExchange : Exchange :=
  { writeThrows := false, onWrite := [], startTime := 1000, firstFeed := 1000,
    ticks :=
      [{ nowCond := 1000, nowFeed := 1000, yielded := [], nowFed := 1000, linkUp := true,
         delayed := [[0xDD, 0x03, 0x00, 0x17, 0x14, 0x00, 0xFF, 0x9C, 0x07, 0xD0]],
         nowRetry := 1025, retried := [] },
       { nowCond := 6000, nowFeed := 6000, yielded := [], nowFed := 6000, linkUp := true,
         delayed := [], nowRetry := 6025, retried := [] }] }

/-- A scan in which the connection succeeds, the basic-info exchange receives
`basicFrame` and the cell-voltage exchange times out. -/
def scanCellTimeout : Scan :=
  { connect := connectOk, basic := promptExchange [basicFrame], basicNow := 7,
    cell := silentExchange 5000, cellNow := 9 }

/-- A scan in which the connection succeeds and the basic-info exchange times
out. -/
def scanBasicTimeout : Scan :=
  { connect := connectOk, basic := silentExchange 5000, basicNow := 7,
    cell := promptExchange [cellFrame], cellNow := 9 }

/-- The outcome of `tryCommand` with `0x03` in `scanCellTimeout`, with a failed
outcome on an idle manager standing in should the exchange not end. -/
def scanCellTimeoutBasic : Tried :=
  ((scanCellTimeout.connect idleManager).2.tryCommand CMD_READ_BASIC_INFO
    { emptyRecord with macAddress := "AA:BB", dataValid := false } scanCellTimeout.basic
    scanCellTimeout.basicNow).getD
    { ret := false, manager := idleManager, batteryData := emptyRecord, writes := [] }

/-- The outcome of `tryCommand` with `0x04` after `scanCellTimeoutBasic`, with
the same stand-in. -/
def scanCellTimeoutCell : Tried :=
  (scanCellTimeoutBasic.manager.tryCommand CMD_READ_CELL_VOLTAGES
    scanCellTimeoutBasic.batteryData scanCellTimeout.cell scanCellTimeout.cellNow).getD
    { ret := false, manager := idleManager, batteryData := emptyRecord, writes := [] }

/-- A manager with a client, both characteristics and the link up, as
`connectToBattery` and the connect callback leave it. -/
def linkedManager : BluetoothManager :=
  { idleManager with hasClient := true, hasWriteCharacteristic := true,
                     hasReadCharacteristic := true, bleConnected := true }

/-- A record as a basic-info decode leaves it: the fields of `basicFrame`,
switch flags, and three stale cell entries at slots 3, 4 and 5. -/
def seededRecord : BatteryData :=
  { macAddress := "AA:BB", voltage := 51.2, current := -1, remainingAh := 20, maxAh := 100,
    watts := -51.2, soc := 20, temperature := 30, switches := "C+D-", numCells := 6,
    cellVoltages := fun i => if i = 3 ∨ i = 4 ∨ i = 5 then 9 else 0,
    dataValid := true, timestamp := 5 }

/-- The first 250 bytes of a 256-byte basic-info response (declared length
249), all payload bytes 0. -/
def chunk250 : List Byte := [0xDD, 0x03, 0x00, 0xF9] ++ List.replicate 246 0

/-- A chunk of ten bytes `0x01`. -/
def tenBytes : List Byte := List.replicate 10 0x01

/-- A 7-byte response whose byte 2 is `0x80` instead of `0x00`. -/
def errorFrame : List Byte := [0xDD, 0x03, 0x80, 0x00, 0xFF, 0x80, 0x77]

/-- A 256-byte basic-info response: declared length 249, payload and checksum
bytes 0, end marker at index 255. -/
def frame256 : List Byte := [0xDD, 0x03, 0x00, 0xF9] ++ List.replicate 251 0 ++ [0x77]

/-- A failed exchange on an idle manager, standing in where an exchange does
not end. -/
def noExchange : Exchanged := { ret := false, manager := idleManager, writes := [] }

/-- A failed `tryCommand` on an idle manager, standing in where a call does not
end. -/
def noTry : Tried :=
  { ret := false, manager := idleManager, batteryData := emptyRecord, writes := [] }

/-- The outcome of `sendCommandAndWaitResponse` for the basic-info command on
`linkedManager` when `errorFrame` arrives. -/
def errorExchanged : Exchanged :=
  (linkedManager.sendCommandAndWaitResponse (createCommand CMD_READ_BASIC_INFO (fun _ => 0)).1
    (createCommand CMD_READ_BASIC_INFO (fun _ => 0)).2 5000
    (promptExchange [errorFrame])).getD noExchange

/-- The outcome of `tryCommand` with `0x03` on `linkedManager` when `errorFrame`
arrives. -/
def errorTried : Tried :=
  (linkedManager.tryCommand CMD_READ_BASIC_INFO seededRecord (promptExchange [errorFrame])
    7).getD noTry

/-- The outcome of `sendCommandAndWaitResponse` for the basic-info command on
`linkedManager` when `frame256` arrives. -/
def longExchanged : Exchanged :=
  (linkedManager.sendCommandAndWaitResponse (createCommand CMD_READ_BASIC_INFO (fun _ => 0)).1
    (createCommand CMD_READ_BASIC_INFO (fun _ => 0)).2 5000
    (promptExchange [frame256])).getD noExchange

/-- The outcome of `tryCommand` with `0x03` on `linkedManager` when `frame256`
arrives. -/
def longTried : Tried :=
  (linkedManager.tryCommand CMD_READ_BASIC_INFO seededRecord (promptExchange [frame256])
    7).getD noTry

/-- Two records agree on the address and on the fields every accepted
basic-info frame assigns: `voltage`, `current`, `remainingAh`, `maxAh`, `watts`,
`soc`, `temperature`, `dataValid` and `timestamp`. -/
def SameCore (a b : BatteryData) : Prop :=
  a.macAddress = b.macAddress ∧ a.voltage = b.voltage ∧ a.current = b.current ∧
  a.remainingAh = b.remainingAh ∧ a.maxAh = b.maxAh ∧ a.watts = b.watts ∧ a.soc = b.soc ∧
  a.temperature = b.temperature ∧ a.dataValid = b.dataValid ∧ a.timestamp = b.timestamp

/-- Two records agree on `numCells` and on the entries of `cellVoltages` below
`min numCells 32`. -/
def SameCells (a b : BatteryData) : Prop :=
  a.numCells = b.numCells ∧ ∀ i, i < min a.numCells 32 → a.cellVoltages i = b.cellVoltages i

/-- A failed `readBatteryData` on an idle manager, standing in where a call does
not end. -/
def noScan : Scanned :=
  { ret := false, manager := idleManager, batteryData := emptyRecord, attempted := [] }

/-- A scan in which the connection succeeds, the basic-info exchange receives
`basicFrame` and the cell-voltage exchange receives `cellFrame`. -/
def scanBoth : Scan :=
  { connect := connectOk, basic := promptExchange [basicFrame], basicNow := 7,
    cell := promptExchange [cellFrame], cellNow := 9 }

/-- The outcome of `readBatteryData` in `scanCellTimeout`, starting from
`emptyRecord`. -/
def scanCellTimeoutScanned : Scanned :=
  (idleManager.readBatteryData "AA:BB" emptyRecord scanCellTimeout).getD noScan

/-! ## The store of `main.cpp` -/

/-- The constant `BATTERY_COUNT` of `config.h`. -/
def BATTERY_COUNT : Nat := 2

/-- The members `latestBatteryData` and `lastDataUpdate` of `WebServerManager`,
arrays of `BATTERY_COUNT` entries, as functions of the index. -/
structure WebServerManager where
  latestBatteryData : Nat → BatteryData
  lastDataUpdate : Nat → Nat

/-- The method `WebServerManager::updateBatteryData`; `batteryIndex` is an
`int`. -/
def WebServerManager.updateBatteryData (self : WebServerManager) (batteryIndex : Int)
    (batteryData : BatteryData) : WebServerManager :=
  if batteryIndex ≥ 0 ∧ batteryIndex < (BATTERY_COUNT : Int) then
    { self with
      latestBatteryData :=
        Function.update self.latestBatteryData batteryIndex.toNat batteryData }
  else self

/-- The method `WebServerManager::setBatteryDataUpdateTime`. -/
def WebServerManager.setBatteryDataUpdateTime (self : WebServerManager) (batteryIndex : Int)
    (updateTime : Nat) : WebServerManager :=
  if batteryIndex ≥ 0 ∧ batteryIndex < (BATTERY_COUNT : Int) then
    { self with
      lastDataUpdate := Function.update self.lastDataUpdate batteryIndex.toNat updateTime }
  else self

/-- The globals of `main.cpp` that its `readBatteryData` touches: the Bluetooth
manager, the web server manager, and for the MQTT client the records passed to
`publishBatteryData` so far, oldest first. -/
structure Globals where
  bluetoothManager : BluetoothManager
  webServerManager : WebServerManager
  published : List BatteryData

/-- What the environment supplies to one call of `readBatteryData` of
`main.cpp`: the configured array `BATTERY_MAC_ADDRESSES`, the content of the
local `batteryData` before the scan (the struct has no initialiser), the scan,
the `millis()` reading stored as update time, and the answer of
`mqttClient.isConnected()`. -/
structure Reading where
  addresses : Nat → String
  uninitialised : BatteryData
  scan : Scan
  now : Nat
  mqttConnected : Bool

/-- The `for` loop of `readBatteryData` in `main.cpp` from index `i` on, at most
`fuel` passes: the first index below `BATTERY_COUNT` whose configured address
equals `macAddress` is stored with its update time, and the loop is left
(`break`). -/
def storeLoop (addresses : Nat → String) (macAddress : String) (batteryData : BatteryData)
    (now : Nat) : Nat → Nat → WebServerManager → WebServerManager
  | 0, _, w => w
  | fuel + 1, i, w =>
    if i < BATTERY_COUNT then
      if addresses i = macAddress then
        (w.updateBatteryData (i : Int) batteryData).setBatteryDataUpdateTime (i : Int) now
      else storeLoop addresses macAddress batteryData now fuel (i + 1) w
    else w

/-- The function `readBatteryData(const String& macAddress)` of `main.cpp`, on
the path without exception. The result is `none` when an exchange of the scan
does not come to an end within its ticks. -/
def readBatteryData (g : Globals) (macAddress : String) (env : Reading) : Option Globals :=
  match g.bluetoothManager.readBatteryData macAddress env.uninitialised env.scan with
  | none => none
  | some r =>
    if r.ret = true ∧ r.batteryData.dataValid = true then
      some { bluetoothManager := r.manager
             webServerManager :=
               storeLoop env.addresses macAddress r.batteryData env.now BATTERY_COUNT 0
                 g.webServerManager
             published :=
               if env.mqttConnected = true then g.published ++ [r.batteryData]
               else g.published }
    else some { g with bluetoothManager := r.manager }

/-- Globals in which both stored entries hold `seededRecord`, updated at time 5,
and nothing was published. -/
def seededGlobals : Globals :=
  { bluetoothManager := idleManager
    webServerManager := { latestBatteryData := fun _ => seededRecord, lastDataUpdate := fun _ => 5 }
    published := [] }

/-- A call in which the configured addresses are `"AA:BB"` and `"CC:DD"`, the
local starts as `emptyRecord`, the scan is `scan`, and MQTT is connected. -/
def readingOf (scan : Scan) : Reading :=
  { addresses := fun i => if i = 0 then "AA:BB" else if i = 1 then "CC:DD" else ""
    uninitialised := emptyRecord, scan := scan, now := 99, mqttConnected := true }

/-- The outcome of the scan of `"CC:DD"` in `scanBasicTimeout`. -/
def failedScanned : Scanned :=
  (idleManager.readBatteryData "CC:DD" emptyRecord scanBasicTimeout).getD noScan

/-- The outcome of the scan of `"CC:DD"` in `scanBoth`. -/
def secondScanned : Scanned :=
  (idleManager.readBatteryData "CC:DD" emptyRecord scanBoth).getD noScan

/-- Two managers agree on everything but the reassembly members: on the three
pointers, the link flag, the address, and the memory behind the 256 bytes of
`responseBuffer`. -/
def SameLink (a b : BluetoothManager) : Prop :=
  a.hasClient = b.hasClient ∧ a.hasWriteCharacteristic = b.hasWriteCharacteristic ∧
  a.hasReadCharacteristic = b.hasReadCharacteristic ∧ a.bleConnected = b.bleConnected ∧
  a.currentBatteryMac = b.currentBatteryMac ∧
  ∀ i, 256 ≤ i → a.responseBuffer i = b.responseBuffer i

/-- A pass of the wait loop that begins 4990 ms after the send: nothing arrives
during `delay(25)`, the retry test reads the clock 5015 ms after the send, and
`basicFrame` arrives during the `delay(100)` that follows. -/
def lateTick : Tick :=
  { nowCond := 5990, nowFeed := 5990, yielded := [], nowFed := 5990, linkUp := true,
    delayed := [], nowRetry := 6015, retried := [basicFrame] }

/-- An exchange sent at clock reading 1000 whose only pass is `lateTick`. -/
def lateExchange : Exchange :=
  { writeThrows := false, onWrite := [], startTime := 1000, firstFeed := 1000,
    ticks := [lateTick] }

/-- An exchange sent at clock reading 4294967000, 296 ms before the 32-bit clock
wraps: the first pass, at the send time, receives the first 10 bytes of
`frame30` during `delay(25)`; the second pass reads the clock at 4704, which is
5000 ms after the send. -/
def wrappedExchange : Exchange :=
  { writeThrows := false, onWrite := [], startTime := 4294967000, firstFeed := 4294967000,
    ticks :=
      [{ nowCond := 4294967000, nowFeed := 4294967000, yielded := [], nowFed := 4294967000,
         linkUp := true,
         delayed := [[0xDD, 0x03, 0x00, 0x17, 0x14, 0x00, 0xFF, 0x9C, 0x07, 0xD0]],
         nowRetry := 4294967025, retried := [] },
       { nowCond := 4704, nowFeed := 4704, yielded := [], nowFed := 4704, linkUp := true,
         delayed := [], nowRetry := 4729, retried := [] }] }

/-! ## Arithmetic of the embedding -/

theorem shiftOr_eq (hi lo : Byte) : shiftOr hi lo = 256 * hi.val + lo.val := by
  unfold shiftOr
  have h : lo.val < 2 ^ 8 := lo.isLt
  rw [Nat.shiftLeft_eq, Nat.mul_comm, ← Nat.mul_add_lt_is_or h]

theorem be16_eq (hi lo : Byte) : be16 hi lo = 256 * hi.val + lo.val := by
  unfold be16
  rw [shiftOr_eq]
  have h1 := hi.isLt
  have h2 := lo.isLt
  omega

/-! ## Normal forms of the two decoders -/

theorem basic_cases (data : Nat → Byte) (n : Nat) (bd : BatteryData) (now : Nat) :
    (¬ FrameOk 0x03 data n ∧
      (parseBasicInfoResponse data n bd now).ret = false ∧
      (parseBasicInfoResponse data n bd now).batteryData = bd ∧
      (parseBasicInfoResponse data n bd now).cellWrites = [] ∧
      ∀ k ∈ (parseBasicInfoResponse data n bd now).reads,
        (k = 0 ∨ k = n - 1 ∨ k = 1 ∨ k = 2 ∨ k = 3) ∧ 7 ≤ n) ∨
    (FrameOk 0x03 data n ∧
      parseBasicInfoResponse data n bd now =
        { ret := true
          batteryData :=
            { bd with
              voltage := (be16 (data 4) (data 5) : ℚ) / 100
              current :=
                ((if wrapInt16 (shiftOr (data 6) (data 7)) > 0x7fff then
                    wrapInt16 (wrapInt16 (shiftOr (data 6) (data 7)) - 0x10000)
                  else wrapInt16 (shiftOr (data 6) (data 7)) : Int) : ℚ) / 100
              remainingAh := (be16 (data 8) (data 9) : ℚ) / 100
              maxAh := (be16 (data 10) (data 11) : ℚ) / 100
              watts :=
                (be16 (data 4) (data 5) : ℚ) / 100 *
                  (((if wrapInt16 (shiftOr (data 6) (data 7)) > 0x7fff then
                      wrapInt16 (wrapInt16 (shiftOr (data 6) (data 7)) - 0x10000)
                    else wrapInt16 (shiftOr (data 6) (data 7)) : Int) : ℚ) / 100)
              soc :=
                if (be16 (data 10) (data 11) : ℚ) / 100 > 0 then
                  100 * ((be16 (data 8) (data 9) : ℚ) / 100 / ((be16 (data 10) (data 11) : ℚ) / 100))
                else 0
              switches :=
                if decide ((24 : Int) < (n : Int) - 3) then
                  (if (data 24).val &&& 0x01 ≠ 0 then "C+" else "C-") ++
                    (if (data 24).val &&& 0x02 ≠ 0 then "D+" else "D-")
                else bd.switches
              temperature :=
                if decide ((27 : Int) + 1 < (n : Int) - 3) then
                  (((be16 (data 27) (data 28) : Int) - 2731 : Int) : ℚ) * 0.1
                else 0
              dataValid := true
              timestamp := now }
          reads :=
            if decide ((27 : Int) + 1 < (n : Int) - 3) then
              (if decide ((24 : Int) < (n : Int) - 3) then
                [0, n - 1, 1, 2, 3, 4, 5, 6, 7, 8, 9, 10, 11] ++ [24]
              else [0, n - 1, 1, 2, 3, 4, 5, 6, 7, 8, 9, 10, 11]) ++ [27, 28]
            else
              (if decide ((24 : Int) < (n : Int) - 3) then
                [0, n - 1, 1, 2, 3, 4, 5, 6, 7, 8, 9, 10, 11] ++ [24]
              else [0, n - 1, 1, 2, 3, 4, 5, 6, 7, 8, 9, 10, 11])
          cellWrites := [] }) := by
  have hb := be16_eq (data 2) (data 3)
  unfold FrameOk parseBasicInfoResponse
  by_cases h1 : n < 7
  · rw [if_pos h1]
    exact Or.inl ⟨fun h => by omega, rfl, rfl, rfl, fun k hk => by cases hk⟩
  rw [if_neg h1]
  by_cases h2 : data 0 = FRAME_START
  swap
  · rw [if_pos h2]
    refine Or.inl ⟨fun h => h2 h.2.1, rfl, rfl, rfl, fun k hk => ?_⟩
    simp only [List.mem_singleton] at hk
    omega
  rw [if_neg (not_not.mpr h2)]
  by_cases h3 : data (n - 1) = FRAME_END
  swap
  · rw [if_pos h3]
    refine Or.inl ⟨fun h => h3 h.2.2.1, rfl, rfl, rfl, fun k hk => ?_⟩
    simp only [List.mem_cons, List.mem_singleton, List.not_mem_nil, or_false] at hk
    omega
  rw [if_neg (not_not.mpr h3)]
  by_cases h4 : data 1 = CMD_READ_BASIC_INFO
  swap
  · rw [if_pos h4]
    refine Or.inl ⟨fun h => h4 h.2.2.2.1, rfl, rfl, rfl, fun k hk => ?_⟩
    simp only [List.mem_cons, List.mem_singleton, List.not_mem_nil, or_false] at hk
    omega
  rw [if_neg (not_not.mpr h4)]
  by_cases h5 : (n : Int) < (be16 (data 2) (data 3) : Int) + 7
  · refine Or.inl ⟨fun h => by omega, ?_, ?_, ?_, fun k hk => ?_⟩
    · exact congrArg Outcome.ret (if_pos h5)
    · exact congrArg Outcome.batteryData (if_pos h5)
    · exact congrArg Outcome.cellWrites (if_pos h5)
    · change k ∈ (if _ then _ else _ : Outcome).reads at hk
      rw [if_pos h5] at hk
      simp only [List.mem_cons, List.mem_singleton, List.not_mem_nil, or_false] at hk
      omega
  · refine Or.inr ⟨⟨by omega, h2, h3, h4, by omega⟩, ?_⟩
    exact if_neg h5

theorem cell_cases (data : Nat → Byte) (n : Nat) (bd : BatteryData) (now : Nat) :
    (¬ FrameOk 0x04 data n ∧
      (parseCellVoltageResponse data n bd now).ret = false ∧
      (parseCellVoltageResponse data n bd now).batteryData = bd ∧
      (parseCellVoltageResponse data n bd now).cellWrites = [] ∧
      ∀ k ∈ (parseCellVoltageResponse data n bd now).reads,
        (k = 0 ∨ k = n - 1 ∨ k = 1 ∨ k = 2 ∨ k = 3) ∧ 7 ≤ n) ∨
    (FrameOk 0x04 data n ∧
      parseCellVoltageResponse data n bd now =
        { ret := true
          batteryData :=
            { bd with
              numCells := be16 (data 2) (data 3) / 2 % 256
              cellVoltages :=
                (cellLoop data (be16 (data 2) (data 3) / 2 % 256) 32
                  (cellLoopInit n bd)).cellVoltages
              dataValid := true
              timestamp := now }
          reads :=
            (cellLoop data (be16 (data 2) (data 3) / 2 % 256) 32 (cellLoopInit n bd)).reads
          cellWrites :=
            (cellLoop data (be16 (data 2) (data 3) / 2 % 256) 32
              (cellLoopInit n bd)).cellWrites }) := by
  have hb := be16_eq (data 2) (data 3)
  unfold FrameOk parseCellVoltageResponse
  by_cases h1 : n < 7
  · rw [if_pos h1]
    exact Or.inl ⟨fun h => by omega, rfl, rfl, rfl, fun k hk => by cases hk⟩
  rw [if_neg h1]
  by_cases h2 : data 0 = FRAME_START
  swap
  · rw [if_pos h2]
    refine Or.inl ⟨fun h => h2 h.2.1, rfl, rfl, rfl, fun k hk => ?_⟩
    simp only [List.mem_singleton] at hk
    omega
  rw [if_neg (not_not.mpr h2)]
  by_cases h3 : data (n - 1) = FRAME_END
  swap
  · rw [if_pos h3]
    refine Or.inl ⟨fun h => h3 h.2.2.1, rfl, rfl, rfl, fun k hk => ?_⟩
    simp only [List.mem_cons, List.mem_singleton, List.not_mem_nil, or_false] at hk
    omega
  rw [if_neg (not_not.mpr h3)]
  by_cases h4 : data 1 = CMD_READ_CELL_VOLTAGES
  swap
  · rw [if_pos h4]
    refine Or.inl ⟨fun h => h4 h.2.2.2.1, rfl, rfl, rfl, fun k hk => ?_⟩
    simp only [List.mem_cons, List.mem_singleton, List.not_mem_nil, or_false] at hk
    omega
  rw [if_neg (not_not.mpr h4)]
  by_cases h5 : (n : Int) < (be16 (data 2) (data 3) : Int) + 7
  · refine Or.inl ⟨fun h => by omega, ?_, ?_, ?_, fun k hk => ?_⟩
    · exact congrArg Outcome.ret (if_pos h5)
    · exact congrArg Outcome.batteryData (if_pos h5)
    · exact congrArg Outcome.cellWrites (if_pos h5)
    · change k ∈ (if _ then _ else _ : Outcome).reads at hk
      rw [if_pos h5] at hk
      simp only [List.mem_cons, List.mem_singleton, List.not_mem_nil, or_false] at hk
      omega
  · refine Or.inr ⟨⟨by omega, h2, h3, h4, by omega⟩, ?_⟩
    exact if_neg h5

/-! ## The cell loop -/

theorem cellLoop_spec (data : Nat → Byte) (numCells : Nat) :
    ∀ (fuel : Nat) (s : CellLoop), 32 ≤ s.i + fuel → s.offset = 4 + 2 * s.i →
      (¬ ((cellLoop data numCells fuel s).i < numCells ∧ (cellLoop data numCells fuel s).i < 32)) ∧
      (∀ j, (cellLoop data numCells fuel s).cellVoltages j =
        if s.i ≤ j ∧ j < min numCells 32 then
          (be16 (data (4 + 2 * j)) (data (5 + 2 * j)) : ℚ) / 1000
        else s.cellVoltages j) ∧
      (cellLoop data numCells fuel s).cellWrites =
        s.cellWrites ++ List.range' s.i (min numCells 32 - s.i) ∧
      (∀ k, k ∈ (cellLoop data numCells fuel s).reads ↔
        k ∈ s.reads ∨ ∃ j, s.i ≤ j ∧ j < min numCells 32 ∧ (k = 4 + 2 * j ∨ k = 5 + 2 * j)) := by
  intro fuel
  induction fuel with
  | zero =>
    intro s hf ho
    have hi : 32 ≤ s.i := by omega
    refine ⟨fun h => by simp only [cellLoop] at h; omega, fun j => ?_, ?_, fun k => ?_⟩
    · simp only [cellLoop]
      rw [if_neg (by omega)]
    · simp only [cellLoop]
      rw [show min numCells 32 - s.i = 0 by omega]
      simp
    · simp only [cellLoop]
      constructor
      · exact fun h => Or.inl h
      · rintro (h | ⟨j, h1, h2, _⟩)
        · exact h
        · omega
  | succ fuel ih =>
    intro s hf ho
    by_cases hg : s.i < numCells ∧ s.i < 32
    · have hstep : cellLoop data numCells (fuel + 1) s =
          cellLoop data numCells fuel
            { i := s.i + 1
              offset := (s.offset + 2) % 256
              cellVoltages := Function.update s.cellVoltages s.i
                ((be16 (data s.offset) (data (s.offset + 1)) : ℚ) / 1000)
              reads := s.reads ++ [s.offset, s.offset + 1]
              cellWrites := s.cellWrites ++ [s.i] } := by
        simp only [cellLoop]
        rw [if_pos hg]
      rw [hstep]
      obtain ⟨e1, e2, e3, e4⟩ := ih
        { i := s.i + 1
          offset := (s.offset + 2) % 256
          cellVoltages := Function.update s.cellVoltages s.i
            ((be16 (data s.offset) (data (s.offset + 1)) : ℚ) / 1000)
          reads := s.reads ++ [s.offset, s.offset + 1]
          cellWrites := s.cellWrites ++ [s.i] }
        (show 32 ≤ s.i + 1 + fuel by omega)
        (show (s.offset + 2) % 256 = 4 + 2 * (s.i + 1) by omega)
      dsimp only at e2 e3 e4
      refine ⟨e1, fun j => ?_, ?_, fun k => ?_⟩
      · rw [e2 j]
        by_cases hj : s.i + 1 ≤ j ∧ j < min numCells 32
        · rw [if_pos hj, if_pos ⟨by omega, hj.2⟩]
        · rw [if_neg hj]
          by_cases hj2 : j = s.i
          · subst hj2
            rw [if_pos ⟨le_refl _, by omega⟩, Function.update_same, ho,
              show 4 + 2 * s.i + 1 = 5 + 2 * s.i by omega]
          · rw [Function.update_noteq hj2, if_neg (by omega)]
      · rw [e3]
        have hm : min numCells 32 - s.i = (min numCells 32 - (s.i + 1)) + 1 := by omega
        rw [hm, List.range'_succ, List.append_assoc]
        rfl
      · rw [e4 k]
        simp only [List.mem_append, List.mem_cons, List.mem_singleton, List.not_mem_nil, or_false]
        constructor
        · rintro ((h | h | h) | ⟨j, h1, h2, h3⟩)
          · exact Or.inl h
          · exact Or.inr ⟨s.i, le_refl _, by omega, Or.inl (by omega)⟩
          · exact Or.inr ⟨s.i, le_refl _, by omega, Or.inr (by omega)⟩
          · exact Or.inr ⟨j, by omega, h2, h3⟩
        · rintro (h | ⟨j, h1, h2, h3⟩)
          · exact Or.inl (Or.inl h)
          · by_cases hj : j = s.i
            · subst hj
              rcases h3 with h3 | h3
              · exact Or.inl (Or.inr (Or.inl (by omega)))
              · exact Or.inl (Or.inr (Or.inr (by omega)))
            · exact Or.inr ⟨j, by omega, h2, h3⟩
    · have hstep : cellLoop data numCells (fuel + 1) s = s := by
        simp only [cellLoop]
        rw [if_neg hg]
      rw [hstep]
      refine ⟨hg, fun j => ?_, ?_, fun k => ?_⟩
      · rw [if_neg (by omega)]
      · rw [show min numCells 32 - s.i = 0 by omega]
        simp
      · constructor
        · exact fun h => Or.inl h
        · rintro (h | ⟨j, h1, h2, _⟩)
          · exact h
          · omega


/-! ## The checksum loop -/

theorem checksum_sum_eq (f : Nat → Nat) (m : Nat) :
    (List.range m).foldl (fun sum i => (sum + f i) % 65536) 0 =
      (∑ i in Finset.range m, f i) % 65536 := by
  induction m with
  | zero => rfl
  | succ m ih =>
    rw [List.range_succ, List.foldl_append, ih, Finset.sum_range_succ]
    simp only [List.foldl_cons, List.foldl_nil]
    omega

theorem verifyChecksum_iff (data : Nat → Byte) (n : Nat) :
    verifyChecksum data n = true ↔
      7 ≤ n ∧
        (65536 - (∑ i in Finset.range (n - 3), (data i).val) % 65536) % 65536 =
          256 * (data (n - 3)).val + (data (n - 2)).val := by
  unfold verifyChecksum
  by_cases h1 : n < 7
  · rw [if_pos h1]
    exact ⟨fun h => (by cases h), fun h => by omega⟩
  · rw [if_neg h1]
    simp only [decide_eq_true_eq, calculateChecksum, be16_eq]
    rw [checksum_sum_eq (fun i => (data i).val) (n - 3)]
    have h2 := (data (n - 3)).isLt
    have h3 := (data (n - 2)).isLt
    omega

theorem frameOk_withChecksum (cmd : Byte) (data : Nat → Byte) (n : Nat) (x y : Byte) :
    FrameOk cmd (withChecksum data n x y) n ↔ FrameOk cmd data n := by
  unfold FrameOk withChecksum
  by_cases h : 7 ≤ n
  · have e : ∀ k, k ≠ n - 3 → k ≠ n - 2 →
        Function.update (Function.update data (n - 3) x) (n - 2) y k = data k := by
      intro k h3 h2
      rw [Function.update_noteq h2, Function.update_noteq h3]
    rw [e 0 (by omega) (by omega), e 1 (by omega) (by omega), e 2 (by omega) (by omega),
      e 3 (by omega) (by omega), e (n - 1) (by omega) (by omega)]
  · exact ⟨fun h1 => absurd h1.1 h, fun h1 => absurd h1.1 h⟩

theorem basic_ret_iff (data : Nat → Byte) (n : Nat) (bd : BatteryData) (now : Nat) :
    (parseBasicInfoResponse data n bd now).ret = true ↔ FrameOk 0x03 data n := by
  rcases basic_cases data n bd now with ⟨h1, h2, _⟩ | ⟨h1, h2⟩
  · rw [h2]
    exact ⟨fun h => (by cases h), fun h => absurd h h1⟩
  · rw [h2]
    exact ⟨fun _ => h1, fun _ => rfl⟩

theorem cell_ret_iff (data : Nat → Byte) (n : Nat) (bd : BatteryData) (now : Nat) :
    (parseCellVoltageResponse data n bd now).ret = true ↔ FrameOk 0x04 data n := by
  rcases cell_cases data n bd now with ⟨h1, h2, _⟩ | ⟨h1, h2⟩
  · rw [h2]
    exact ⟨fun h => (by cases h), fun h => absurd h h1⟩
  · rw [h2]
    exact ⟨fun _ => h1, fun _ => rfl⟩

/-! ## The basic-info fields -/

theorem current_raw_eq (hi lo : Byte) :
    (if wrapInt16 (shiftOr hi lo) > 0x7fff then
        wrapInt16 (wrapInt16 (shiftOr hi lo) - 0x10000)
      else wrapInt16 (shiftOr hi lo)) =
      if 256 * hi.val + lo.val < 0x8000 then ((256 * hi.val + lo.val : Nat) : Int)
      else ((256 * hi.val + lo.val : Nat) : Int) - 0x10000 := by
  rw [shiftOr_eq]
  unfold wrapInt16
  have h1 := hi.isLt
  have h2 := lo.isLt
  split_ifs <;> omega

theorem basic_current_eq (data : Nat → Byte) (n : Nat) (bd : BatteryData) (now : Nat)
    (h : (parseBasicInfoResponse data n bd now).ret = true) :
    (parseBasicInfoResponse data n bd now).batteryData.current =
      ((if 256 * (data 6).val + (data 7).val < 0x8000 then
          ((256 * (data 6).val + (data 7).val : Nat) : Int)
        else ((256 * (data 6).val + (data 7).val : Nat) : Int) - 0x10000 : Int) : ℚ) / 100 := by
  rcases basic_cases data n bd now with ⟨_, h2, _⟩ | ⟨_, h2⟩
  · rw [h2] at h
    cases h
  · rw [h2, ← current_raw_eq]

/-! ## The cell-voltage fields -/

theorem cell_accept_spec (data : Nat → Byte) (n : Nat) (bd : BatteryData) (now : Nat)
    (h : (parseCellVoltageResponse data n bd now).ret = true) :
    256 * (data 2).val + (data 3).val + 7 ≤ n ∧
    (parseCellVoltageResponse data n bd now).batteryData.numCells =
      (256 * (data 2).val + (data 3).val) / 2 % 256 ∧
    (∀ j, (parseCellVoltageResponse data n bd now).batteryData.cellVoltages j =
      if j < min ((256 * (data 2).val + (data 3).val) / 2 % 256) 32 then
        ((256 * (data (4 + 2 * j)).val + (data (5 + 2 * j)).val : Nat) : ℚ) / 1000
      else bd.cellVoltages j) ∧
    (parseCellVoltageResponse data n bd now).cellWrites =
      List.range (min ((256 * (data 2).val + (data 3).val) / 2 % 256) 32) ∧
    (∀ k, k ∈ (parseCellVoltageResponse data n bd now).reads ↔
      (k = 0 ∨ k = n - 1 ∨ k = 1 ∨ k = 2 ∨ k = 3) ∨
        ∃ j, j < min ((256 * (data 2).val + (data 3).val) / 2 % 256) 32 ∧
          (k = 4 + 2 * j ∨ k = 5 + 2 * j)) := by
  rcases cell_cases data n bd now with ⟨_, h2, _⟩ | ⟨h1, h2⟩
  · rw [h2] at h
    cases h
  · obtain ⟨_, e2, e3, e4⟩ := cellLoop_spec data (be16 (data 2) (data 3) / 2 % 256) 32
      (cellLoopInit n bd) (by show 32 ≤ 0 + 32; omega) rfl
    rw [be16_eq] at e2 e3 e4 h2
    rw [h2]
    refine ⟨h1.2.2.2.2, rfl, fun j => ?_, ?_, fun k => ?_⟩
    · show (cellLoop data _ 32 (cellLoopInit n bd)).cellVoltages j = _
      rw [e2 j, be16_eq]
      show (if 0 ≤ j ∧ _ then _ else _) = _
      by_cases hj : j < min ((256 * (data 2).val + (data 3).val) / 2 % 256) 32
      · rw [if_pos ⟨Nat.zero_le _, hj⟩, if_pos hj]
      · rw [if_neg (fun hh => hj hh.2), if_neg hj]
        rfl
    · show (cellLoop data _ 32 (cellLoopInit n bd)).cellWrites = _
      rw [e3, List.range_eq_range']
      rfl
    · show k ∈ (cellLoop data _ 32 (cellLoopInit n bd)).reads ↔ _
      rw [e4 k]
      show k ∈ [0, n - 1, 1, 2, 3] ∨ (∃ j, 0 ≤ j ∧ _) ↔ _
      simp only [List.mem_cons, List.mem_singleton, List.not_mem_nil, or_false, Nat.zero_le,
        true_and]

/-! ## The command frame -/

theorem createCommand_bytes (c : Byte) (buffer : Nat → Byte) :
    (createCommand c buffer).1 0 = FRAME_START ∧
    (createCommand c buffer).1 1 = FRAME_READ ∧
    (createCommand c buffer).1 2 = c ∧
    (createCommand c buffer).1 3 = 0x00 ∧
    (createCommand c buffer).1 4 =
      toByte ((Int.toNat (((0x10000 : Int) - (c.val : Int)) % 65536) >>> 8) &&& 0xFF) ∧
    (createCommand c buffer).1 5 =
      toByte (Int.toNat (((0x10000 : Int) - (c.val : Int)) % 65536) &&& 0xFF) ∧
    (createCommand c buffer).1 6 = FRAME_END ∧
    (∀ i, 7 ≤ i → (createCommand c buffer).1 i = buffer i) ∧
    (createCommand c buffer).2 = 7 := by
  unfold createCommand
  refine ⟨?_, ?_, ?_, ?_, ?_, ?_, ?_, fun i hi => ?_, rfl⟩
  · simp [Function.update_apply]
  · simp [Function.update_apply]
  · simp [Function.update_apply]
  · simp [Function.update_apply]
  · simp [Function.update_apply]
  · simp [Function.update_apply]
  · simp [Function.update_apply]
  · simp only [Function.update_apply]
    rw [if_neg (by omega), if_neg (by omega), if_neg (by omega), if_neg (by omega),
      if_neg (by omega), if_neg (by omega), if_neg (by omega)]

theorem checksum_bytes_eq (c : Byte) :
    256 * (toByte ((Int.toNat (((0x10000 : Int) - (c.val : Int)) % 65536) >>> 8) &&& 0xFF)).val +
        (toByte (Int.toNat (((0x10000 : Int) - (c.val : Int)) % 65536) &&& 0xFF)).val =
      (0x10000 - c.val) % 0x10000 := by
  have hc := c.isLt
  have e : Int.toNat (((0x10000 : Int) - (c.val : Int)) % 65536) = (0x10000 - c.val) % 0x10000 := by
    omega
  have a : ∀ x : Nat, x &&& 0xFF = x % 256 := fun x => Nat.and_pow_two_sub_one_eq_mod x 8
  rw [e, a, a, Nat.shiftRight_eq_div_pow]
  unfold toByte
  show 256 * (((0x10000 - c.val) % 0x10000 / 2 ^ 8 % 256) % 256) +
    ((0x10000 - c.val) % 0x10000 % 256) % 256 = _
  omega

/-! ## Frame validation -/

/-- C1: for every buffer `data` and length `n`, `parseBasicInfoResponse` returns
true exactly when `n ≥ 7`, `data[0] = 0xDD`, `data[n-1] = 0x77`, `data[1] = 0x03`
and `n ≥ BE16(data[2], data[3]) + 7`; `parseCellVoltageResponse` returns true
exactly under the same conditions with `data[1] = 0x04`. Every other input
yields false. -/
theorem parse_accepts_iff (data : Nat → Byte) (n : Nat) (bd : BatteryData) (now : Nat) :
    ((parseBasicInfoResponse data n bd now).ret = true ↔
      7 ≤ n ∧ data 0 = 0xDD ∧ data (n - 1) = 0x77 ∧ data 1 = 0x03 ∧
        256 * (data 2).val + (data 3).val + 7 ≤ n) ∧
    ((parseCellVoltageResponse data n bd now).ret = true ↔
      7 ≤ n ∧ data 0 = 0xDD ∧ data (n - 1) = 0x77 ∧ data 1 = 0x04 ∧
        256 * (data 2).val + (data 3).val + 7 ≤ n) :=
  ⟨basic_ret_iff data n bd now, cell_ret_iff data n bd now⟩

/-- C2, as stated, fails: the basic-info frame `badChecksumFrame` (checksum
bytes zeroed) is accepted by `parseBasicInfoResponse` although `verifyChecksum`
rejects the same bytes. -/
theorem accepted_with_bad_checksum :
    (parseBasicInfoResponse (ofList badChecksumFrame) 15 emptyRecord 0).ret = true ∧
      verifyChecksum (ofList badChecksumFrame) 15 = false := by
  decide

/-- C2, amended: acceptance does not depend on the checksum. Both decoders
return the same `bool` whatever the bytes at positions `n - 3` and `n - 2` are,
and `verifyChecksum` on its own returns true exactly when `n ≥ 7` and the 16-bit
two's-complement of the sum of bytes `0..n-4` equals the big-endian value stored
in bytes `n - 3` and `n - 2`. -/
theorem checksum_not_consulted (data : Nat → Byte) (n : Nat) (bd : BatteryData) (now : Nat)
    (x y : Byte) :
    (parseBasicInfoResponse (withChecksum data n x y) n bd now).ret =
        (parseBasicInfoResponse data n bd now).ret ∧
    (parseCellVoltageResponse (withChecksum data n x y) n bd now).ret =
        (parseCellVoltageResponse data n bd now).ret ∧
    (verifyChecksum data n = true ↔
      7 ≤ n ∧
        (65536 - (∑ i in Finset.range (n - 3), (data i).val) % 65536) % 65536 =
          256 * (data (n - 3)).val + (data (n - 2)).val) := by
  refine ⟨?_, ?_, verifyChecksum_iff data n⟩
  · rw [Bool.eq_iff_iff, basic_ret_iff, basic_ret_iff, frameOk_withChecksum]
  · rw [Bool.eq_iff_iff, cell_ret_iff, cell_ret_iff, frameOk_withChecksum]

/-- C3: decode failure is atomic. Whenever `parseBasicInfoResponse` or
`parseCellVoltageResponse` returns false, the `BatteryData` record is left
exactly as it was passed in; in particular `dataValid` keeps its prior value. -/
theorem decode_failure_atomic (data : Nat → Byte) (n : Nat) (bd : BatteryData) (now : Nat) :
    ((parseBasicInfoResponse data n bd now).ret = false →
      (parseBasicInfoResponse data n bd now).batteryData = bd) ∧
    ((parseCellVoltageResponse data n bd now).ret = false →
      (parseCellVoltageResponse data n bd now).batteryData = bd) := by
  constructor
  · intro h
    rcases basic_cases data n bd now with ⟨_, _, h2, _⟩ | ⟨_, h2⟩
    · exact h2
    · rw [h2] at h
      cases h
  · intro h
    rcases cell_cases data n bd now with ⟨_, _, h2, _⟩ | ⟨_, h2⟩
    · exact h2
    · rw [h2] at h
      cases h

/-- Witness of C3: a three-byte input and a frame with a wrong end marker are
both rejected by both decoders, and the cleared record comes back unchanged with
`dataValid = false`. -/
theorem decode_failure_atomic_witness :
    (parseBasicInfoResponse (ofList truncatedFrame) 3 emptyRecord 0).ret = false ∧
    (parseBasicInfoResponse (ofList truncatedFrame) 3 emptyRecord 0).batteryData = emptyRecord ∧
    (parseCellVoltageResponse (ofList truncatedFrame) 3 emptyRecord 0).batteryData = emptyRecord ∧
    (parseBasicInfoResponse (ofList badEndFrame) 15 emptyRecord 0).ret = false ∧
    (parseBasicInfoResponse (ofList badEndFrame) 15 emptyRecord 0).batteryData = emptyRecord ∧
    (parseBasicInfoResponse (ofList badEndFrame) 15 emptyRecord 0).batteryData.dataValid
      = false :=
  ⟨by decide,
    (decode_failure_atomic (ofList truncatedFrame) 3 emptyRecord 0).1 (by decide),
    (decode_failure_atomic (ofList truncatedFrame) 3 emptyRecord 0).2 (by decide),
    by decide,
    (decode_failure_atomic (ofList badEndFrame) 15 emptyRecord 0).1 (by decide),
    by decide⟩

/-! ## Basic-info decoding -/

/-- C4: for every input accepted by `parseBasicInfoResponse` the record holds
`voltage = BE16(d[4],d[5])/100`, `remainingAh = BE16(d[8],d[9])/100`,
`maxAh = BE16(d[10],d[11])/100`, `watts = voltage * current`,
`soc = 100 * remainingAh / maxAh` when `maxAh > 0` and `0` otherwise, and
`dataValid = true`, in exact rational arithmetic. -/
theorem basic_fields (data : Nat → Byte) (n : Nat) (bd : BatteryData) (now : Nat)
    (h : (parseBasicInfoResponse data n bd now).ret = true) :
    (parseBasicInfoResponse data n bd now).batteryData.voltage =
      ((256 * (data 4).val + (data 5).val : Nat) : ℚ) / 100 ∧
    (parseBasicInfoResponse data n bd now).batteryData.remainingAh =
      ((256 * (data 8).val + (data 9).val : Nat) : ℚ) / 100 ∧
    (parseBasicInfoResponse data n bd now).batteryData.maxAh =
      ((256 * (data 10).val + (data 11).val : Nat) : ℚ) / 100 ∧
    (parseBasicInfoResponse data n bd now).batteryData.watts =
      (parseBasicInfoResponse data n bd now).batteryData.voltage *
        (parseBasicInfoResponse data n bd now).batteryData.current ∧
    (parseBasicInfoResponse data n bd now).batteryData.soc =
      (if (parseBasicInfoResponse data n bd now).batteryData.maxAh > 0 then
        100 * (parseBasicInfoResponse data n bd now).batteryData.remainingAh /
          (parseBasicInfoResponse data n bd now).batteryData.maxAh
      else 0) ∧
    (parseBasicInfoResponse data n bd now).batteryData.dataValid = true := by
  rcases basic_cases data n bd now with ⟨_, h2, _⟩ | ⟨_, h2⟩
  · rw [h2] at h
    cases h
  · rw [h2]
    refine ⟨?_, ?_, ?_, rfl, ?_, rfl⟩
    · show (be16 (data 4) (data 5) : ℚ) / 100 = _
      rw [be16_eq]
    · show (be16 (data 8) (data 9) : ℚ) / 100 = _
      rw [be16_eq]
    · show (be16 (data 10) (data 11) : ℚ) / 100 = _
      rw [be16_eq]
    · show (if (be16 (data 10) (data 11) : ℚ) / 100 > 0 then
          100 * ((be16 (data 8) (data 9) : ℚ) / 100 / ((be16 (data 10) (data 11) : ℚ) / 100))
        else 0) =
        if (be16 (data 10) (data 11) : ℚ) / 100 > 0 then
          100 * ((be16 (data 8) (data 9) : ℚ) / 100) / ((be16 (data 10) (data 11) : ℚ) / 100)
        else 0
      rw [mul_div_assoc]

/-- Witness of C4: the frame `basicFrame` (raw voltage 5120, raw current 0xFF9C,
raw remaining 2000, raw nominal 10000) is accepted and decodes to voltage 51.20,
current -1.00, remainingAh 20.00, maxAh 100.00, watts -51.20, soc 20.0. -/
theorem basic_fields_witness :
    (parseBasicInfoResponse (ofList basicFrame) 15 emptyRecord 0).ret = true ∧
    (parseBasicInfoResponse (ofList basicFrame) 15 emptyRecord 0).batteryData.voltage = 51.20 ∧
    (parseBasicInfoResponse (ofList basicFrame) 15 emptyRecord 0).batteryData.current = -1.00 ∧
    (parseBasicInfoResponse (ofList basicFrame) 15 emptyRecord 0).batteryData.remainingAh
      = 20.00 ∧
    (parseBasicInfoResponse (ofList basicFrame) 15 emptyRecord 0).batteryData.maxAh = 100.00 ∧
    (parseBasicInfoResponse (ofList basicFrame) 15 emptyRecord 0).batteryData.watts = -51.20 ∧
    (parseBasicInfoResponse (ofList basicFrame) 15 emptyRecord 0).batteryData.soc = 20.0 ∧
    (parseBasicInfoResponse (ofList basicFrame) 15 emptyRecord 0).batteryData.dataValid
      = true := by
  have h : (parseBasicInfoResponse (ofList basicFrame) 15 emptyRecord 0).ret = true := by decide
  obtain ⟨hv, hr, hm, hw, hs, hd⟩ := basic_fields (ofList basicFrame) 15 emptyRecord 0 h
  have hc := basic_current_eq (ofList basicFrame) 15 emptyRecord 0 h
  have e4 : (ofList basicFrame 4).val = 0x14 := by decide
  have e5 : (ofList basicFrame 5).val = 0x00 := by decide
  have e6 : (ofList basicFrame 6).val = 0xFF := by decide
  have e7 : (ofList basicFrame 7).val = 0x9C := by decide
  have e8 : (ofList basicFrame 8).val = 0x07 := by decide
  have e9 : (ofList basicFrame 9).val = 0xD0 := by decide
  have e10 : (ofList basicFrame 10).val = 0x27 := by decide
  have e11 : (ofList basicFrame 11).val = 0x10 := by decide
  rw [e4, e5] at hv
  rw [e6, e7] at hc
  rw [e8, e9] at hr
  rw [e10, e11] at hm
  rw [hm, hr] at hs
  rw [hv, hc] at hw
  refine ⟨h, ?_, ?_, ?_, ?_, ?_, ?_, hd⟩
  · rw [hv]; norm_num
  · rw [hc]; norm_num
  · rw [hr]; norm_num
  · rw [hm]; norm_num
  · rw [hw]; norm_num
  · rw [hs]; norm_num

/-- C5: for every input accepted by `parseBasicInfoResponse`, with
`r = BE16(d[6],d[7])`, the decoded current is `r/100` when `r < 0x8000` and
`(r - 0x10000)/100` when `r ≥ 0x8000` (the two's-complement reading of the
field), and so lies in `[-327.68, 327.67]`. -/
theorem basic_current_signed (data : Nat → Byte) (n : Nat) (bd : BatteryData) (now : Nat)
    (h : (parseBasicInfoResponse data n bd now).ret = true) :
    (parseBasicInfoResponse data n bd now).batteryData.current =
      (if 256 * (data 6).val + (data 7).val < 0x8000 then
        ((256 * (data 6).val + (data 7).val : Nat) : ℚ) / 100
      else (((256 * (data 6).val + (data 7).val : Nat) : ℚ) - 0x10000) / 100) ∧
    (-327.68 : ℚ) ≤ (parseBasicInfoResponse data n bd now).batteryData.current ∧
    (parseBasicInfoResponse data n bd now).batteryData.current ≤ (327.67 : ℚ) := by
  have hc := basic_current_eq data n bd now h
  have h6 := (data 6).isLt
  have h7 := (data 7).isLt
  have hlt : 256 * (data 6).val + (data 7).val < 65536 := by omega
  have hq : ((256 * (data 6).val + (data 7).val : Nat) : ℚ) < 65536 := by exact_mod_cast hlt
  have h0 : (0 : ℚ) ≤ ((256 * (data 6).val + (data 7).val : Nat) : ℚ) := Nat.cast_nonneg _
  rw [hc]
  by_cases hs : 256 * (data 6).val + (data 7).val < 0x8000
  · have hq2 : ((256 * (data 6).val + (data 7).val : Nat) : ℚ) ≤ 32767 := by
      exact_mod_cast Nat.le_of_lt_succ hs
    push_cast at hq2 h0
    rw [if_pos hs, if_pos hs]
    refine ⟨by push_cast; rfl, ?_, ?_⟩
    · push_cast
      norm_num
      linarith
    · push_cast
      norm_num
      linarith
  · have hq2 : (32768 : ℚ) ≤ ((256 * (data 6).val + (data 7).val : Nat) : ℚ) := by
      exact_mod_cast Nat.le_of_not_lt hs
    push_cast at hq2 hq
    rw [if_neg hs, if_neg hs]
    refine ⟨by push_cast; rfl, ?_, ?_⟩
    · push_cast
      norm_num
      linarith
    · push_cast
      norm_num
      linarith

/-- Witness of C5: in the accepted frame `basicFrame` the current field is
0xFF9C, which decodes to -1.00 A. -/
theorem basic_current_signed_witness :
    (parseBasicInfoResponse (ofList basicFrame) 15 emptyRecord 0).ret = true ∧
    256 * (ofList basicFrame 6).val + (ofList basicFrame 7).val = 0xFF9C ∧
    (parseBasicInfoResponse (ofList basicFrame) 15 emptyRecord 0).batteryData.current = -1 := by
  have h : (parseBasicInfoResponse (ofList basicFrame) 15 emptyRecord 0).ret = true := by decide
  have hc := (basic_current_signed (ofList basicFrame) 15 emptyRecord 0 h).1
  have e6 : (ofList basicFrame 6).val = 0xFF := by decide
  have e7 : (ofList basicFrame 7).val = 0x9C := by decide
  rw [e6, e7] at hc
  refine ⟨h, by decide, ?_⟩
  rw [hc]
  norm_num

/-- C6, at the failing input: the seven-byte response `emptyPayloadFrame`
declares a payload of length 0, yet `parseBasicInfoResponse` accepts it, marks
the record valid, and has read the indices 4..11: the two checksum bytes, the end
marker and five positions past the end of the input. The decoded voltage 655.33
comes from the checksum bytes. -/
theorem empty_payload_accepted :
    256 * (ofList emptyPayloadFrame 2).val + (ofList emptyPayloadFrame 3).val = 0 ∧
    (parseBasicInfoResponse (ofList emptyPayloadFrame) 7 emptyRecord 0).ret = true ∧
    (parseBasicInfoResponse (ofList emptyPayloadFrame) 7 emptyRecord 0).batteryData.dataValid
      = true ∧
    (parseBasicInfoResponse (ofList emptyPayloadFrame) 7 emptyRecord 0).reads =
      [0, 6, 1, 2, 3, 4, 5, 6, 7, 8, 9, 10, 11] ∧
    (parseBasicInfoResponse (ofList emptyPayloadFrame) 7 emptyRecord 0).batteryData.voltage
      = 655.33 := by
  refine ⟨by decide, by decide, by decide, by decide, ?_⟩
  rcases basic_cases (ofList emptyPayloadFrame) 7 emptyRecord 0 with ⟨h1, _⟩ | ⟨_, h2⟩
  · exact absurd ((basic_ret_iff (ofList emptyPayloadFrame) 7 emptyRecord 0).mp (by decide)) h1
  · rw [h2]
    show (be16 (ofList emptyPayloadFrame 4) (ofList emptyPayloadFrame 5) : ℚ) / 100 = _
    rw [be16_eq, show (ofList emptyPayloadFrame 4).val = 0xFF by decide,
      show (ofList emptyPayloadFrame 5).val = 0xFD by decide]
    norm_num

/-! ## Cell-voltage decoding -/

/-- C7, as stated, fails: the accepted 87-byte response `wideCellFrame` declares
80 payload bytes, and the stored `numCells` is 40, not `min (80 / 2) 32 = 32`. -/
theorem numCells_exceeds_cap :
    (parseCellVoltageResponse wideCellFrame 87 emptyRecord 0).ret = true ∧
    256 * (wideCellFrame 2).val + (wideCellFrame 3).val = 80 ∧
    (parseCellVoltageResponse wideCellFrame 87 emptyRecord 0).batteryData.numCells = 40 ∧
    (parseCellVoltageResponse wideCellFrame 87 emptyRecord 0).batteryData.numCells ≠
      min (80 / 2) 32 := by
  decide

/-- C7, amended: after every successful `parseCellVoltageResponse` (length at
most 255) `numCells` is the declared length divided by 2, not capped; the cap
applies to the cells stored: the slots of `cellVoltages` written are exactly
`0 .. min (declaredLength / 2) 32 - 1`, in order, so at most 32 are stored. -/
theorem numCells_uncapped (data : Nat → Byte) (n : Nat) (bd : BatteryData) (now : Nat)
    (hn : n < 256) (h : (parseCellVoltageResponse data n bd now).ret = true) :
    (parseCellVoltageResponse data n bd now).batteryData.numCells =
      (256 * (data 2).val + (data 3).val) / 2 ∧
    (parseCellVoltageResponse data n bd now).cellWrites =
      List.range (min ((256 * (data 2).val + (data 3).val) / 2) 32) ∧
    (parseCellVoltageResponse data n bd now).cellWrites.length ≤ 32 := by
  obtain ⟨h1, h2, _, h4, _⟩ := cell_accept_spec data n bd now h
  have hm : (256 * (data 2).val + (data 3).val) / 2 % 256 =
      (256 * (data 2).val + (data 3).val) / 2 := by omega
  rw [hm] at h2 h4
  refine ⟨h2, h4, ?_⟩
  rw [h4, List.length_range]
  exact Nat.min_le_right _ _

/-- Witness of C7 amended: for `wideCellFrame` (declared length 80) `numCells`
is 40 and the 32 slots `0..31` are written. -/
theorem numCells_uncapped_witness :
    (parseCellVoltageResponse wideCellFrame 87 emptyRecord 0).ret = true ∧
    (parseCellVoltageResponse wideCellFrame 87 emptyRecord 0).batteryData.numCells = 40 ∧
    (parseCellVoltageResponse wideCellFrame 87 emptyRecord 0).cellWrites = List.range 32 := by
  have h : (parseCellVoltageResponse wideCellFrame 87 emptyRecord 0).ret = true := by decide
  obtain ⟨h1, h2, _⟩ := numCells_uncapped wideCellFrame 87 emptyRecord 0 (by decide) h
  exact ⟨h, h1, h2⟩

/-- C8: `parseCellVoltageResponse` never overruns. For every input, every
slot of `cellVoltages` it writes has an index below 32, every index of `data` it
reads is below the length, and every read other than the frame checks (indices
0, 1, 2, 3 and `n - 1`) lies in the declared payload: its index `k` satisfies
`4 ≤ k < 4 + declaredLength ≤ n - 3`. -/
theorem cell_no_overrun (data : Nat → Byte) (n : Nat) (bd : BatteryData) (now : Nat) :
    (∀ w ∈ (parseCellVoltageResponse data n bd now).cellWrites, w < 32) ∧
    (∀ k ∈ (parseCellVoltageResponse data n bd now).reads, k < n) ∧
    (∀ k ∈ (parseCellVoltageResponse data n bd now).reads,
      (k = 0 ∨ k = n - 1 ∨ k = 1 ∨ k = 2 ∨ k = 3) ∨
        (4 ≤ k ∧ k < 4 + (256 * (data 2).val + (data 3).val) ∧
          4 + (256 * (data 2).val + (data 3).val) ≤ n - 3)) := by
  rcases cell_cases data n bd now with ⟨_, _, _, hw, hr⟩ | ⟨h1, _⟩
  · refine ⟨fun w hw2 => ?_, fun k hk => ?_, fun k hk => Or.inl (hr k hk).1⟩
    · rw [hw] at hw2
      cases hw2
    · have := hr k hk
      omega
  · have h : (parseCellVoltageResponse data n bd now).ret = true :=
      (cell_ret_iff data n bd now).mpr h1
    obtain ⟨h2, _, _, h4, h5⟩ := cell_accept_spec data n bd now h
    refine ⟨fun w hw2 => ?_, fun k hk => ?_, fun k hk => ?_⟩
    · rw [h4, List.mem_range] at hw2
      omega
    · rcases (h5 k).mp hk with hh | ⟨j, hj, hh⟩
      · omega
      · omega
    · rcases (h5 k).mp hk with hh | ⟨j, hj, hh⟩
      · exact Or.inl hh
      · exact Or.inr (by omega)

/-- C9: for every input accepted by `parseCellVoltageResponse` (length at most
255), with `k = min (declaredLength / 2) 32`, every `i < k` has
`cellVoltages[i] = BE16(d[4+2i], d[5+2i]) / 1000`, in input order. -/
theorem cell_voltages_decoded (data : Nat → Byte) (n : Nat) (bd : BatteryData) (now : Nat)
    (hn : n < 256) (h : (parseCellVoltageResponse data n bd now).ret = true) (i : Nat)
    (hi : i < min ((256 * (data 2).val + (data 3).val) / 2) 32) :
    (parseCellVoltageResponse data n bd now).batteryData.cellVoltages i =
      ((256 * (data (4 + 2 * i)).val + (data (5 + 2 * i)).val : Nat) : ℚ) / 1000 := by
  obtain ⟨h1, _, h3, _⟩ := cell_accept_spec data n bd now h
  have hm : (256 * (data 2).val + (data 3).val) / 2 % 256 =
      (256 * (data 2).val + (data 3).val) / 2 := by omega
  rw [h3 i, hm, if_pos hi]

/-- Witness of C9: the frame `cellFrame` (declared length 8, raw values 3300,
3310, 3290, 3305) is accepted with four cells 3.300, 3.310, 3.290, 3.305. -/
theorem cell_voltages_decoded_witness :
    (parseCellVoltageResponse (ofList cellFrame) 15 emptyRecord 0).ret = true ∧
    (parseCellVoltageResponse (ofList cellFrame) 15 emptyRecord 0).batteryData.numCells = 4 ∧
    (parseCellVoltageResponse (ofList cellFrame) 15 emptyRecord 0).batteryData.cellVoltages 0
      = 3.300 ∧
    (parseCellVoltageResponse (ofList cellFrame) 15 emptyRecord 0).batteryData.cellVoltages 1
      = 3.310 ∧
    (parseCellVoltageResponse (ofList cellFrame) 15 emptyRecord 0).batteryData.cellVoltages 2
      = 3.290 ∧
    (parseCellVoltageResponse (ofList cellFrame) 15 emptyRecord 0).batteryData.cellVoltages 3
      = 3.305 := by
  have h : (parseCellVoltageResponse (ofList cellFrame) 15 emptyRecord 0).ret = true := by decide
  have c0 := cell_voltages_decoded (ofList cellFrame) 15 emptyRecord 0 (by decide) h 0 (by decide)
  have c1 := cell_voltages_decoded (ofList cellFrame) 15 emptyRecord 0 (by decide) h 1 (by decide)
  have c2 := cell_voltages_decoded (ofList cellFrame) 15 emptyRecord 0 (by decide) h 2 (by decide)
  have c3 := cell_voltages_decoded (ofList cellFrame) 15 emptyRecord 0 (by decide) h 3 (by decide)
  refine ⟨h, by decide, ?_, ?_, ?_, ?_⟩
  · rw [c0, show (ofList cellFrame (4 + 2 * 0)).val = 0x0C by decide,
      show (ofList cellFrame (5 + 2 * 0)).val = 0xE4 by decide]
    norm_num
  · rw [c1, show (ofList cellFrame (4 + 2 * 1)).val = 0x0C by decide,
      show (ofList cellFrame (5 + 2 * 1)).val = 0xEE by decide]
    norm_num
  · rw [c2, show (ofList cellFrame (4 + 2 * 2)).val = 0x0C by decide,
      show (ofList cellFrame (5 + 2 * 2)).val = 0xDA by decide]
    norm_num
  · rw [c3, show (ofList cellFrame (4 + 2 * 3)).val = 0x0C by decide,
      show (ofList cellFrame (5 + 2 * 3)).val = 0xE9 by decide]
    norm_num

/-! ## Command encoding -/

/-- C10: for every command byte `c`, `createCommand` stores exactly the seven
bytes `[0xDD, 0xA5, c, 0x00, hi, lo, 0x77]` at indices 0..6 (leaving the rest of
the buffer alone) and sets `length = 7`, where `256 * hi + lo` is `0x10000 - c`
reduced to 16 bits; so the start marker, echoed command, length byte and end
marker read back are `0xDD`, `c`, `0`, `0x77`. For `c = 0x03` the frame is
`DD A5 03 00 FF FD 77`, for `c = 0x04` it is `DD A5 04 00 FF FC 77`. -/
theorem createCommand_frame (c : Byte) (buffer : Nat → Byte) :
    ((createCommand c buffer).1 0 = 0xDD ∧
      (createCommand c buffer).1 1 = 0xA5 ∧
      (createCommand c buffer).1 2 = c ∧
      (createCommand c buffer).1 3 = 0x00 ∧
      256 * ((createCommand c buffer).1 4).val + ((createCommand c buffer).1 5).val =
        (0x10000 - c.val) % 0x10000 ∧
      (createCommand c buffer).1 6 = 0x77) ∧
    (∀ i, 7 ≤ i → (createCommand c buffer).1 i = buffer i) ∧
    (createCommand c buffer).2 = 7 ∧
    List.map (createCommand 0x03 buffer).1 [0, 1, 2, 3, 4, 5, 6] =
      [0xDD, 0xA5, 0x03, 0x00, 0xFF, 0xFD, 0x77] ∧
    List.map (createCommand 0x04 buffer).1 [0, 1, 2, 3, 4, 5, 6] =
      [0xDD, 0xA5, 0x04, 0x00, 0xFF, 0xFC, 0x77] := by
  obtain ⟨h0, h1, h2, h3, h4, h5, h6, h7, h8⟩ := createCommand_bytes c buffer
  refine ⟨⟨h0, h1, h2, h3, ?_, h6⟩, h7, h8, ?_, ?_⟩
  · rw [h4, h5]
    exact checksum_bytes_eq c
  · obtain ⟨a0, a1, a2, a3, a4, a5, a6, _⟩ := createCommand_bytes 0x03 buffer
    simp only [List.map_cons, List.map_nil]
    rw [a0, a1, a2, a3, a4, a5, a6]
    decide
  · obtain ⟨a0, a1, a2, a3, a4, a5, a6, _⟩ := createCommand_bytes 0x04 buffer
    simp only [List.map_cons, List.map_nil]
    rw [a0, a1, a2, a3, a4, a5, a6]
    decide

/-! ## Checksum, temperature and switch flags -/

theorem byte_sum_le (data : Nat → Byte) (m : Nat) :
    ∑ i in Finset.range m, (data i).val ≤ m * 255 := by
  induction m with
  | zero => simp
  | succ m ih =>
    rw [Finset.sum_range_succ]
    have := (data m).isLt
    omega

/-- C11: for every buffer and every length `n ≤ 255`, `calculateChecksum` is
`(0x10000 - S) mod 0x10000` with `S` the sum of bytes `0..n-4` (the empty sum
when `n ≤ 3`); every partial sum of the loop is at most `252 * 255`, below
`0x10000`, so the 16-bit accumulator never wraps. -/
theorem calculateChecksum_closed_form (data : Nat → Byte) (n : Nat) (hn : n < 256) :
    calculateChecksum data n =
      (0x10000 - ∑ i in Finset.range (n - 3), (data i).val) % 0x10000 ∧
    (∀ m, m ≤ n - 3 →
      (List.range m).foldl (fun sum i => (sum + (data i).val) % 65536) 0 =
        ∑ i in Finset.range m, (data i).val) ∧
    (∀ m, m ≤ n - 3 → ∑ i in Finset.range m, (data i).val ≤ 252 * 255) ∧
    252 * 255 < 0x10000 := by
  have hb : ∀ m, m ≤ n - 3 → ∑ i in Finset.range m, (data i).val ≤ 252 * 255 := by
    intro m hm
    have := byte_sum_le data m
    have h2 : m * 255 ≤ 252 * 255 := Nat.mul_le_mul_right _ (by omega)
    omega
  refine ⟨?_, fun m hm => ?_, hb, by decide⟩
  · simp only [calculateChecksum]
    have h := hb (n - 3) (le_refl _)
    rw [checksum_sum_eq (fun i => (data i).val) (n - 3)]
    omega
  · rw [checksum_sum_eq (fun i => (data i).val) m]
    have h := hb m hm
    omega

/-- Witness of C11: for the 15-byte frame `basicFrame` the checksum over bytes
`0..11` is `0xFC5B`, the value stored in its bytes 12 and 13. -/
theorem calculateChecksum_closed_form_witness :
    calculateChecksum (ofList basicFrame) 15 = 0xFC5B ∧
    (0x10000 - ∑ i in Finset.range (15 - 3), (ofList basicFrame i).val) % 0x10000 = 0xFC5B :=
  ⟨by decide,
    (calculateChecksum_closed_form (ofList basicFrame) 15 (by decide)).1 ▸ (by decide)⟩

set_option maxRecDepth 100000 in
theorem status_bits (b : Byte) :
    (b.val &&& 0x01 ≠ 0 ↔ b.val % 2 = 1) ∧ (b.val &&& 0x02 ≠ 0 ↔ b.val / 2 % 2 = 1) := by
  revert b
  decide

/-- C12: for every input accepted by `parseBasicInfoResponse`: when
`length ≥ 32` the temperature is `(BE16(d[27],d[28]) - 2731) / 10` with the
subtraction in signed arithmetic, so a raw value below 2731 gives a negative
temperature; when `length < 32` the temperature is 0. -/
theorem basic_temperature (data : Nat → Byte) (n : Nat) (bd : BatteryData) (now : Nat)
    (h : (parseBasicInfoResponse data n bd now).ret = true) :
    (32 ≤ n →
      (parseBasicInfoResponse data n bd now).batteryData.temperature =
        ((((256 * (data 27).val + (data 28).val : Nat) : Int) - 2731 : Int) : ℚ) / 10) ∧
    (32 ≤ n → 256 * (data 27).val + (data 28).val < 2731 →
      (parseBasicInfoResponse data n bd now).batteryData.temperature < 0) ∧
    (n < 32 → (parseBasicInfoResponse data n bd now).batteryData.temperature = 0) := by
  rcases basic_cases data n bd now with ⟨_, h2, _⟩ | ⟨_, h2⟩
  · rw [h2] at h
    cases h
  · rw [h2]
    have e : ∀ hn : 32 ≤ n,
        (if decide ((27 : Int) + 1 < (n : Int) - 3) = true then
          (((be16 (data 27) (data 28) : Int) - 2731 : Int) : ℚ) * 0.1
        else 0) =
        ((((256 * (data 27).val + (data 28).val : Nat) : Int) - 2731 : Int) : ℚ) / 10 := by
      intro hn
      rw [if_pos (decide_eq_true (by omega)), be16_eq]
      norm_num
      ring
    refine ⟨fun hn => e hn, fun hn hlt => ?_, fun hn => ?_⟩
    · show (if decide ((27 : Int) + 1 < (n : Int) - 3) = true then
          (((be16 (data 27) (data 28) : Int) - 2731 : Int) : ℚ) * 0.1
        else 0) < 0
      rw [e hn]
      have hneg : (((256 * (data 27).val + (data 28).val : Nat) : Int) - 2731 : Int) < 0 := by
        omega
      have hq : ((((256 * (data 27).val + (data 28).val : Nat) : Int) - 2731 : Int) : ℚ) < 0 := by
        exact_mod_cast hneg
      linarith
    · show (if decide ((27 : Int) + 1 < (n : Int) - 3) = true then
          (((be16 (data 27) (data 28) : Int) - 2731 : Int) : ℚ) * 0.1
        else 0) = 0
      rw [if_neg]
      rw [decide_eq_true_eq]
      omega

/-- Witness of C12: in the accepted 34-byte frame `fullFrame` a raw temperature
of 3031 (`0x0BD7`) decodes to 30.0 and a raw 2731 (`0x0AAB`) to 0.0; the accepted
15-byte frame `basicFrame` is too short for the field and decodes to 0. -/
theorem basic_temperature_witness :
    (parseBasicInfoResponse (ofList (fullFrame 0x01 0x0B 0xD7)) 34 emptyRecord 0).ret = true ∧
    256 * (ofList (fullFrame 0x01 0x0B 0xD7) 27).val
      + (ofList (fullFrame 0x01 0x0B 0xD7) 28).val = 3031 ∧
    (parseBasicInfoResponse (ofList (fullFrame 0x01 0x0B 0xD7)) 34 emptyRecord
      0).batteryData.temperature = 30.0 ∧
    256 * (ofList (fullFrame 0x01 0x0A 0xAB) 27).val
      + (ofList (fullFrame 0x01 0x0A 0xAB) 28).val = 2731 ∧
    (parseBasicInfoResponse (ofList (fullFrame 0x01 0x0A 0xAB)) 34 emptyRecord
      0).batteryData.temperature = 0.0 ∧
    (parseBasicInfoResponse (ofList basicFrame) 15 emptyRecord 0).batteryData.temperature
      = 0 := by
  have h1 := (basic_temperature (ofList (fullFrame 0x01 0x0B 0xD7)) 34 emptyRecord 0
    (by decide)).1 (by decide)
  have h2 := (basic_temperature (ofList (fullFrame 0x01 0x0A 0xAB)) 34 emptyRecord 0
    (by decide)).1 (by decide)
  have h3 := (basic_temperature (ofList basicFrame) 15 emptyRecord 0 (by decide)).2.2
    (by decide)
  rw [show (ofList (fullFrame 0x01 0x0B 0xD7) 27).val = 0x0B by decide,
    show (ofList (fullFrame 0x01 0x0B 0xD7) 28).val = 0xD7 by decide] at h1
  rw [show (ofList (fullFrame 0x01 0x0A 0xAB) 27).val = 0x0A by decide,
    show (ofList (fullFrame 0x01 0x0A 0xAB) 28).val = 0xAB by decide] at h2
  refine ⟨by decide, by decide, ?_, by decide, ?_, h3⟩
  · rw [h1]
    norm_num
  · rw [h2]
    norm_num

/-- C13: for every input accepted by `parseBasicInfoResponse`: when
`length ≥ 28`, `switches` is `"C+"` if bit 0 of `d[24]` is set and `"C-"` if not,
followed by `"D+"` if bit 1 is set and `"D-"` if not, so it depends on no other
bit; when `length < 28` the decode still succeeds with `dataValid = true` and
`switches` keeps the value it had before the call. -/
theorem basic_switches (data : Nat → Byte) (n : Nat) (bd : BatteryData) (now : Nat)
    (h : (parseBasicInfoResponse data n bd now).ret = true) :
    (28 ≤ n →
      (parseBasicInfoResponse data n bd now).batteryData.switches =
        (if (data 24).val % 2 = 1 then "C+" else "C-") ++
          (if (data 24).val / 2 % 2 = 1 then "D+" else "D-")) ∧
    (n < 28 → (parseBasicInfoResponse data n bd now).batteryData.switches = bd.switches) ∧
    (parseBasicInfoResponse data n bd now).batteryData.dataValid = true := by
  rcases basic_cases data n bd now with ⟨_, h2, _⟩ | ⟨_, h2⟩
  · rw [h2] at h
    cases h
  · rw [h2]
    refine ⟨fun hn => ?_, fun hn => ?_, rfl⟩
    · show (if decide ((24 : Int) < (n : Int) - 3) = true then
          (if (data 24).val &&& 0x01 ≠ 0 then "C+" else "C-") ++
            (if (data 24).val &&& 0x02 ≠ 0 then "D+" else "D-")
        else bd.switches) = _
      rw [if_pos (decide_eq_true (by omega)), if_congr (status_bits (data 24)).1 rfl rfl,
        if_congr (status_bits (data 24)).2 rfl rfl]
    · show (if decide ((24 : Int) < (n : Int) - 3) = true then
          (if (data 24).val &&& 0x01 ≠ 0 then "C+" else "C-") ++
            (if (data 24).val &&& 0x02 ≠ 0 then "D+" else "D-")
        else bd.switches) = _
      rw [if_neg]
      rw [decide_eq_true_eq]
      omega

/-- Witness of C13: in the accepted 34-byte frame `fullFrame` the status byte
`0x01` gives `"C+D-"`, and so does `0xFD` (same bits 0 and 1, all other bits
set); status `0x02` gives `"C-D+"`; the accepted 15-byte frame `basicFrame`
leaves `switches` as it was. -/
theorem basic_switches_witness :
    (parseBasicInfoResponse (ofList (fullFrame 0x01 0x0B 0xD7)) 34 emptyRecord
      0).batteryData.switches = "C+D-" ∧
    (parseBasicInfoResponse (ofList (fullFrame 0xFD 0x0B 0xD7)) 34 emptyRecord
      0).batteryData.switches = "C+D-" ∧
    (parseBasicInfoResponse (ofList (fullFrame 0x02 0x0B 0xD7)) 34 emptyRecord
      0).batteryData.switches = "C-D+" ∧
    (parseBasicInfoResponse (ofList basicFrame) 15 { emptyRecord with switches := "C+D+" }
      0).batteryData.switches = "C+D+" ∧
    (parseBasicInfoResponse (ofList basicFrame) 15 { emptyRecord with switches := "C+D+" }
      0).batteryData.dataValid = true := by
  have h1 := (basic_switches (ofList (fullFrame 0x01 0x0B 0xD7)) 34 emptyRecord 0
    (by decide)).1 (by decide)
  have h2 := (basic_switches (ofList (fullFrame 0xFD 0x0B 0xD7)) 34 emptyRecord 0
    (by decide)).1 (by decide)
  have h3 := (basic_switches (ofList (fullFrame 0x02 0x0B 0xD7)) 34 emptyRecord 0
    (by decide)).1 (by decide)
  have h4 := basic_switches (ofList basicFrame) 15 { emptyRecord with switches := "C+D+" } 0
    (by decide)
  refine ⟨?_, ?_, ?_, h4.2.1 (by decide), h4.2.2⟩
  · rw [h1]
    decide
  · rw [h2]
    decide
  · rw [h3]
    decide

/-! ## Reassembly -/

theorem handle_cases (s : BluetoothManager) (pData : Nat → Byte) (length : Nat)
    (h0 : 0 ≤ s.responseLength) (h256 : s.responseLength ≤ 256) :
    s.handleNotification pData length =
      if 1 ≤ length ∧ s.responseLength + (length : Int) ≤ 256 then
        if 4 ≤ length ∧ pData 0 = 0xDD ∧ s.responseLength = 0 then
          { manager :=
              BluetoothManager.checkComplete
                { s with
                  expectedTotalLength := (clampedTotal pData : Int)
                  expectingMoreData := decide (length < clampedTotal pData)
                  responseBuffer := memcpy s.responseBuffer 0 pData length
                  responseLength := (length : Int) }
            stores := List.range' 0 length }
        else if s.expectingMoreData = true ∧ s.responseLength > 0 then
          { manager :=
              BluetoothManager.checkComplete
                { s with
                  responseBuffer :=
                    memcpy s.responseBuffer (Int.toNat s.responseLength) pData length
                  responseLength := s.responseLength + (length : Int) }
            stores := List.range' (Int.toNat s.responseLength) length }
        else
          { manager :=
              BluetoothManager.checkComplete
                { s with
                  responseBuffer := memcpy s.responseBuffer 0 pData length
                  responseLength := (length : Int)
                  expectingMoreData := false }
            stores := List.range' 0 length }
      else { manager := s, stores := [] } := by
  unfold BluetoothManager.handleNotification
  by_cases hg : 1 ≤ length ∧ s.responseLength + (length : Int) ≤ 256
  · have hl : ¬ (length = 0 ∨ length > 256) := by omega
    have hg2 : length > 0 ∧ (toSizeT s.responseLength + length) % 4294967296 ≤ 256 := by
      unfold toSizeT
      omega
    rw [if_neg hl, if_pos hg2, if_pos hg]
    by_cases h1 : 4 ≤ length ∧ pData 0 = 0xDD ∧ s.responseLength = 0
    · rw [if_pos h1, if_pos h1]
      have e1 : (if toSizeT ((shiftOr (pData 2) (pData 3) : Int) + 7) > 256 then (256 : Int)
          else (shiftOr (pData 2) (pData 3) : Int) + 7) = (clampedTotal pData : Int) := by
        rw [shiftOr_eq]
        unfold clampedTotal toSizeT
        have := (pData 2).isLt
        have := (pData 3).isLt
        split_ifs <;> omega
      have e2 : toSizeT (clampedTotal pData : Int) = clampedTotal pData := by
        unfold toSizeT clampedTotal
        omega
      simp only [e1, e2, gt_iff_lt]
    · rw [if_neg h1, if_neg h1]
      by_cases h2 : s.expectingMoreData = true ∧ s.responseLength > 0
      · rw [if_pos h2, if_pos h2]
        have e3 : min ((256 + 4294967296 - toSizeT s.responseLength) % 4294967296) length
            = length := by
          unfold toSizeT
          omega
        simp only [e3]
      · rw [if_neg h2, if_neg h2]
        have e4 : min 256 length = length := by omega
        simp only [e4]
  · rw [if_neg hg]
    by_cases hl : length = 0 ∨ length > 256
    · rw [if_pos hl]
    · rw [if_neg hl, if_neg]
      unfold toSizeT
      omega

theorem clampedTotal_le (pData : Nat → Byte) : clampedTotal pData ≤ 256 :=
  Nat.min_le_right _ _

theorem consistent_reset (s0 : BluetoothManager) : Consistent s0.resetResponseState := by
  unfold Consistent BluetoothManager.resetResponseState
  simp

theorem consistent_step (s : BluetoothManager) (pData : Nat → Byte) (length : Nat)
    (h : Consistent s) :
    Consistent (s.handleNotification pData length).manager ∧
      ∀ k ∈ (s.handleNotification pData length).stores, k < 256 := by
  have hc := clampedTotal_le pData
  rw [handle_cases s pData length h.1 h.2.1]
  unfold Consistent at h
  obtain ⟨h0, h1, h2, h3⟩ := h
  unfold Consistent BluetoothManager.checkComplete
  split_ifs <;> simp_all [List.mem_range'_1] <;> constructor <;> intros <;> omega

theorem reachable_consistent (s0 s : BluetoothManager) (h : Reachable s0 s) : Consistent s := by
  induction h with
  | reset => exact consistent_reset s0
  | notify s pData length _ ih => exact (consistent_step s pData length ih).1

theorem feed_cons (s : BluetoothManager) (c : List Byte) (cs : List (List Byte)) :
    s.feed (c :: cs) = (s.handleNotification (ofList c) c.length).manager.feed cs := rfl

theorem feed_append (s : BluetoothManager) (cs ds : List (List Byte)) :
    s.feed (cs ++ ds) = (s.feed cs).feed ds := by
  unfold BluetoothManager.feed
  rw [List.foldl_append]

theorem reachable_feed (s0 : BluetoothManager) (cs : List (List Byte)) :
    Reachable s0 (s0.resetResponseState.feed cs) := by
  have h : ∀ (cs : List (List Byte)) (s : BluetoothManager), Reachable s0 s →
      Reachable s0 (s.feed cs) := by
    intro cs
    induction cs with
    | nil => exact fun s hs => hs
    | cons c cs ih =>
      intro s hs
      rw [feed_cons]
      exact ih _ (Reachable.notify s (ofList c) c.length hs)
  exact h cs _ Reachable.reset

theorem memcpy_append (z : Nat → Byte) (p c : List Byte) :
    memcpy (memcpy z 0 (ofList p) p.length) p.length (ofList c) c.length =
      memcpy z 0 (ofList (p ++ c)) (p ++ c).length := by
  funext i
  unfold memcpy ofList
  rw [List.length_append]
  by_cases h1 : i < p.length
  · rw [if_neg (by omega), if_pos (by omega), if_pos (by omega), Nat.sub_zero,
      List.getD_append _ _ _ _ h1]
  · by_cases h2 : i < p.length + c.length
    · rw [if_pos (by omega), if_pos (by omega), Nat.sub_zero,
        List.getD_append_right _ _ _ _ (by omega)]
    · rw [if_neg (by omega), if_neg (by omega), if_neg (by omega)]

theorem last_byte (c : List Byte) (hc : c ≠ []) :
    c.getLast? = some (ofList c (c.length - 1)) := by
  have hl : 0 < c.length := List.length_pos.mpr hc
  have h : c.length - 1 < c.length := by omega
  unfold ofList
  rw [List.getLast?_eq_getElem?, List.getD_eq_getElem?_getD, List.getElem?_eq_getElem h]
  rfl

theorem handle_first (s0 : BluetoothManager) (c : List Byte) (h4 : 4 ≤ c.length)
    (h256 : c.length ≤ 256) (hdd : ofList c 0 = 0xDD) :
    (s0.resetResponseState.handleNotification (ofList c) c.length).manager =
      assembled s0 (clampedTotal (ofList c)) c
        (decide (clampedTotal (ofList c) ≤ c.length ∨ c.getLast? = some 0x77)) := by
  have hc : c ≠ [] := by
    intro h
    rw [h] at h4
    simp at h4
  have hlast := last_byte c hc
  have hm : memcpy s0.resetResponseState.responseBuffer 0 (ofList c) c.length (c.length - 1) =
      ofList c (c.length - 1) := by
    unfold memcpy
    rw [if_pos (by omega), Nat.sub_zero]
  rw [handle_cases _ _ _ (le_refl _) (by show (0 : Int) ≤ 256; omega)]
  rw [if_pos ⟨by omega, by show (0 : Int) + _ ≤ 256; omega⟩, if_pos ⟨h4, hdd, rfl⟩]
  show BluetoothManager.checkComplete _ = _
  unfold BluetoothManager.checkComplete assembled
  by_cases hd : clampedTotal (ofList c) ≤ c.length ∨ c.getLast? = some 0x77
  · rw [if_pos, decide_eq_true hd]
    · simp [BluetoothManager.resetResponseState]
    · rcases hd with hd | hd
      · refine Or.inr (Or.inl ?_)
        show ((clampedTotal (ofList c) : Nat) : Int) ≤ (c.length : Int)
        omega
      · refine Or.inr (Or.inr ⟨by show (0 : Int) < (c.length : Int); omega, ?_⟩)
        show memcpy _ 0 (ofList c) c.length (Int.toNat ((c.length : Int) - 1)) = 0x77
        rw [show Int.toNat ((c.length : Int) - 1) = c.length - 1 by omega, hm]
        rw [hlast] at hd
        exact Option.some.inj hd
  · rw [if_neg, decide_eq_false hd]
    · simp [BluetoothManager.resetResponseState]
      omega
    · rintro (h | h | ⟨_, h⟩)
      · simp at h
        omega
      · apply hd
        left
        have h2 : ((clampedTotal (ofList c) : Nat) : Int) ≤ (c.length : Int) := h
        omega
      · apply hd
        right
        have h2 : memcpy s0.resetResponseState.responseBuffer 0 (ofList c) c.length
            (Int.toNat ((c.length : Int) - 1)) = 0x77 := h
        rw [show Int.toNat ((c.length : Int) - 1) = c.length - 1 by omega, hm] at h2
        rw [hlast, h2]

theorem handle_next (s0 : BluetoothManager) (total : Nat) (p c : List Byte)
    (hp : 0 < p.length) (hc : c ≠ []) (hsum : p.length + c.length ≤ 256) :
    ((assembled s0 total p false).handleNotification (ofList c) c.length).manager =
      assembled s0 total (p ++ c)
        (decide (total ≤ p.length + c.length ∨ c.getLast? = some 0x77)) := by
  have hl : 0 < c.length := List.length_pos.mpr hc
  have hlast := last_byte c hc
  have hm : memcpy (memcpy s0.resetResponseState.responseBuffer 0 (ofList p) p.length)
      p.length (ofList c) c.length (p.length + c.length - 1) = ofList c (c.length - 1) := by
    unfold memcpy
    rw [if_pos (by omega), show p.length + c.length - 1 - p.length = c.length - 1 by omega]
  have hrl : (assembled s0 total p false).responseLength = (p.length : Int) := rfl
  rw [handle_cases _ _ _ (by rw [hrl]; omega) (by rw [hrl]; omega)]
  rw [if_pos ⟨by omega, by rw [hrl]; omega⟩, if_neg (by rw [hrl]; omega),
    if_pos ⟨rfl, by rw [hrl]; omega⟩]
  show BluetoothManager.checkComplete _ = _
  unfold BluetoothManager.checkComplete
  rw [hrl, show Int.toNat (p.length : Int) = p.length by omega]
  unfold assembled
  by_cases hd : total ≤ p.length + c.length ∨ c.getLast? = some 0x77
  · rw [if_pos, decide_eq_true hd]
    · simp [BluetoothManager.resetResponseState, memcpy_append]
    · rcases hd with hd | hd
      · refine Or.inr (Or.inl ?_)
        show ((total : Nat) : Int) ≤ (p.length : Int) + (c.length : Int)
        omega
      · refine Or.inr (Or.inr ⟨by show (0 : Int) < (p.length : Int) + (c.length : Int); omega, ?_⟩)
        show memcpy _ p.length (ofList c) c.length
          (Int.toNat ((p.length : Int) + (c.length : Int) - 1)) = 0x77
        rw [show Int.toNat ((p.length : Int) + (c.length : Int) - 1) = p.length + c.length - 1
          by omega]
        rw [hlast] at hd
        exact hm.trans (Option.some.inj hd)
  · rw [if_neg, decide_eq_false hd]
    · simp [BluetoothManager.resetResponseState, memcpy_append]
    · rintro (h | h | ⟨_, h⟩)
      · simp at h
      · apply hd
        left
        have h2 : ((total : Nat) : Int) ≤ (p.length : Int) + (c.length : Int) := h
        omega
      · apply hd
        right
        have h2 : memcpy (memcpy s0.resetResponseState.responseBuffer 0 (ofList p) p.length)
            p.length (ofList c) c.length
            (Int.toNat ((p.length : Int) + (c.length : Int) - 1)) = 0x77 := h
        rw [show Int.toNat ((p.length : Int) + (c.length : Int) - 1) = p.length + c.length - 1
          by omega, hm] at h2
        rw [hlast, h2]

theorem feed_continue (s0 : BluetoothManager) (total : Nat) (htot : total ≤ 256) :
    ∀ (cs : List (List Byte)) (p : List Byte), 0 < p.length →
      (∀ c ∈ cs, c ≠ [] ∧ c.getLast? ≠ some 0x77) →
      p.length + cs.flatten.length < total →
      (assembled s0 total p false).feed cs = assembled s0 total (p ++ cs.flatten) false := by
  intro cs
  induction cs with
  | nil =>
    intro p _ _ _
    rw [List.flatten_nil, List.append_nil]
    rfl
  | cons c cs ih =>
    intro p hp hcs hlen
    rw [List.flatten_cons, List.length_append] at hlen
    obtain ⟨hc1, hc2⟩ := hcs c (List.mem_cons_self _ _)
    rw [feed_cons, handle_next s0 total p c hp hc1 (by omega),
      decide_eq_false (by
        rintro (h | h)
        · omega
        · exact hc2 h)]
    rw [ih (p ++ c) (by rw [List.length_append]; omega)
      (fun d hd => hcs d (List.mem_cons_of_mem _ hd))
      (by rw [List.length_append]; omega)]
    rw [List.flatten_cons, List.append_assoc]

theorem flatten_length_pos (l : List (List Byte)) (hl : l ≠ []) (hne : ∀ c ∈ l, c ≠ []) :
    0 < l.flatten.length := by
  cases l with
  | nil => exact absurd rfl hl
  | cons c cs =>
    rw [List.flatten_cons, List.length_append]
    have := List.length_pos.mpr (hne c (List.mem_cons_self _ _))
    omega

theorem mem_dropLast_of_append (a b : List (List Byte)) (hb : b ≠ []) :
    ∀ x ∈ a, x ∈ (a ++ b).dropLast := by
  intro x hx
  have h := List.dropLast_append_getLast hb
  rw [← h, ← List.append_assoc, List.dropLast_concat]
  exact List.mem_append_left _ hx

theorem clampedTotal_first (c rest : List Byte) (h4 : 4 ≤ c.length)
    (hlen : 256 * (ofList (c ++ rest) 2).val + (ofList (c ++ rest) 3).val + 7
      = (c ++ rest).length)
    (h256 : (c ++ rest).length ≤ 256) :
    clampedTotal (ofList c) = (c ++ rest).length ∧ ofList c 0 = ofList (c ++ rest) 0 := by
  have e : ∀ i, i < 4 → ofList (c ++ rest) i = ofList c i := by
    intro i hi
    unfold ofList
    exact List.getD_append _ _ _ _ (by omega)
  unfold clampedTotal
  rw [← e 2 (by omega), ← e 3 (by omega), hlen, e 0 (by omega)]
  exact ⟨Nat.min_eq_left h256, rfl⟩

theorem feed_initial (s0 : BluetoothManager) (pre post : List (List Byte)) (hpre : pre ≠ [])
    (hdd : ofList (pre ++ post).flatten 0 = 0xDD)
    (hlen : 256 * (ofList (pre ++ post).flatten 2).val + (ofList (pre ++ post).flatten 3).val + 7
      = (pre ++ post).flatten.length)
    (h256 : (pre ++ post).flatten.length ≤ 256)
    (hne : ∀ c ∈ pre ++ post, c ≠ [])
    (hfirst : ∀ c ∈ (pre ++ post).head?, 4 ≤ c.length)
    (hend : ∀ c ∈ (pre ++ post).dropLast, c.getLast? ≠ some 0x77) :
    s0.resetResponseState.feed pre =
      assembled s0 (pre ++ post).flatten.length pre.flatten (decide (post = [])) := by
  cases pre with
  | nil => exact absurd rfl hpre
  | cons c1 pre1 =>
    have h4 : 4 ≤ c1.length := hfirst c1 rfl
    rw [List.cons_append, List.flatten_cons] at hdd hlen h256
    obtain ⟨hct, hc0⟩ := clampedTotal_first c1 (pre1 ++ post).flatten h4 hlen h256
    have hF : ((c1 :: pre1) ++ post).flatten.length = (c1 ++ (pre1 ++ post).flatten).length := by
      rw [List.cons_append, List.flatten_cons]
    have hl : (c1 ++ (pre1 ++ post).flatten).length =
        c1.length + pre1.flatten.length + post.flatten.length := by
      rw [List.length_append, List.flatten_append, List.length_append]
      omega
    rw [hF, feed_cons, handle_first s0 c1 h4 (by omega) (hc0.trans hdd), hct, List.flatten_cons]
    clear hct hF hlen hdd hc0
    generalize (c1 ++ (pre1 ++ post).flatten).length = total at hl h256 ⊢
    by_cases hrest : pre1 ++ post = []
    · obtain ⟨hp1, hpo⟩ := List.append_eq_nil.mp hrest
      subst hp1
      subst hpo
      rw [decide_eq_true (Or.inl (by simp at hl; omega)), decide_eq_true rfl, List.flatten_nil,
        List.append_nil]
      rfl
    · have hc1 : c1.getLast? ≠ some 0x77 := by
        apply hend
        rw [List.cons_append, List.dropLast_cons_of_ne_nil hrest]
        exact List.mem_cons_self _ _
      have hpos := flatten_length_pos (pre1 ++ post) hrest
        (fun c hc => hne c (List.mem_cons_of_mem _ hc))
      rw [List.flatten_append, List.length_append] at hpos
      rw [decide_eq_false (by
        rintro (h | h)
        · omega
        · exact hc1 h)]
      by_cases hpost : post = []
      · subst hpost
        rw [List.append_nil] at hrest
        rw [decide_eq_true rfl]
        have hcat := List.dropLast_append_getLast hrest
        have hmid : ∀ c ∈ pre1.dropLast, c ≠ [] ∧ c.getLast? ≠ some 0x77 := by
          intro c hc
          have hc2 : c ∈ pre1 := List.mem_of_mem_dropLast hc
          refine ⟨hne c (by simp [hc2]), hend c ?_⟩
          rw [List.append_nil, List.dropLast_cons_of_ne_nil hrest]
          exact List.mem_cons_of_mem _ hc
        have hlastne : pre1.getLast hrest ≠ [] :=
          hne _ (by simp [List.getLast_mem hrest])
        have hsplit : pre1.flatten = pre1.dropLast.flatten ++ pre1.getLast hrest := by
          conv_lhs => rw [← hcat]
          rw [List.flatten_append, List.flatten_cons, List.flatten_nil, List.append_nil]
        have hlp := List.length_pos.mpr hlastne
        have hsl : pre1.flatten.length =
            pre1.dropLast.flatten.length + (pre1.getLast hrest).length := by
          rw [hsplit, List.length_append]
        have hpe : (([] : List (List Byte)).flatten).length = 0 := rfl
        rw [hpe] at hl
        have hfeed : (assembled s0 total c1 false).feed pre1 =
            (assembled s0 total c1 false).feed (pre1.dropLast ++ [pre1.getLast hrest]) := by
          rw [hcat]
        rw [hfeed, feed_append, feed_continue s0 _ (by omega) pre1.dropLast c1 (by omega) hmid
          (by omega)]
        rw [feed_cons, handle_next s0 _ _ _ (by rw [List.length_append]; omega) hlastne
          (by rw [List.length_append]; omega),
          decide_eq_true (Or.inl (by rw [List.length_append]; omega))]
        rw [hsplit, List.append_assoc]
        rfl
      · rw [decide_eq_false hpost]
        have hpp := flatten_length_pos post hpost
          (fun c hc => hne c (by simp [hc]))
        have hmid : ∀ c ∈ pre1, c ≠ [] ∧ c.getLast? ≠ some 0x77 := by
          intro c hc
          refine ⟨hne c (by simp [hc]), hend c ?_⟩
          rw [List.cons_append, List.dropLast_cons_of_ne_nil hrest]
          exact List.mem_cons_of_mem _ (mem_dropLast_of_append pre1 post hpost c hc)
        rw [feed_continue s0 _ (by omega) pre1 c1 (by omega) hmid (by omega)]

theorem assembled_fields (s0 : BluetoothManager) (total : Nat) (got : List Byte) (done : Bool) :
    (assembled s0 total got done).responseReceived = done ∧
    (assembled s0 total got done).responseLength = (got.length : Int) ∧
    ∀ i, i < got.length → (assembled s0 total got done).responseBuffer i = ofList got i := by
  refine ⟨rfl, rfl, fun i hi => ?_⟩
  show memcpy _ 0 (ofList got) got.length i = _
  unfold memcpy
  rw [if_pos (by omega), Nat.sub_zero]

theorem feed_whole (s0 : BluetoothManager) (chunks : List (List Byte))
    (hdd : ofList chunks.flatten 0 = 0xDD)
    (hlen : 256 * (ofList chunks.flatten 2).val + (ofList chunks.flatten 3).val + 7
      = chunks.flatten.length)
    (h256 : chunks.flatten.length ≤ 256)
    (hne : ∀ c ∈ chunks, c ≠ [])
    (hfirst : ∀ c ∈ chunks.head?, 4 ≤ c.length)
    (hend : ∀ c ∈ chunks.dropLast, c.getLast? ≠ some 0x77) :
    s0.resetResponseState.feed chunks =
      assembled s0 chunks.flatten.length chunks.flatten true := by
  have hc : chunks ≠ [] := by
    intro h
    rw [h] at hlen
    simp at hlen
  have h := feed_initial s0 chunks [] hc (by rw [List.append_nil]; exact hdd)
    (by rw [List.append_nil]; exact hlen) (by rw [List.append_nil]; exact h256)
    (by rw [List.append_nil]; exact hne) (by rw [List.append_nil]; exact hfirst)
    (by rw [List.append_nil]; exact hend)
  rw [List.append_nil, decide_eq_true rfl] at h
  exact h

/-! ## Reassembly of split frames -/

/-- C14: reassembly gives the same result for a split frame as for the whole
frame. For every frame `F` with `F[0] = 0xDD` and `BE16(F[2],F[3]) + 7 = |F| ≤ 256`
and every partition of `F` into non-empty chunks whose first chunk has at least
4 bytes and in which no chunk but the last ends with `0x77`, feeding the chunks
in order from the reset state ends with `responseReceived = true`,
`responseLength = |F|` and `responseBuffer[0..|F|) = F`, in the very state that
feeding `F` as one chunk gives. -/
theorem split_frame_reassembles (s0 : BluetoothManager) (F : List Byte)
    (chunks : List (List Byte)) (hF : chunks.flatten = F)
    (hdd : ofList F 0 = 0xDD)
    (hlen : 256 * (ofList F 2).val + (ofList F 3).val + 7 = F.length)
    (h256 : F.length ≤ 256)
    (hne : ∀ c ∈ chunks, c ≠ [])
    (hfirst : ∀ c ∈ chunks.head?, 4 ≤ c.length)
    (hend : ∀ c ∈ chunks.dropLast, c.getLast? ≠ some 0x77) :
    (s0.resetResponseState.feed chunks).responseReceived = true ∧
    (s0.resetResponseState.feed chunks).responseLength = (F.length : Int) ∧
    (∀ i, i < F.length → (s0.resetResponseState.feed chunks).responseBuffer i = ofList F i) ∧
    s0.resetResponseState.feed chunks = s0.resetResponseState.feed [F] := by
  subst hF
  have h1 := feed_whole s0 chunks hdd hlen h256 hne hfirst hend
  have hF7 : 7 ≤ chunks.flatten.length := by omega
  have hone : [chunks.flatten].flatten = chunks.flatten := by
    rw [List.flatten_cons, List.flatten_nil, List.append_nil]
  have h2 := feed_whole s0 [chunks.flatten] (by rw [hone]; exact hdd)
    (by rw [hone]; exact hlen) (by rw [hone]; exact h256)
    (by
      intro c hc
      rw [List.mem_singleton] at hc
      subst hc
      intro h
      rw [h] at hF7
      simp at hF7)
    (by
      intro c hc
      cases hc
      omega)
    (by
      intro c hc
      cases hc)
  rw [hone] at h2
  obtain ⟨f1, f2, f3⟩ := assembled_fields s0 chunks.flatten.length chunks.flatten true
  rw [h1, h2]
  exact ⟨f1, f2, f3, rfl⟩

/-- Witness of C14: the 30-byte frame `frame30`, fed as one chunk and as three
chunks of 10 bytes, ends in the same state with the flag up and 30 bytes. -/
theorem split_frame_reassembles_witness :
    frame30Split.flatten = frame30 ∧
    List.map List.length frame30Split = [10, 10, 10] ∧
    (idleManager.resetResponseState.feed frame30Split).responseReceived = true ∧
    (idleManager.resetResponseState.feed frame30Split).responseLength = 30 ∧
    idleManager.resetResponseState.feed frame30Split =
      idleManager.resetResponseState.feed [frame30] := by
  have h := split_frame_reassembles idleManager frame30 frame30Split (by decide) (by decide)
    (by decide) (by decide) (by decide) (by decide) (by decide)
  exact ⟨by decide, by decide, h.1, h.2.1, h.2.2.2⟩

/-- C15, as stated, fails: `frame30Early` cuts the frame `frame30` into two
non-empty chunks of 3 and 27 bytes, and `responseReceived` is already true after
the first chunk, which is too short to be taken as a first packet. -/
theorem split_completes_early :
    frame30Early.flatten = frame30 ∧
    ofList frame30 0 = 0xDD ∧
    256 * (ofList frame30 2).val + (ofList frame30 3).val + 7 = frame30.length ∧
    frame30.length ≤ 256 ∧
    (∀ c ∈ frame30Early, c ≠ []) ∧
    2 ≤ frame30Early.length ∧
    (idleManager.resetResponseState.feed (frame30Early.take 1)).responseReceived = true := by
  decide

/-- C15, amended: for every frame `F` with `F[0] = 0xDD` and
`BE16(F[2],F[3]) + 7 = |F| ≤ 256` and every partition of `F` into non-empty
chunks whose first chunk has at least 4 bytes and in which no chunk but the last
ends with `0x77`, `responseReceived` is false after every chunk except the last,
and true after the last. -/
theorem split_completes_last (s0 : BluetoothManager) (F : List Byte)
    (chunks : List (List Byte)) (hF : chunks.flatten = F)
    (hdd : ofList F 0 = 0xDD)
    (hlen : 256 * (ofList F 2).val + (ofList F 3).val + 7 = F.length)
    (h256 : F.length ≤ 256)
    (hne : ∀ c ∈ chunks, c ≠ [])
    (hfirst : ∀ c ∈ chunks.head?, 4 ≤ c.length)
    (hend : ∀ c ∈ chunks.dropLast, c.getLast? ≠ some 0x77) :
    (∀ pre post, chunks = pre ++ post → post ≠ [] →
      (s0.resetResponseState.feed pre).responseReceived = false) ∧
    (s0.resetResponseState.feed chunks).responseReceived = true := by
  subst hF
  refine ⟨fun pre post hsplit hpost => ?_, ?_⟩
  · by_cases hpre : pre = []
    · rw [hpre]
      rfl
    · subst hsplit
      rw [feed_initial s0 pre post hpre hdd hlen h256 hne hfirst hend, decide_eq_false hpost]
      rfl
  · rw [feed_whole s0 chunks hdd hlen h256 hne hfirst hend]
    rfl

/-- Witness of C15 amended: with `frame30` fed as 10 + 10 + 10 bytes the flag is
down after the first and after the second chunk and up after the third. -/
theorem split_completes_last_witness :
    (idleManager.resetResponseState.feed (frame30Split.take 1)).responseReceived = false ∧
    (idleManager.resetResponseState.feed (frame30Split.take 2)).responseReceived = false ∧
    (idleManager.resetResponseState.feed frame30Split).responseReceived = true := by
  have h := split_completes_last idleManager frame30 frame30Split (by decide) (by decide)
    (by decide) (by decide) (by decide) (by decide) (by decide)
  exact ⟨h.1 (frame30Split.take 1) (frame30Split.drop 1) (by decide) (by decide),
    h.1 (frame30Split.take 2) (frame30Split.drop 2) (by decide) (by decide), h.2⟩

/-! ## Completion and buffer bounds -/

/-- C16, as stated, fails: after `frame30` has completed the exchange
(`responseReceived = true`, 30 bytes), a further one-byte notification `[0x00]`
is accepted: it overwrites `responseBuffer[0]` and sets `responseLength` to 1. -/
theorem completion_not_sticky :
    (idleManager.resetResponseState.feed [frame30]).responseReceived = true ∧
    (idleManager.resetResponseState.feed [frame30]).responseLength = 30 ∧
    (idleManager.resetResponseState.feed [frame30]).responseBuffer 0 = 0xDD ∧
    ((idleManager.resetResponseState.feed [frame30]).handleNotification
      (ofList [0x00]) 1).manager.responseLength = 1 ∧
    ((idleManager.resetResponseState.feed [frame30]).handleNotification
      (ofList [0x00]) 1).manager.responseBuffer 0 = 0x00 := by
  decide

/-- C16, amended: once `responseReceived` is true in a state reached from the
reset state, every later `handleNotification` call leaves `responseReceived`
true and `expectingMoreData` false; a chunk of length `L` with `1 ≤ L` and
`responseLength + L ≤ 256` is taken as a fresh single packet, which copies the
chunk to `responseBuffer[0..L)` and sets `responseLength = L`; every other chunk
leaves the manager unchanged. -/
theorem completion_flag_sticky (s0 s : BluetoothManager) (h : Reachable s0 s)
    (hr : s.responseReceived = true) (pData : Nat → Byte) (length : Nat) :
    (s.handleNotification pData length).manager.responseReceived = true ∧
    (s.handleNotification pData length).manager.expectingMoreData = false ∧
    (1 ≤ length ∧ s.responseLength + (length : Int) ≤ 256 →
      (s.handleNotification pData length).manager.responseLength = (length : Int) ∧
      (s.handleNotification pData length).manager.responseBuffer =
        memcpy s.responseBuffer 0 pData length) ∧
    (¬ (1 ≤ length ∧ s.responseLength + (length : Int) ≤ 256) →
      (s.handleNotification pData length).manager = s) := by
  obtain ⟨h0, h1, h2, _⟩ := reachable_consistent s0 s h
  obtain ⟨hpos, hexp⟩ := h2.mp hr
  rw [handle_cases s pData length h0 h1]
  by_cases hg : 1 ≤ length ∧ s.responseLength + (length : Int) ≤ 256
  · rw [if_pos hg, if_neg (by omega), if_neg (by rw [hexp]; simp)]
    unfold BluetoothManager.checkComplete
    rw [if_pos (Or.inl rfl)]
    exact ⟨rfl, rfl, fun _ => ⟨rfl, rfl⟩, fun hn => absurd hg hn⟩
  · rw [if_neg hg]
    exact ⟨hr, hexp, fun hp => absurd hp hg, fun _ => rfl⟩

/-- Witness of C16 amended: the state after `frame30` is reachable with the flag
up; the one-byte notification `[0x00]` keeps the flag up and sets
`responseLength` to 1. -/
theorem completion_flag_sticky_witness :
    Reachable idleManager (idleManager.resetResponseState.feed [frame30]) ∧
    (idleManager.resetResponseState.feed [frame30]).responseReceived = true ∧
    ((idleManager.resetResponseState.feed [frame30]).handleNotification
      (ofList [0x00]) 1).manager.responseReceived = true ∧
    ((idleManager.resetResponseState.feed [frame30]).handleNotification
      (ofList [0x00]) 1).manager.responseLength = 1 := by
  have h := completion_flag_sticky idleManager (idleManager.resetResponseState.feed [frame30])
    (reachable_feed idleManager [frame30]) (by decide) (ofList [0x00]) 1
  exact ⟨reachable_feed idleManager [frame30], by decide, h.1, (h.2.2.1 (by decide)).1⟩

/-- C17: the reassembly buffer never overflows. In every state reached from
the reset state by any sequence of `handleNotification` calls, with chunks of any
size and content, `0 ≤ responseLength ≤ 256`, and every store of a further call
to `responseBuffer` is at an index below 256. -/
theorem buffer_never_overflows (s0 s : BluetoothManager) (h : Reachable s0 s) :
    0 ≤ s.responseLength ∧ s.responseLength ≤ 256 ∧
    ∀ (pData : Nat → Byte) (length : Nat),
      ∀ k ∈ (s.handleNotification pData length).stores, k < 256 := by
  have hc := reachable_consistent s0 s h
  exact ⟨hc.1, hc.2.1, fun pData length => (consistent_step s pData length hc).2⟩

/-- Witness of C17: the state after two of the three chunks of `frame30` is
reachable, holds 20 bytes, and the third chunk is stored at indices 20..29. -/
theorem buffer_never_overflows_witness :
    Reachable idleManager (idleManager.resetResponseState.feed (frame30Split.take 2)) ∧
    (idleManager.resetResponseState.feed (frame30Split.take 2)).responseLength = 20 ∧
    ((idleManager.resetResponseState.feed (frame30Split.take 2)).handleNotification
      (ofList [0, 0, 0, 0, 0, 0, 0, 0x00, 0x00, 0x77]) 10).stores = List.range' 20 10 ∧
    (0 ≤ (idleManager.resetResponseState.feed (frame30Split.take 2)).responseLength ∧
      (idleManager.resetResponseState.feed (frame30Split.take 2)).responseLength ≤ 256 ∧
      ∀ (pData : Nat → Byte) (length : Nat),
        ∀ k ∈ ((idleManager.resetResponseState.feed (frame30Split.take 2)).handleNotification
          pData length).stores, k < 256) :=
  ⟨reachable_feed idleManager (frame30Split.take 2), by decide, by decide,
    buffer_never_overflows idleManager _ (reachable_feed idleManager (frame30Split.take 2))⟩

/-! ## Command exchange -/

theorem send_of_checks (self : BluetoothManager) (command : Nat → Byte)
    (commandLength timeoutMs : Nat) (env : Exchange)
    (hlen : 1 ≤ commandLength ∧ commandLength ≤ 20)
    (hw : self.hasWriteCharacteristic = true) (hb : self.bleConnected = true) :
    self.sendCommandAndWaitResponse command commandLength timeoutMs env =
      self.resetResponseState.writeAndWait command commandLength timeoutMs env := by
  unfold BluetoothManager.sendCommandAndWaitResponse
  rw [if_neg (by omega), if_neg (by rw [hw, hb]; simp)]

theorem waitLoop_timeout (start timeoutMs : Nat) (t : Tick) (post : List Tick)
    (hlate : ¬ elapsed t.nowCond start < timeoutMs) :
    ∀ (pre : List Tick) (w : Waiting),
      (∀ u ∈ pre, elapsed u.nowCond start < timeoutMs) →
      (waitLoop start timeoutMs pre w).manager.responseReceived = false →
      (waitLoop start timeoutMs (pre ++ t :: post) w).status ≠ WaitStatus.pending ∧
      (waitLoop start timeoutMs (pre ++ t :: post) w).manager.responseReceived = false ∧
      (waitLoop start timeoutMs (pre ++ t :: post) w).manager =
        (waitLoop start timeoutMs pre w).manager := by
  intro pre
  induction pre with
  | nil =>
    intro w _ hq
    simp only [waitLoop, List.nil_append] at hq ⊢
    split_ifs at hq ⊢ <;> simp_all
  | cons u pre ih =>
    intro w hearly hq
    have hu := hearly u (List.mem_cons_self _ _)
    have ih2 := fun w2 => ih w2 (fun v hv => hearly v (List.mem_cons_of_mem _ hv))
    simp only [waitLoop, List.cons_append] at hq ⊢
    split_ifs at hq ⊢ <;> simp_all

theorem reset_fields (s : BluetoothManager) :
    s.resetResponseState.responseLength = 0 ∧
    s.resetResponseState.responseReceived = false ∧
    s.resetResponseState.expectingMoreData = false ∧
    s.resetResponseState.expectedTotalLength = 0 ∧
    ∀ i, i < 256 → s.resetResponseState.responseBuffer i = 0 := by
  refine ⟨rfl, rfl, rfl, rfl, fun i hi => ?_⟩
  show (if i < 256 then (0 : Byte) else s.responseBuffer i) = 0
  rw [if_pos hi]

theorem reset_eq_of_link_eq (a b : BluetoothManager)
    (h1 : a.hasClient = b.hasClient)
    (h2 : a.hasWriteCharacteristic = b.hasWriteCharacteristic)
    (h3 : a.hasReadCharacteristic = b.hasReadCharacteristic)
    (h4 : a.bleConnected = b.bleConnected)
    (h5 : a.currentBatteryMac = b.currentBatteryMac)
    (h6 : ∀ i, 256 ≤ i → a.responseBuffer i = b.responseBuffer i) :
    a.resetResponseState = b.resetResponseState := by
  unfold BluetoothManager.resetResponseState
  have hbuf : (fun i => if i < 256 then (0 : Byte) else a.responseBuffer i) =
      (fun i => if i < 256 then (0 : Byte) else b.responseBuffer i) := by
    funext i
    by_cases hi : i < 256
    · rw [if_pos hi, if_pos hi]
    · rw [if_neg hi, if_neg hi, h6 i (by omega)]
  rw [hbuf, h1, h2, h3, h4, h5]

/-- C18: every exchange starts from an empty reassembly state. Whenever
`sendCommandAndWaitResponse` passes its parameter and link checks, the write and
the wait run on the reset manager, in which `responseLength = 0`,
`responseReceived = false`, `expectingMoreData = false`,
`expectedTotalLength = 0` and all 256 buffer bytes are 0; so the call gives the
same result from any other manager that differs only in the reassembly members,
whatever an earlier exchange left in them. -/
theorem exchange_starts_reset (self : BluetoothManager) (command : Nat → Byte)
    (commandLength timeoutMs : Nat) (env : Exchange)
    (hlen : 1 ≤ commandLength ∧ commandLength ≤ 20)
    (hw : self.hasWriteCharacteristic = true) (hb : self.bleConnected = true) :
    self.sendCommandAndWaitResponse command commandLength timeoutMs env =
      self.resetResponseState.writeAndWait command commandLength timeoutMs env ∧
    (self.resetResponseState.responseLength = 0 ∧
      self.resetResponseState.responseReceived = false ∧
      self.resetResponseState.expectingMoreData = false ∧
      self.resetResponseState.expectedTotalLength = 0 ∧
      ∀ i, i < 256 → self.resetResponseState.responseBuffer i = 0) ∧
    ∀ other : BluetoothManager,
      other.hasClient = self.hasClient →
      other.hasWriteCharacteristic = self.hasWriteCharacteristic →
      other.hasReadCharacteristic = self.hasReadCharacteristic →
      other.bleConnected = self.bleConnected →
      other.currentBatteryMac = self.currentBatteryMac →
      (∀ i, 256 ≤ i → other.responseBuffer i = self.responseBuffer i) →
      other.sendCommandAndWaitResponse command commandLength timeoutMs env =
        self.sendCommandAndWaitResponse command commandLength timeoutMs env := by
  refine ⟨send_of_checks self command commandLength timeoutMs env hlen hw hb,
    reset_fields self, fun other h1 h2 h3 h4 h5 h6 => ?_⟩
  rw [send_of_checks self command commandLength timeoutMs env hlen hw hb,
    send_of_checks other command commandLength timeoutMs env hlen (h2.trans hw) (h4.trans hb),
    reset_eq_of_link_eq other self h1 h2 h3 h4 h5 h6]

/-- Witness of C18: a linked manager still holding the completed `frame30` of an
earlier exchange, and the same manager with clean members, give the same result
for the basic-info command: the reset manager holds no byte of `frame30`. -/
theorem exchange_starts_reset_witness :
    (linkedManager.feed [frame30]).responseLength = 30 ∧
    (linkedManager.feed [frame30]).resetResponseState.responseLength = 0 ∧
    (linkedManager.feed [frame30]).resetResponseState.responseBuffer 0 = 0 ∧
    linkedManager.sendCommandAndWaitResponse (createCommand 0x03 (fun _ => 0)).1 7 5000
        (silentExchange 5000) =
      (linkedManager.feed [frame30]).sendCommandAndWaitResponse
        (createCommand 0x03 (fun _ => 0)).1 7 5000 (silentExchange 5000) := by
  have h := exchange_starts_reset (linkedManager.feed [frame30])
    (createCommand 0x03 (fun _ => 0)).1 7 5000 (silentExchange 5000) (by decide) (by decide)
    (by decide)
  refine ⟨by decide, h.2.1.1, h.2.1.2.2.2.2 0 (by decide), ?_⟩
  exact h.2.2 linkedManager (by decide) (by decide) (by decide) (by decide) (by decide)
    (fun i hi => by
      show (linkedManager.responseBuffer i) = (linkedManager.feed [frame30]).responseBuffer i
      have e : linkedManager.feed [frame30] =
          (linkedManager.handleNotification (ofList frame30) frame30.length).manager := rfl
      rw [e, handle_cases _ _ _ (by decide) (by decide)]
      rw [if_pos (by decide), if_pos (by decide)]
      show _ = memcpy linkedManager.responseBuffer 0 (ofList frame30) frame30.length i
      unfold memcpy
      rw [if_neg]
      have : frame30.length = 30 := rfl
      omega)

theorem elapsed_eq (now start : Nat) (h1 : now < 4294967296) (h2 : start < 4294967296) :
    elapsed now start = (now + 4294967296 - start) % 4294967296 := by
  unfold elapsed
  omega

theorem checkComplete_link (s : BluetoothManager) : SameLink s.checkComplete s := by
  unfold BluetoothManager.checkComplete
  split_ifs
  · exact ⟨rfl, rfl, rfl, rfl, rfl, fun _ _ => rfl⟩
  · exact ⟨rfl, rfl, rfl, rfl, rfl, fun _ _ => rfl⟩

theorem sameLink_trans (a b c : BluetoothManager) (h1 : SameLink a b) (h2 : SameLink b c) :
    SameLink a c :=
  ⟨h1.1.trans h2.1, h1.2.1.trans h2.2.1, h1.2.2.1.trans h2.2.2.1,
    h1.2.2.2.1.trans h2.2.2.2.1, h1.2.2.2.2.1.trans h2.2.2.2.2.1,
    fun i hi => (h1.2.2.2.2.2 i hi).trans (h2.2.2.2.2.2 i hi)⟩

theorem handle_link (s : BluetoothManager) (pData : Nat → Byte) (length : Nat)
    (hc : Consistent s) : SameLink (s.handleNotification pData length).manager s := by
  have h0 := hc.1
  have hcopy : ∀ off : Nat, off + length ≤ 256 → ∀ i, 256 ≤ i →
      memcpy s.responseBuffer off pData length i = s.responseBuffer i := by
    intro off hoff i hi
    unfold memcpy
    rw [if_neg (by omega)]
  rw [handle_cases s pData length hc.1 hc.2.1]
  by_cases hg : 1 ≤ length ∧ s.responseLength + (length : Int) ≤ 256
  · rw [if_pos hg]
    by_cases h1 : 4 ≤ length ∧ pData 0 = 0xDD ∧ s.responseLength = 0
    · rw [if_pos h1]
      exact sameLink_trans _ _ _ (checkComplete_link _)
        ⟨rfl, rfl, rfl, rfl, rfl, hcopy 0 (by omega)⟩
    · rw [if_neg h1]
      by_cases h2 : s.expectingMoreData = true ∧ s.responseLength > 0
      · rw [if_pos h2]
        exact sameLink_trans _ _ _ (checkComplete_link _)
          ⟨rfl, rfl, rfl, rfl, rfl, hcopy (Int.toNat s.responseLength) (by omega)⟩
      · rw [if_neg h2]
        exact sameLink_trans _ _ _ (checkComplete_link _)
          ⟨rfl, rfl, rfl, rfl, rfl, hcopy 0 (by omega)⟩
  · rw [if_neg hg]
    exact ⟨rfl, rfl, rfl, rfl, rfl, fun _ _ => rfl⟩

theorem reachable_link (s0 s : BluetoothManager) (h : Reachable s0 s) : SameLink s s0 := by
  induction h with
  | reset =>
    refine ⟨rfl, rfl, rfl, rfl, rfl, fun i hi => ?_⟩
    show (if i < 256 then (0 : Byte) else s0.responseBuffer i) = s0.responseBuffer i
    rw [if_neg (by omega)]
  | notify s pData length hs ih =>
    exact sameLink_trans _ _ _ (handle_link s pData length (reachable_consistent s0 s hs)) ih

theorem reachable_feed_of (s0 : BluetoothManager) :
    ∀ (cs : List (List Byte)) (s : BluetoothManager), Reachable s0 s →
      Reachable s0 (s.feed cs) := by
  intro cs
  induction cs with
  | nil => exact fun s hs => hs
  | cons c cs ih =>
    intro s hs
    rw [feed_cons]
    exact ih _ (Reachable.notify s (ofList c) c.length hs)

theorem waitLoop_reachable (s0 : BluetoothManager) (start timeoutMs : Nat) :
    ∀ (ticks : List Tick) (w : Waiting), Reachable s0 w.manager →
      Reachable s0 (waitLoop start timeoutMs ticks w).manager := by
  intro ticks
  induction ticks with
  | nil =>
    intro w h
    simp only [waitLoop]
    split_ifs <;> exact h
  | cons t ts ih =>
    intro w h
    have a1 := reachable_feed_of s0 t.yielded _ h
    have a2 := reachable_feed_of s0 t.delayed _ h
    have a3 := reachable_feed_of s0 t.delayed _ a1
    have a4 := reachable_feed_of s0 t.retried _ a2
    have a5 := reachable_feed_of s0 t.retried _ a3
    simp only [waitLoop]
    split_ifs
    all_goals first
      | exact h
      | exact a1
      | exact a2
      | exact a3
      | exact a4
      | exact a5
      | exact ih _ a2
      | exact ih _ a3
      | exact ih _ a4
      | exact ih _ a5

/-- C19 refuted as stated: in `lateExchange` the only pass of the wait loop
begins 4990 ms after the send, the clock reads 5015 ms at the retry test with the
completion flag still down, and `basicFrame` arrives in the `delay(100)` after
that reading: with a timeout of 5000 ms the call returns true with the 15 bytes,
not false. And the return after a timeout does not reset the buffer: in
`stalledExchange` the call returns false and leaves the 10 bytes received, with a
continuation still awaited. -/
theorem late_frame_returned :
    elapsed lateTick.nowCond lateExchange.startTime = 4990 ∧
    elapsed lateTick.nowRetry lateExchange.startTime = 5015 ∧
    (linkedManager.resetResponseState.feed
      (lateExchange.onWrite ++ lateTick.yielded ++ lateTick.delayed)).responseReceived
        = false ∧
    (linkedManager.sendCommandAndWaitResponse (createCommand 0x03 (fun _ => 0)).1 7 5000
      lateExchange).map (fun r => (r.ret, r.manager.responseLength)) = some (true, 15) ∧
    (linkedManager.sendCommandAndWaitResponse (createCommand 0x03 (fun _ => 0)).1 7 5000
      stalledExchange).map
        (fun r => (r.ret, r.manager.responseLength, r.manager.expectingMoreData))
        = some (false, 10, true) := by
  decide

/-- C19 amended: let `sendCommandAndWaitResponse` pass its checks, let the clock
readings be 32-bit values, and let `t` be the first pass of the wait loop whose
loop test reads `(millis() - startTime) mod 2^32 ≥ timeoutMs`. If the completion
flag is still down after everything delivered in the passes before `t`, whenever
in those passes it arrived, the call returns false with the flag down. The
reassembly members are not reset at that return: the manager is the one the
passes before `t` left. The next call that passes its checks gives the same
result as it would on the manager before the timed-out exchange. -/
theorem timeout_at_loop_test (self : BluetoothManager) (command : Nat → Byte)
    (commandLength timeoutMs : Nat) (env : Exchange) (pre : List Tick) (t : Tick)
    (post : List Tick)
    (hlen : 1 ≤ commandLength ∧ commandLength ≤ 20)
    (hw : self.hasWriteCharacteristic = true) (hb : self.bleConnected = true)
    (hticks : env.ticks = pre ++ t :: post)
    (hclock : env.startTime < 4294967296 ∧ t.nowCond < 4294967296 ∧
      ∀ u ∈ pre, u.nowCond < 4294967296)
    (hearly : ∀ u ∈ pre, (u.nowCond + 4294967296 - env.startTime) % 4294967296 < timeoutMs)
    (hlate : timeoutMs ≤ (t.nowCond + 4294967296 - env.startTime) % 4294967296)
    (hquiet :
      (waitLoop env.startTime timeoutMs pre
        { status := WaitStatus.pending, manager := self.resetResponseState.feed env.onWrite,
          lastWatchdogFeed := env.firstFeed, retryCount := 0 }).manager.responseReceived
        = false) :
    ∃ r, self.sendCommandAndWaitResponse command commandLength timeoutMs env = some r ∧
      r.ret = false ∧ r.manager.responseReceived = false ∧
      r.manager =
        (if env.writeThrows = true then self.resetResponseState
         else (waitLoop env.startTime timeoutMs pre
          { status := WaitStatus.pending, manager := self.resetResponseState.feed env.onWrite,
            lastWatchdogFeed := env.firstFeed, retryCount := 0 }).manager) ∧
      (∀ (command2 : Nat → Byte) (commandLength2 timeoutMs2 : Nat) (env2 : Exchange),
        1 ≤ commandLength2 ∧ commandLength2 ≤ 20 →
        r.manager.sendCommandAndWaitResponse command2 commandLength2 timeoutMs2 env2 =
          self.sendCommandAndWaitResponse command2 commandLength2 timeoutMs2 env2) := by
  have hearly2 : ∀ u ∈ pre, elapsed u.nowCond env.startTime < timeoutMs := by
    intro u hu
    rw [elapsed_eq _ _ (hclock.2.2 u hu) hclock.1]
    exact hearly u hu
  have hlate2 : ¬ elapsed t.nowCond env.startTime < timeoutMs := by
    rw [elapsed_eq _ _ hclock.2.1 hclock.1]
    omega
  obtain ⟨hs, hf, hm⟩ :=
    waitLoop_timeout env.startTime timeoutMs t post hlate2 pre _ hearly2 hquiet
  have hreach : Reachable self (waitLoop env.startTime timeoutMs pre
      { status := WaitStatus.pending, manager := self.resetResponseState.feed env.onWrite,
        lastWatchdogFeed := env.firstFeed, retryCount := 0 }).manager :=
    waitLoop_reachable self env.startTime timeoutMs pre _ (reachable_feed self env.onWrite)
  have hnext : ∀ m : BluetoothManager, SameLink m self →
      ∀ (command2 : Nat → Byte) (commandLength2 timeoutMs2 : Nat) (env2 : Exchange),
        1 ≤ commandLength2 ∧ commandLength2 ≤ 20 →
        m.sendCommandAndWaitResponse command2 commandLength2 timeoutMs2 env2 =
          self.sendCommandAndWaitResponse command2 commandLength2 timeoutMs2 env2 := by
    intro m hl c2 l2 t2 e2 h2
    rw [send_of_checks self c2 l2 t2 e2 h2 hw hb,
      send_of_checks m c2 l2 t2 e2 h2 (hl.2.1.trans hw) (hl.2.2.2.1.trans hb),
      reset_eq_of_link_eq m self hl.1 hl.2.1 hl.2.2.1 hl.2.2.2.1 hl.2.2.2.2.1 hl.2.2.2.2.2]
  rw [send_of_checks self command commandLength timeoutMs env hlen hw hb]
  unfold BluetoothManager.writeAndWait
  by_cases hthrow : env.writeThrows = true
  · rw [if_pos hthrow, if_pos hthrow]
    exact ⟨_, rfl, rfl, rfl, rfl, hnext _ (reachable_link self _ Reachable.reset)⟩
  rw [if_neg hthrow, if_neg hthrow, hticks]
  cases hst : (waitLoop env.startTime timeoutMs (pre ++ t :: post)
      { status := WaitStatus.pending, manager := self.resetResponseState.feed env.onWrite,
        lastWatchdogFeed := env.firstFeed, retryCount := 0 }).status with
  | pending => exact absurd hst hs
  | linkLost =>
    simp only [hst]
    exact ⟨_, rfl, rfl, hf, hm, hm ▸ hnext _ (reachable_link self _ hreach)⟩
  | left =>
    simp only [hst]
    exact ⟨_, rfl, hf, hf, hm, hm ▸ hnext _ (reachable_link self _ hreach)⟩

/-- Witness of C19 amended: `wrappedExchange` is sent 296 ms before the clock
wraps; only the first 10 bytes of `frame30` arrive, and the second loop test
reads the clock at 4704, which is 5000 ms after the send. The basic-info command
with a timeout of 5000 ms returns false, the 10 bytes are still in the buffer,
and the next attempt gives the result it gives on `linkedManager`. -/
theorem timeout_at_loop_test_witness :
    (4704 + 4294967296 - wrappedExchange.startTime) % 4294967296 = 5000 ∧
    ∃ r, linkedManager.sendCommandAndWaitResponse (createCommand 0x03 (fun _ => 0)).1 7 5000
        wrappedExchange = some r ∧
      r.ret = false ∧ r.manager.responseReceived = false ∧
      (linkedManager.sendCommandAndWaitResponse (createCommand 0x03 (fun _ => 0)).1 7 5000
        wrappedExchange).map (fun x => x.manager.responseLength) = some 10 ∧
      r.manager.sendCommandAndWaitResponse (createCommand 0x03 (fun _ => 0)).1 7 5000
          (promptExchange [basicFrame]) =
        linkedManager.sendCommandAndWaitResponse (createCommand 0x03 (fun _ => 0)).1 7 5000
          (promptExchange [basicFrame]) := by
  obtain ⟨r, h1, h2, h3, _, h5⟩ := timeout_at_loop_test linkedManager
    (createCommand 0x03 (fun _ => 0)).1 7 5000 wrappedExchange
    (wrappedExchange.ticks.take 1)
    { nowCond := 4704, nowFeed := 4704, yielded := [], nowFed := 4704, linkUp := true,
      delayed := [], nowRetry := 4729, retried := [] }
    [] (by decide) (by decide) (by decide) rfl (by decide) (by decide) (by decide) (by decide)
  exact ⟨by decide, r, h1, h2, h3, by decide, h5 _ 7 5000 _ (by decide)⟩

theorem tryCommand_spec (self : BluetoothManager) (cmd : Byte) (bd : BatteryData)
    (env : Exchange) (now : Nat) (r : Tried)
    (h : self.tryCommand cmd bd env now = some r) :
    (r.ret = false → r.batteryData = bd) ∧ (r.ret = true → r.batteryData.dataValid = true) := by
  unfold BluetoothManager.tryCommand at h
  by_cases hc : cmd = CMD_READ_BASIC_INFO ∨ cmd = CMD_READ_CELL_VOLTAGES ∨
      cmd = CMD_READ_HARDWARE_VERSION
  · rw [if_pos hc] at h
    cases hs : self.sendCommandAndWaitResponse (createCommand cmd (fun _ => 0)).1
        (createCommand cmd (fun _ => 0)).2 5000 env with
    | none =>
      simp only [hs] at h
      cases h
    | some x =>
      simp only [hs] at h
      by_cases h1 : x.ret = false
      · rw [if_pos h1] at h
        cases h
        exact ⟨fun _ => rfl, fun hh => by cases hh⟩
      · rw [if_neg h1] at h
        by_cases h2 : x.manager.responseLength < 3 ∨ x.manager.responseBuffer 2 ≠ 0x00
        · rw [if_pos h2] at h
          cases h
          exact ⟨fun _ => rfl, fun hh => by cases hh⟩
        · rw [if_neg h2] at h
          by_cases h3 : cmd = CMD_READ_BASIC_INFO
          · rw [if_pos h3] at h
            cases h
            rcases basic_cases x.manager.responseBuffer (toUInt8 x.manager.responseLength) bd now
              with ⟨_, e1, e2, _⟩ | ⟨_, e2⟩
            · exact ⟨fun _ => e2, fun hh => by
                have hh2 : (parseBasicInfoResponse x.manager.responseBuffer
                  (toUInt8 x.manager.responseLength) bd now).ret = true := hh
                rw [e1] at hh2
                cases hh2⟩
            · refine ⟨fun hh => ?_, fun _ => ?_⟩
              · have hh2 : (parseBasicInfoResponse x.manager.responseBuffer
                  (toUInt8 x.manager.responseLength) bd now).ret = false := hh
                rw [e2] at hh2
                cases hh2
              · show (parseBasicInfoResponse x.manager.responseBuffer
                  (toUInt8 x.manager.responseLength) bd now).batteryData.dataValid = true
                rw [e2]
          · rw [if_neg h3] at h
            by_cases h4 : cmd = CMD_READ_CELL_VOLTAGES
            · rw [if_pos h4] at h
              cases h
              rcases cell_cases x.manager.responseBuffer (toUInt8 x.manager.responseLength) bd now
                with ⟨_, e1, e2, _⟩ | ⟨_, e2⟩
              · exact ⟨fun _ => e2, fun hh => by
                  have hh2 : (parseCellVoltageResponse x.manager.responseBuffer
                    (toUInt8 x.manager.responseLength) bd now).ret = true := hh
                  rw [e1] at hh2
                  cases hh2⟩
              · refine ⟨fun hh => ?_, fun _ => ?_⟩
                · have hh2 : (parseCellVoltageResponse x.manager.responseBuffer
                    (toUInt8 x.manager.responseLength) bd now).ret = false := hh
                  rw [e2] at hh2
                  cases hh2
                · show (parseCellVoltageResponse x.manager.responseBuffer
                    (toUInt8 x.manager.responseLength) bd now).batteryData.dataValid = true
                  rw [e2]
            · rw [if_neg h4] at h
              cases h
              exact ⟨fun _ => rfl, fun hh => by cases hh⟩
  · rw [if_neg hc] at h
    cases h
    exact ⟨fun _ => rfl, fun hh => by cases hh⟩

/-! ## One scan of a device -/

/-- C20: given that `connectToBattery` succeeded, and that both exchanges come
to an end, `readBatteryData` returns true exactly when `tryCommand` with `0x03`
returned true; `tryCommand` with `0x04` is called exactly in that case; when it
fails the return value is still true and the record is the one the basic-info
decode left; and when `readBatteryData` returns false, `dataValid` is false. -/
theorem readBatteryData_spec (self : BluetoothManager) (macAddress : String)
    (bd : BatteryData) (env : Scan) (r1 r2 : Tried)
    (hc : (env.connect self).1 = true)
    (h1 : (env.connect self).2.tryCommand CMD_READ_BASIC_INFO
      { bd with macAddress := macAddress, dataValid := false } env.basic env.basicNow = some r1)
    (h2 : r1.ret = true →
      r1.manager.tryCommand CMD_READ_CELL_VOLTAGES r1.batteryData env.cell env.cellNow
        = some r2) :
    ∃ r, self.readBatteryData macAddress bd env = some r ∧
      (r.ret = true ↔ r1.ret = true) ∧
      (r.attempted =
        if r1.ret = true then [CMD_READ_BASIC_INFO, CMD_READ_CELL_VOLTAGES]
        else [CMD_READ_BASIC_INFO]) ∧
      (r1.ret = true → r2.ret = false → r.batteryData = r1.batteryData) ∧
      (r.ret = false → r.batteryData.dataValid = false) := by
  obtain ⟨a1, a2⟩ := tryCommand_spec _ _ _ _ _ _ h1
  unfold BluetoothManager.readBatteryData
  rw [if_neg (by rw [hc]; simp)]
  simp only [h1]
  by_cases hr : r1.ret = true
  · have h3 := h2 hr
    obtain ⟨b1, b2⟩ := tryCommand_spec _ _ _ _ _ _ h3
    have hv : r2.batteryData.dataValid = true := by
      by_cases hr2 : r2.ret = true
      · exact b2 hr2
      · rw [b1 (by simpa using hr2)]
        exact a2 hr
    rw [if_pos hr]
    simp only [h3]
    refine ⟨_, rfl, ?_, ?_, fun _ hr2 => b1 hr2, fun hf => ?_⟩
    · simp [hv, hr]
    · rw [if_pos hr]
    · simp [hv] at hf
  · rw [if_neg hr]
    refine ⟨_, rfl, ?_, ?_, fun h => absurd h hr, fun _ => ?_⟩
    · simp [hr]
    · rw [if_neg hr]
    · show r1.batteryData.dataValid = false
      rw [a1 (by simpa using hr)]

theorem eq_some_getD (o : Option Tried) (d : Tried) (h : o.isSome = true) :
    o = some (o.getD d) := by
  cases o with
  | none => cases h
  | some x => rfl

/-- Witness of C20: in `scanCellTimeout` the basic-info exchange succeeds and
the cell-voltage exchange times out: `readBatteryData` returns true, both
commands were tried, and the record is valid; in `scanBasicTimeout` the
basic-info exchange times out: it returns false and only `0x03` was tried. -/
theorem readBatteryData_spec_witness :
    (∃ r, idleManager.readBatteryData "AA:BB" emptyRecord scanCellTimeout = some r ∧
      r.ret = true ∧ r.attempted = [0x03, 0x04] ∧ r.batteryData.dataValid = true) ∧
    (idleManager.readBatteryData "AA:BB" emptyRecord scanBasicTimeout).map
      (fun r => (r.ret, r.attempted, r.batteryData.dataValid)) = some (false, [0x03], false) := by
  obtain ⟨r, e1, e2, e3, e4, e5⟩ := readBatteryData_spec idleManager "AA:BB" emptyRecord
    scanCellTimeout scanCellTimeoutBasic scanCellTimeoutCell (by decide)
    (eq_some_getD _ _ (by decide)) (fun _ => eq_some_getD _ _ (by decide))
  have hr1 : scanCellTimeoutBasic.ret = true := by decide
  have hret : r.ret = true := e2.mpr hr1
  refine ⟨⟨r, e1, hret, ?_, ?_⟩, by decide⟩
  · rw [e3, if_pos hr1]
    rfl
  · have hd : (idleManager.readBatteryData "AA:BB" emptyRecord scanCellTimeout).map
        (fun x => x.batteryData.dataValid) = some true := by decide
    rw [e1] at hd
    exact Option.some.inj hd

/-! ## Frame effect of the cell-voltage decode -/

/-- C23: a successful cell-voltage decode only enriches the record. For every
input accepted by `parseCellVoltageResponse` (length at most 255) the fields
`macAddress`, `voltage`, `current`, `remainingAh`, `maxAh`, `watts`, `soc`,
`temperature` and `switches` and every `cellVoltages` entry at an index
`≥ min (declaredLength / 2) 32` are unchanged: the record afterwards is the
record before with `numCells`, `cellVoltages`, `dataValid` and `timestamp`
replaced. -/
theorem cell_decode_enriches (data : Nat → Byte) (n : Nat) (bd : BatteryData) (now : Nat)
    (hn : n < 256) (h : (parseCellVoltageResponse data n bd now).ret = true) :
    (parseCellVoltageResponse data n bd now).batteryData =
      { bd with
        numCells := (parseCellVoltageResponse data n bd now).batteryData.numCells
        cellVoltages := (parseCellVoltageResponse data n bd now).batteryData.cellVoltages
        dataValid := true
        timestamp := now } ∧
    (∀ j, min ((256 * (data 2).val + (data 3).val) / 2) 32 ≤ j →
      (parseCellVoltageResponse data n bd now).batteryData.cellVoltages j =
        bd.cellVoltages j) ∧
    (parseCellVoltageResponse data n bd now).batteryData.macAddress = bd.macAddress ∧
    (parseCellVoltageResponse data n bd now).batteryData.voltage = bd.voltage ∧
    (parseCellVoltageResponse data n bd now).batteryData.current = bd.current ∧
    (parseCellVoltageResponse data n bd now).batteryData.remainingAh = bd.remainingAh ∧
    (parseCellVoltageResponse data n bd now).batteryData.maxAh = bd.maxAh ∧
    (parseCellVoltageResponse data n bd now).batteryData.watts = bd.watts ∧
    (parseCellVoltageResponse data n bd now).batteryData.soc = bd.soc ∧
    (parseCellVoltageResponse data n bd now).batteryData.temperature = bd.temperature ∧
    (parseCellVoltageResponse data n bd now).batteryData.switches = bd.switches := by
  obtain ⟨h1, _, h3, _⟩ := cell_accept_spec data n bd now h
  have hm : (256 * (data 2).val + (data 3).val) / 2 % 256 =
      (256 * (data 2).val + (data 3).val) / 2 := by omega
  refine ⟨?_, fun j hj => ?_, ?_⟩
  · rcases cell_cases data n bd now with ⟨_, h2, _⟩ | ⟨_, h2⟩
    · rw [h2] at h
      cases h
    · rw [h2]
  · rw [h3 j, hm, if_neg (by omega)]
  · rcases cell_cases data n bd now with ⟨_, h2, _⟩ | ⟨_, h2⟩
    · rw [h2] at h
      cases h
    · rw [h2]
      exact ⟨rfl, rfl, rfl, rfl, rfl, rfl, rfl, rfl, rfl⟩

/-- Witness of C23: decoding `cellFrame` (4 cells) into `seededRecord` keeps its
voltage, switch flags and the stale entry at slot 4, and sets `numCells = 4`. -/
theorem cell_decode_enriches_witness :
    (parseCellVoltageResponse (ofList cellFrame) 15 seededRecord 9).ret = true ∧
    (parseCellVoltageResponse (ofList cellFrame) 15 seededRecord 9).batteryData.numCells = 4 ∧
    (parseCellVoltageResponse (ofList cellFrame) 15 seededRecord 9).batteryData.voltage
      = seededRecord.voltage ∧
    (parseCellVoltageResponse (ofList cellFrame) 15 seededRecord 9).batteryData.switches
      = "C+D-" ∧
    (parseCellVoltageResponse (ofList cellFrame) 15 seededRecord 9).batteryData.cellVoltages 4
      = seededRecord.cellVoltages 4 := by
  have h := cell_decode_enriches (ofList cellFrame) 15 seededRecord 9 (by decide) (by decide)
  exact ⟨by decide, by decide, h.2.2.2.1, h.2.2.2.2.2.2.2.2.2.2, h.2.1 4 (by decide)⟩

/-! ## Checks before sending -/

/-- C25: `sendCommandAndWaitResponse` fails immediately whenever the command
length is 0 or above 20, or `bleConnected` is false, or there is no write
characteristic: it returns false, passes nothing to `writeValue` and leaves the
manager, reassembly members included, as it was. The length 7 that
`createCommand` sets passes the size check. -/
theorem send_fails_immediately (self : BluetoothManager) (command : Nat → Byte)
    (commandLength timeoutMs : Nat) (env : Exchange) (c : Byte) (buffer : Nat → Byte) :
    (commandLength = 0 ∨ commandLength > 20 ∨ self.bleConnected = false ∨
        self.hasWriteCharacteristic = false →
      self.sendCommandAndWaitResponse command commandLength timeoutMs env =
        some { ret := false, manager := self, writes := [] }) ∧
    (createCommand c buffer).2 = 7 ∧
    ¬ ((createCommand c buffer).2 = 0 ∨ (createCommand c buffer).2 > 20) := by
  refine ⟨fun h => ?_, rfl, ?_⟩
  · unfold BluetoothManager.sendCommandAndWaitResponse
    by_cases h1 : commandLength = 0 ∨ commandLength > 20
    · rw [if_pos h1]
    · rw [if_neg h1, if_pos]
      rcases h with h | h | h | h
      · exact absurd (Or.inl h) h1
      · exact absurd (Or.inr h) h1
      · exact Or.inr h
      · exact Or.inl h
  · show ¬ ((7 : Nat) = 0 ∨ (7 : Nat) > 20)
    omega

/-- Witness of C25: on the idle manager (no characteristic, link down) the
basic-info command is not sent; on the linked manager a command length of 21 is
refused. -/
theorem send_fails_immediately_witness :
    idleManager.sendCommandAndWaitResponse (createCommand 0x03 (fun _ => 0)).1 7 5000
        (promptExchange [basicFrame]) =
      some { ret := false, manager := idleManager, writes := [] } ∧
    linkedManager.sendCommandAndWaitResponse (createCommand 0x03 (fun _ => 0)).1 21 5000
        (promptExchange [basicFrame]) =
      some { ret := false, manager := linkedManager, writes := [] } :=
  ⟨(send_fails_immediately idleManager (createCommand 0x03 (fun _ => 0)).1 7 5000
      (promptExchange [basicFrame]) 0x03 (fun _ => 0)).1 (Or.inr (Or.inr (Or.inl rfl))),
    (send_fails_immediately linkedManager (createCommand 0x03 (fun _ => 0)).1 21 5000
      (promptExchange [basicFrame]) 0x03 (fun _ => 0)).1 (Or.inr (Or.inl (by decide)))⟩

/-! ## The two checksum schemes -/

theorem command_sum (c : Byte) (buffer : Nat → Byte) :
    ∑ i in Finset.range (7 - 3), ((createCommand c buffer).1 i).val = 0x182 + c.val := by
  obtain ⟨h0, h1, h2, h3, _⟩ := createCommand_bytes c buffer
  rw [show 7 - 3 = 4 from rfl, Finset.sum_range_succ, Finset.sum_range_succ,
    Finset.sum_range_succ, Finset.sum_range_succ, Finset.sum_range_zero, h0, h1, h2, h3]
  show 0 + 221 + 165 + c.val + 0 = 0x182 + c.val
  omega

/-- C28: the two checksum schemes are incompatible. For every command byte `c`,
`verifyChecksum` on the 7-byte frame of `createCommand` returns false:
`calculateChecksum` of the frame is `0xFE7E - c`, while the stored checksum is
`(0x10000 - c) mod 0x10000`. -/
theorem command_frame_fails_verify (c : Byte) (buffer : Nat → Byte) :
    verifyChecksum (createCommand c buffer).1 7 = false ∧
    calculateChecksum (createCommand c buffer).1 7 = 0xFE7E - c.val ∧
    256 * ((createCommand c buffer).1 (7 - 3)).val + ((createCommand c buffer).1 (7 - 2)).val =
      (0x10000 - c.val) % 0x10000 := by
  have hc := c.isLt
  have hs := command_sum c buffer
  obtain ⟨_, _, _, _, h4, h5, _⟩ := createCommand_bytes c buffer
  have hst : 256 * ((createCommand c buffer).1 (7 - 3)).val +
      ((createCommand c buffer).1 (7 - 2)).val = (0x10000 - c.val) % 0x10000 := by
    rw [show 7 - 3 = 4 from rfl, show 7 - 2 = 5 from rfl, h4, h5]
    exact checksum_bytes_eq c
  refine ⟨?_, ?_, hst⟩
  · rw [Bool.eq_false_iff]
    intro hv
    obtain ⟨_, he⟩ := (verifyChecksum_iff _ 7).mp hv
    rw [hs, hst] at he
    omega
  · simp only [calculateChecksum]
    rw [checksum_sum_eq (fun i => ((createCommand c buffer).1 i).val) (7 - 3), hs]
    omega

/-- C29: checksum round trip. For every buffer and length `n ≥ 7`, overwriting
bytes `n - 3` and `n - 2` with the high and low byte of `calculateChecksum`
gives bytes on which `verifyChecksum` returns true; for `n < 7`,
`verifyChecksum` returns false whatever the content. -/
theorem checksum_round_trip (data : Nat → Byte) (n : Nat) :
    (7 ≤ n →
      verifyChecksum
        (withChecksum data n (toByte (calculateChecksum data n / 256))
          (toByte (calculateChecksum data n % 256))) n = true) ∧
    (n < 7 → verifyChecksum data n = false) := by
  constructor
  · intro hn
    have hsum : ∀ d : Nat → Byte, calculateChecksum d n =
        (65536 - (∑ i in Finset.range (n - 3), (d i).val) % 65536) % 65536 := by
      intro d
      simp only [calculateChecksum]
      rw [checksum_sum_eq (fun i => (d i).val) (n - 3)]
      omega
    have hsame : ∑ i in Finset.range (n - 3),
        ((withChecksum data n (toByte (calculateChecksum data n / 256))
          (toByte (calculateChecksum data n % 256))) i).val =
        ∑ i in Finset.range (n - 3), (data i).val := by
      apply Finset.sum_congr rfl
      intro i hi
      rw [Finset.mem_range] at hi
      unfold withChecksum
      rw [Function.update_noteq (by omega), Function.update_noteq (by omega)]
    rw [verifyChecksum_iff]
    refine ⟨hn, ?_⟩
    rw [hsame, ← hsum data]
    unfold withChecksum
    rw [Function.update_noteq (by omega), Function.update_same, Function.update_same]
    have hlt : calculateChecksum data n < 65536 := by
      rw [hsum data]
      omega
    show calculateChecksum data n =
      256 * (calculateChecksum data n / 256 % 256) + calculateChecksum data n % 256 % 256
    omega
  · intro hn
    unfold verifyChecksum
    rw [if_pos hn]

/-- Witness of C29: the frame `badChecksumFrame` (checksum bytes zeroed) fails
`verifyChecksum`, and passes once its bytes 12 and 13 hold the computed checksum
`0xFC5B`; a 3-byte input fails. -/
theorem checksum_round_trip_witness :
    verifyChecksum (ofList badChecksumFrame) 15 = false ∧
    calculateChecksum (ofList badChecksumFrame) 15 = 0xFC5B ∧
    verifyChecksum
      (withChecksum (ofList badChecksumFrame) 15
        (toByte (calculateChecksum (ofList badChecksumFrame) 15 / 256))
        (toByte (calculateChecksum (ofList badChecksumFrame) 15 % 256))) 15 = true ∧
    verifyChecksum (ofList truncatedFrame) 3 = false :=
  ⟨by decide, by decide,
    (checksum_round_trip (ofList badChecksumFrame) 15).1 (by decide),
    (checksum_round_trip (ofList truncatedFrame) 3).2 (by decide)⟩

/-! ## Continuation chunks and flag consistency -/

theorem checkComplete_keeps (s : BluetoothManager) :
    s.checkComplete.responseBuffer = s.responseBuffer ∧
    s.checkComplete.responseLength = s.responseLength ∧
    s.checkComplete.expectedTotalLength = s.expectedTotalLength ∧
    (s.responseReceived = true → s.checkComplete.responseReceived = true) := by
  unfold BluetoothManager.checkComplete
  split_ifs
  · exact ⟨rfl, rfl, rfl, fun _ => rfl⟩
  · exact ⟨rfl, rfl, rfl, fun h => h⟩

theorem received_stays (s : BluetoothManager) (hc : Consistent s) (pData : Nat → Byte)
    (length : Nat) (hr : s.responseReceived = true) :
    (s.handleNotification pData length).manager.responseReceived = true := by
  rw [handle_cases s pData length hc.1 hc.2.1]
  split_ifs
  · exact (checkComplete_keeps _).2.2.2 hr
  · exact (checkComplete_keeps _).2.2.2 hr
  · exact (checkComplete_keeps _).2.2.2 hr
  · exact hr

set_option maxRecDepth 100000 in
/-- C24, as stated, fails: with 250 bytes accumulated and a continuation
awaited, a chunk of 10 bytes is not cut to the 6 bytes that would fit: it is
dropped whole, and `responseLength` stays 250 instead of becoming
`min (250 + 10) 256 = 256`. -/
theorem continuation_dropped_whole :
    (idleManager.resetResponseState.feed [chunk250]).expectingMoreData = true ∧
    (idleManager.resetResponseState.feed [chunk250]).responseLength = 250 ∧
    ((idleManager.resetResponseState.feed [chunk250]).handleNotification
      (ofList tenBytes) 10).manager.responseLength = 250 ∧
    ((idleManager.resetResponseState.feed [chunk250]).handleNotification
      (ofList tenBytes) 10).stores = [] ∧
    (250 : Int) ≠ min (250 + 10) 256 := by
  decide

/-- C24, amended: while a continuation is awaited, in a state reached from the
reset state with `r` bytes accumulated, a chunk of length `L` with `1 ≤ L` and
`r + L ≤ 256` is appended whole: its `L` bytes are stored at indices
`r .. r + L - 1` and `responseLength` becomes `r + L`; a chunk with `L = 0` or
`r + L > 256` is dropped whole and the manager is unchanged. -/
theorem continuation_appends_whole (s0 s : BluetoothManager) (h : Reachable s0 s)
    (he : s.expectingMoreData = true) (pData : Nat → Byte) (length : Nat) :
    (1 ≤ length ∧ s.responseLength + (length : Int) ≤ 256 →
      (s.handleNotification pData length).manager.responseLength =
        s.responseLength + (length : Int) ∧
      (s.handleNotification pData length).manager.responseBuffer =
        memcpy s.responseBuffer (Int.toNat s.responseLength) pData length ∧
      (s.handleNotification pData length).stores =
        List.range' (Int.toNat s.responseLength) length) ∧
    (¬ (1 ≤ length ∧ s.responseLength + (length : Int) ≤ 256) →
      (s.handleNotification pData length).manager = s ∧
      (s.handleNotification pData length).stores = []) := by
  obtain ⟨h0, h1, _, h3⟩ := reachable_consistent s0 s h
  obtain ⟨hpos, _, _⟩ := h3 he
  rw [handle_cases s pData length h0 h1]
  by_cases hg : 1 ≤ length ∧ s.responseLength + (length : Int) ≤ 256
  · rw [if_pos hg, if_neg (by omega), if_pos ⟨he, hpos⟩]
    refine ⟨fun _ => ⟨?_, ?_, rfl⟩, fun hn => absurd hg hn⟩
    · exact (checkComplete_keeps _).2.1
    · exact (checkComplete_keeps _).1
  · rw [if_neg hg]
    exact ⟨fun hp => absurd hp hg, fun _ => ⟨rfl, rfl⟩⟩

/-- Witness of C24 amended: after the first 10 bytes of `frame30` a
continuation is awaited; a second chunk of 10 bytes is appended whole at indices
10..19, giving 20 bytes. -/
theorem continuation_appends_whole_witness :
    (idleManager.resetResponseState.feed (frame30Split.take 1)).expectingMoreData = true ∧
    (idleManager.resetResponseState.feed (frame30Split.take 1)).responseLength = 10 ∧
    ((idleManager.resetResponseState.feed (frame30Split.take 1)).handleNotification
      (ofList tenBytes) 10).manager.responseLength =
        (idleManager.resetResponseState.feed (frame30Split.take 1)).responseLength + 10 ∧
    ((idleManager.resetResponseState.feed (frame30Split.take 1)).handleNotification
      (ofList tenBytes) 10).stores =
        List.range' (Int.toNat
          (idleManager.resetResponseState.feed (frame30Split.take 1)).responseLength) 10 := by
  have h := (continuation_appends_whole idleManager
    (idleManager.resetResponseState.feed (frame30Split.take 1))
    (reachable_feed idleManager (frame30Split.take 1)) (by decide) (ofList tenBytes) 10).1
    (by decide)
  exact ⟨by decide, by decide, h.1, h.2.2⟩

/-- C27: reassembly flag consistency. In every state reached from the reset
state by any sequence of `handleNotification` calls, `responseReceived` holds
exactly when `responseLength > 0` and `expectingMoreData` is false; whenever
`expectingMoreData` is true, `0 < responseLength < expectedTotalLength ≤ 256`;
and no further `handleNotification` call takes `responseReceived` from true to
false. -/
theorem flags_consistent (s0 s : BluetoothManager) (h : Reachable s0 s) :
    (s.responseReceived = true ↔ 0 < s.responseLength ∧ s.expectingMoreData = false) ∧
    (s.expectingMoreData = true →
      0 < s.responseLength ∧ s.responseLength < s.expectedTotalLength ∧
        s.expectedTotalLength ≤ 256) ∧
    (∀ (pData : Nat → Byte) (length : Nat), s.responseReceived = true →
      (s.handleNotification pData length).manager.responseReceived = true) := by
  have hc := reachable_consistent s0 s h
  exact ⟨hc.2.2.1, hc.2.2.2, fun pData length hr => received_stays s hc pData length hr⟩

/-- Witness of C27: after the first 10 bytes of `frame30` the flag is down, a
continuation is awaited and `0 < 10 < 30 ≤ 256`; after the whole frame the flag
is up and stays up under a further notification. -/
theorem flags_consistent_witness :
    (idleManager.resetResponseState.feed (frame30Split.take 1)).responseReceived = false ∧
    (0 < (idleManager.resetResponseState.feed (frame30Split.take 1)).responseLength ∧
      (idleManager.resetResponseState.feed (frame30Split.take 1)).responseLength <
        (idleManager.resetResponseState.feed (frame30Split.take 1)).expectedTotalLength ∧
      (idleManager.resetResponseState.feed (frame30Split.take 1)).expectedTotalLength ≤ 256) ∧
    (idleManager.resetResponseState.feed (frame30Split.take 1)).expectedTotalLength = 30 ∧
    ((idleManager.resetResponseState.feed frame30Split).handleNotification
      (ofList tenBytes) 10).manager.responseReceived = true :=
  ⟨by decide,
    (flags_consistent idleManager _ (reachable_feed idleManager (frame30Split.take 1))).2.1
      (by decide),
    by decide,
    (flags_consistent idleManager _ (reachable_feed idleManager frame30Split)).2.2
      (ofList tenBytes) 10 (by decide)⟩

/-! ## The gate before the decoder -/

theorem eq_some_getD_of {α : Type} (o : Option α) (d : α) (h : o.isSome = true) :
    o = some (o.getD d) := by
  cases o with
  | none => cases h
  | some x => rfl

theorem tryCommand_cases (self : BluetoothManager) (cmd : Byte) (bd : BatteryData)
    (env : Exchange) (now : Nat) (r : Tried)
    (h : self.tryCommand cmd bd env now = some r) :
    (¬ (cmd = CMD_READ_BASIC_INFO ∨ cmd = CMD_READ_CELL_VOLTAGES ∨
          cmd = CMD_READ_HARDWARE_VERSION) ∧
      r.ret = false ∧ r.batteryData = bd ∧ r.manager = self ∧ r.writes = []) ∨
    ∃ x, self.sendCommandAndWaitResponse (createCommand cmd (fun _ => 0)).1
        (createCommand cmd (fun _ => 0)).2 5000 env = some x ∧
      r.manager = x.manager ∧ r.writes = x.writes ∧
      (((x.ret = false ∨ x.manager.responseLength < 3 ∨ x.manager.responseBuffer 2 ≠ 0x00 ∨
            (cmd ≠ CMD_READ_BASIC_INFO ∧ cmd ≠ CMD_READ_CELL_VOLTAGES)) ∧
          r.ret = false ∧ r.batteryData = bd) ∨
        (x.ret = true ∧ 3 ≤ x.manager.responseLength ∧ x.manager.responseBuffer 2 = 0x00 ∧
          ((cmd = CMD_READ_BASIC_INFO ∧
              r.ret = (parseBasicInfoResponse x.manager.responseBuffer
                (toUInt8 x.manager.responseLength) bd now).ret ∧
              r.batteryData = (parseBasicInfoResponse x.manager.responseBuffer
                (toUInt8 x.manager.responseLength) bd now).batteryData) ∨
            (cmd = CMD_READ_CELL_VOLTAGES ∧
              r.ret = (parseCellVoltageResponse x.manager.responseBuffer
                (toUInt8 x.manager.responseLength) bd now).ret ∧
              r.batteryData = (parseCellVoltageResponse x.manager.responseBuffer
                (toUInt8 x.manager.responseLength) bd now).batteryData)))) := by
  unfold BluetoothManager.tryCommand at h
  by_cases hc : cmd = CMD_READ_BASIC_INFO ∨ cmd = CMD_READ_CELL_VOLTAGES ∨
      cmd = CMD_READ_HARDWARE_VERSION
  · rw [if_pos hc] at h
    right
    cases hs : self.sendCommandAndWaitResponse (createCommand cmd (fun _ => 0)).1
        (createCommand cmd (fun _ => 0)).2 5000 env with
    | none =>
      simp only [hs] at h
      cases h
    | some x =>
      simp only [hs] at h
      refine ⟨x, rfl, ?_⟩
      by_cases h1 : x.ret = false
      · rw [if_pos h1] at h
        cases h
        exact ⟨rfl, rfl, Or.inl ⟨Or.inl h1, rfl, rfl⟩⟩
      · rw [if_neg h1] at h
        have h1t : x.ret = true := by simpa using h1
        by_cases h2 : x.manager.responseLength < 3 ∨ x.manager.responseBuffer 2 ≠ 0x00
        · rw [if_pos h2] at h
          cases h
          refine ⟨rfl, rfl, Or.inl ⟨?_, rfl, rfl⟩⟩
          rcases h2 with h2 | h2
          · exact Or.inr (Or.inl h2)
          · exact Or.inr (Or.inr (Or.inl h2))
        · rw [if_neg h2] at h
          have h2a : 3 ≤ x.manager.responseLength := by
            by_contra hh
            exact h2 (Or.inl (by omega))
          have h2b : x.manager.responseBuffer 2 = 0x00 := by
            by_contra hh
            exact h2 (Or.inr hh)
          by_cases h3 : cmd = CMD_READ_BASIC_INFO
          · rw [if_pos h3] at h
            cases h
            exact ⟨rfl, rfl, Or.inr ⟨h1t, h2a, h2b, Or.inl ⟨h3, rfl, rfl⟩⟩⟩
          · rw [if_neg h3] at h
            by_cases h4 : cmd = CMD_READ_CELL_VOLTAGES
            · rw [if_pos h4] at h
              cases h
              exact ⟨rfl, rfl, Or.inr ⟨h1t, h2a, h2b, Or.inr ⟨h4, rfl, rfl⟩⟩⟩
            · rw [if_neg h4] at h
              cases h
              exact ⟨rfl, rfl, Or.inl ⟨Or.inr (Or.inr (Or.inr ⟨h3, h4⟩)), rfl, rfl⟩⟩
  · rw [if_neg hc] at h
    cases h
    exact Or.inl ⟨hc, rfl, rfl, rfl, rfl⟩

theorem tryCommand_with (self : BluetoothManager) (cmd : Byte) (bd : BatteryData)
    (env : Exchange) (now : Nat) (r : Tried) (x : Exchanged)
    (h : self.tryCommand cmd bd env now = some r)
    (hx : self.sendCommandAndWaitResponse (createCommand cmd (fun _ => 0)).1
      (createCommand cmd (fun _ => 0)).2 5000 env = some x) :
    ((x.ret = false ∨ x.manager.responseLength < 3 ∨ x.manager.responseBuffer 2 ≠ 0x00 ∨
          (cmd ≠ CMD_READ_BASIC_INFO ∧ cmd ≠ CMD_READ_CELL_VOLTAGES)) ∧
        r.ret = false ∧ r.batteryData = bd) ∨
      (x.ret = true ∧ 3 ≤ x.manager.responseLength ∧ x.manager.responseBuffer 2 = 0x00 ∧
        ((cmd = CMD_READ_BASIC_INFO ∧
            r.ret = (parseBasicInfoResponse x.manager.responseBuffer
              (toUInt8 x.manager.responseLength) bd now).ret ∧
            r.batteryData = (parseBasicInfoResponse x.manager.responseBuffer
              (toUInt8 x.manager.responseLength) bd now).batteryData) ∨
          (cmd = CMD_READ_CELL_VOLTAGES ∧
            r.ret = (parseCellVoltageResponse x.manager.responseBuffer
              (toUInt8 x.manager.responseLength) bd now).ret ∧
            r.batteryData = (parseCellVoltageResponse x.manager.responseBuffer
              (toUInt8 x.manager.responseLength) bd now).batteryData))) := by
  rcases tryCommand_cases self cmd bd env now r h with ⟨hk, h1, h2, _⟩ | ⟨y, hy, _, _, hrest⟩
  · refine Or.inl ⟨Or.inr (Or.inr (Or.inr ⟨fun e => hk (Or.inl e), fun e => hk (Or.inr (Or.inl e))⟩)),
      h1, h2⟩
  · rw [hx] at hy
    cases hy
    exact hrest

/-- C26: after a completed exchange `tryCommand` hands the accumulated frame to
the decoder only if it has at least 3 bytes and `responseBuffer[2]` is `0x00`;
otherwise it returns false and leaves the record unchanged. So whenever
`tryCommand` returns true, the exchange was completed, the response passed that
gate, the result is what the decoder for the command returned, and the declared
length `BE16(d[2],d[3])` has high byte zero. -/
theorem decoder_gate (self : BluetoothManager) (cmd : Byte) (bd : BatteryData)
    (env : Exchange) (now : Nat) (r : Tried) (x : Exchanged)
    (h : self.tryCommand cmd bd env now = some r)
    (hx : self.sendCommandAndWaitResponse (createCommand cmd (fun _ => 0)).1
      (createCommand cmd (fun _ => 0)).2 5000 env = some x) :
    (x.manager.responseLength < 3 ∨ x.manager.responseBuffer 2 ≠ 0x00 →
      r.ret = false ∧ r.batteryData = bd) ∧
    (r.ret = true →
      x.ret = true ∧ 3 ≤ x.manager.responseLength ∧ x.manager.responseBuffer 2 = 0x00 ∧
      256 * (x.manager.responseBuffer 2).val + (x.manager.responseBuffer 3).val < 256 ∧
      ((cmd = CMD_READ_BASIC_INFO ∧
          (parseBasicInfoResponse x.manager.responseBuffer
            (toUInt8 x.manager.responseLength) bd now).ret = true ∧
          r.batteryData = (parseBasicInfoResponse x.manager.responseBuffer
            (toUInt8 x.manager.responseLength) bd now).batteryData) ∨
        (cmd = CMD_READ_CELL_VOLTAGES ∧
          (parseCellVoltageResponse x.manager.responseBuffer
            (toUInt8 x.manager.responseLength) bd now).ret = true ∧
          r.batteryData = (parseCellVoltageResponse x.manager.responseBuffer
            (toUInt8 x.manager.responseLength) bd now).batteryData))) := by
  rcases tryCommand_with self cmd bd env now r x h hx with
    ⟨_, h1, h2⟩ | ⟨h1, h2, h3, h4⟩
  · exact ⟨fun _ => ⟨h1, h2⟩, fun hr => by rw [h1] at hr; cases hr⟩
  · refine ⟨fun hg => ?_, fun hr => ⟨h1, h2, h3, ?_, ?_⟩⟩
    · rcases hg with hg | hg
      · omega
      · exact absurd h3 hg
    · rw [h3]
      have := (x.manager.responseBuffer 3).isLt
      show 256 * 0 + (x.manager.responseBuffer 3).val < 256
      omega
    · rcases h4 with ⟨e1, e2, e3⟩ | ⟨e1, e2, e3⟩
      · exact Or.inl ⟨e1, e2 ▸ hr, e3⟩
      · exact Or.inr ⟨e1, e2 ▸ hr, e3⟩

/-- Witness of C26: when the 7-byte response `errorFrame` (byte 2 is `0x80`)
completes the basic-info exchange, `tryCommand` returns false and the record is
the one passed in; when `basicFrame` arrives, it returns true. -/
theorem decoder_gate_witness :
    errorExchanged.ret = true ∧ errorExchanged.manager.responseLength = 7 ∧
    errorExchanged.manager.responseBuffer 2 = 0x80 ∧
    errorTried.ret = false ∧ errorTried.batteryData = seededRecord ∧
    (linkedManager.tryCommand CMD_READ_BASIC_INFO seededRecord (promptExchange [basicFrame])
      7).map (fun r => r.ret) = some true := by
  have h := (decoder_gate linkedManager CMD_READ_BASIC_INFO seededRecord
    (promptExchange [errorFrame]) 7 errorTried errorExchanged
    (eq_some_getD_of _ _ (by decide)) (eq_some_getD_of _ _ (by decide))).1
    (Or.inr (by decide))
  exact ⟨by decide, by decide, by decide, h.1, h.2, by decide⟩

/-- C30: length narrowing. The length `tryCommand` passes to a decoder is
`responseLength mod 256`; for every response with `responseLength = 256`,
whatever its content, that length is 0 and `tryCommand` returns false with the
record unchanged. -/
theorem length_narrowing (self : BluetoothManager) (cmd : Byte) (bd : BatteryData)
    (env : Exchange) (now : Nat) (r : Tried) (x : Exchanged)
    (h : self.tryCommand cmd bd env now = some r)
    (hx : self.sendCommandAndWaitResponse (createCommand cmd (fun _ => 0)).1
      (createCommand cmd (fun _ => 0)).2 5000 env = some x) :
    (r.ret = true →
      (cmd = CMD_READ_BASIC_INFO ∧
        r.batteryData = (parseBasicInfoResponse x.manager.responseBuffer
          (Int.toNat (x.manager.responseLength % 256)) bd now).batteryData) ∨
      (cmd = CMD_READ_CELL_VOLTAGES ∧
        r.batteryData = (parseCellVoltageResponse x.manager.responseBuffer
          (Int.toNat (x.manager.responseLength % 256)) bd now).batteryData)) ∧
    (x.manager.responseLength = 256 →
      Int.toNat (x.manager.responseLength % 256) = 0 ∧ r.ret = false ∧ r.batteryData = bd) := by
  rcases tryCommand_with self cmd bd env now r x h hx with
    ⟨_, h1, h2⟩ | ⟨_, _, _, h4⟩
  · exact ⟨fun hr => (by rw [h1] at hr; cases hr), fun h256 => ⟨by rw [h256]; rfl, h1, h2⟩⟩
  · refine ⟨fun _ => ?_, fun h256 => ?_⟩
    · rcases h4 with ⟨e1, _, e3⟩ | ⟨e1, _, e3⟩
      · exact Or.inl ⟨e1, e3⟩
      · exact Or.inr ⟨e1, e3⟩
    · have hz : toUInt8 x.manager.responseLength = 0 := by
        rw [h256]
        rfl
      refine ⟨hz, ?_⟩
      rcases h4 with ⟨_, e2, e3⟩ | ⟨_, e2, e3⟩
      · rw [hz] at e2 e3
        rcases basic_cases x.manager.responseBuffer 0 bd now with ⟨_, a1, a2, _⟩ | ⟨a0, _⟩
        · exact ⟨e2.trans a1, e3.trans a2⟩
        · exact absurd a0.1 (by omega)
      · rw [hz] at e2 e3
        rcases cell_cases x.manager.responseBuffer 0 bd now with ⟨_, a1, a2, _⟩ | ⟨a0, _⟩
        · exact ⟨e2.trans a1, e3.trans a2⟩
        · exact absurd a0.1 (by omega)

set_option maxRecDepth 100000 in
/-- Witness of C30: the 256-byte response `frame256` completes the basic-info
exchange with `responseLength = 256` and byte 2 equal to `0x00`; `tryCommand`
returns false and keeps the record, although the same bytes pass the frame
checks of the decoder at their true length 256. -/
theorem length_narrowing_witness :
    longExchanged.ret = true ∧ longExchanged.manager.responseLength = 256 ∧
    longExchanged.manager.responseBuffer 2 = 0x00 ∧
    longTried.ret = false ∧ longTried.batteryData = seededRecord ∧
    (parseBasicInfoResponse longExchanged.manager.responseBuffer 256 seededRecord 7).ret
      = true := by
  have h := (length_narrowing linkedManager CMD_READ_BASIC_INFO seededRecord
    (promptExchange [frame256]) 7 longTried longExchanged
    (eq_some_getD_of _ _ (by decide)) (eq_some_getD_of _ _ (by decide))).2 (by decide)
  exact ⟨by decide, by decide, by decide, h.2.1, h.2.2, by decide⟩

/-! ## What an exposed record owes to the call -/

theorem basic_two_runs (data : Nat → Byte) (n : Nat) (a b : BatteryData) (now : Nat)
    (hm : a.macAddress = b.macAddress)
    (h : (parseBasicInfoResponse data n a now).ret = true) :
    SameCore (parseBasicInfoResponse data n a now).batteryData
      (parseBasicInfoResponse data n b now).batteryData ∧
    (27 < n → (parseBasicInfoResponse data n a now).batteryData.switches =
      (parseBasicInfoResponse data n b now).batteryData.switches) ∧
    (¬ 27 < n → (parseBasicInfoResponse data n a now).batteryData.switches = a.switches) ∧
    (parseBasicInfoResponse data n a now).batteryData.numCells = a.numCells ∧
    (parseBasicInfoResponse data n a now).batteryData.cellVoltages = a.cellVoltages ∧
    (parseBasicInfoResponse data n a now).batteryData.dataValid = true := by
  have hb : (parseBasicInfoResponse data n b now).ret = true :=
    (basic_ret_iff data n b now).mpr ((basic_ret_iff data n a now).mp h)
  rcases basic_cases data n a now with ⟨_, h2, _⟩ | ⟨_, ea⟩
  · rw [h2] at h
    cases h
  rcases basic_cases data n b now with ⟨_, h2, _⟩ | ⟨_, eb⟩
  · rw [h2] at hb
    cases hb
  rw [ea, eb]
  refine ⟨⟨hm, rfl, rfl, rfl, rfl, rfl, rfl, rfl, rfl, rfl⟩, fun h27 => ?_, fun h27 => ?_,
    rfl, rfl, rfl⟩
  · have hd : decide ((24 : Int) < (n : Int) - 3) = true := decide_eq_true (by omega)
    show (if decide ((24 : Int) < (n : Int) - 3) = true then _ else a.switches) =
      (if decide ((24 : Int) < (n : Int) - 3) = true then _ else b.switches)
    rw [if_pos hd, if_pos hd]
  · have hd : ¬ decide ((24 : Int) < (n : Int) - 3) = true := by
      rw [decide_eq_true_eq]
      omega
    show (if decide ((24 : Int) < (n : Int) - 3) = true then _ else a.switches) = a.switches
    rw [if_neg hd]

theorem cell_two_runs (data : Nat → Byte) (n : Nat) (a b : BatteryData) (now : Nat)
    (hc : SameCore a b)
    (h : (parseCellVoltageResponse data n a now).ret = true) :
    SameCore (parseCellVoltageResponse data n a now).batteryData
      (parseCellVoltageResponse data n b now).batteryData ∧
    SameCells (parseCellVoltageResponse data n a now).batteryData
      (parseCellVoltageResponse data n b now).batteryData ∧
    (parseCellVoltageResponse data n a now).batteryData.switches = a.switches ∧
    (parseCellVoltageResponse data n b now).batteryData.switches = b.switches ∧
    (parseCellVoltageResponse data n a now).batteryData.dataValid = true := by
  have hb : (parseCellVoltageResponse data n b now).ret = true :=
    (cell_ret_iff data n b now).mpr ((cell_ret_iff data n a now).mp h)
  obtain ⟨_, sa1, sa2, _⟩ := cell_accept_spec data n a now h
  obtain ⟨_, sb1, sb2, _⟩ := cell_accept_spec data n b now hb
  have hcells : SameCells (parseCellVoltageResponse data n a now).batteryData
      (parseCellVoltageResponse data n b now).batteryData := by
    refine ⟨sa1.trans sb1.symm, fun i hi => ?_⟩
    rw [sa1] at hi
    rw [sa2 i, sb2 i, if_pos hi, if_pos hi]
  refine ⟨?_, hcells, ?_, ?_, ?_⟩
  all_goals
    rcases cell_cases data n a now with ⟨_, h2, _⟩ | ⟨_, ea⟩
    · rw [h2] at h
      cases h
    rcases cell_cases data n b now with ⟨_, h2, _⟩ | ⟨_, eb⟩
    · rw [h2] at hb
      cases hb
    first
      | (rw [ea, eb]
         exact ⟨hc.1, hc.2.1, hc.2.2.1, hc.2.2.2.1, hc.2.2.2.2.1, hc.2.2.2.2.2.1,
          hc.2.2.2.2.2.2.1, hc.2.2.2.2.2.2.2.1, rfl, rfl⟩)
      | rw [ea]
      | rw [eb]

theorem tryCommand_two_runs (self : BluetoothManager) (cmd : Byte) (a b : BatteryData)
    (env : Exchange) (now : Nat) (ra : Tried)
    (h : self.tryCommand cmd a env now = some ra) :
    ∃ rb, self.tryCommand cmd b env now = some rb ∧ rb.ret = ra.ret ∧
      rb.manager = ra.manager ∧ rb.writes = ra.writes ∧
      ((ra.ret = false ∧ ra.batteryData = a ∧ rb.batteryData = b) ∨
        (ra.ret = true ∧ cmd = CMD_READ_BASIC_INFO ∧
          (parseBasicInfoResponse ra.manager.responseBuffer
            (toUInt8 ra.manager.responseLength) a now).ret = true ∧
          ra.batteryData = (parseBasicInfoResponse ra.manager.responseBuffer
            (toUInt8 ra.manager.responseLength) a now).batteryData ∧
          rb.batteryData = (parseBasicInfoResponse ra.manager.responseBuffer
            (toUInt8 ra.manager.responseLength) b now).batteryData) ∨
        (ra.ret = true ∧ cmd = CMD_READ_CELL_VOLTAGES ∧
          (parseCellVoltageResponse ra.manager.responseBuffer
            (toUInt8 ra.manager.responseLength) a now).ret = true ∧
          ra.batteryData = (parseCellVoltageResponse ra.manager.responseBuffer
            (toUInt8 ra.manager.responseLength) a now).batteryData ∧
          rb.batteryData = (parseCellVoltageResponse ra.manager.responseBuffer
            (toUInt8 ra.manager.responseLength) b now).batteryData)) := by
  unfold BluetoothManager.tryCommand at h ⊢
  by_cases hc : cmd = CMD_READ_BASIC_INFO ∨ cmd = CMD_READ_CELL_VOLTAGES ∨
      cmd = CMD_READ_HARDWARE_VERSION
  · rw [if_pos hc] at h ⊢
    cases hs : self.sendCommandAndWaitResponse (createCommand cmd (fun _ => 0)).1
        (createCommand cmd (fun _ => 0)).2 5000 env with
    | none =>
      simp only [hs] at h
      cases h
    | some x =>
      simp only [hs] at h ⊢
      by_cases h1 : x.ret = false
      · rw [if_pos h1] at h ⊢
        cases h
        exact ⟨_, rfl, rfl, rfl, rfl, Or.inl ⟨rfl, rfl, rfl⟩⟩
      · rw [if_neg h1] at h ⊢
        by_cases h2 : x.manager.responseLength < 3 ∨ x.manager.responseBuffer 2 ≠ 0x00
        · rw [if_pos h2] at h ⊢
          cases h
          exact ⟨_, rfl, rfl, rfl, rfl, Or.inl ⟨rfl, rfl, rfl⟩⟩
        · rw [if_neg h2] at h ⊢
          by_cases h3 : cmd = CMD_READ_BASIC_INFO
          · rw [if_pos h3] at h ⊢
            cases h
            have hi : (parseBasicInfoResponse x.manager.responseBuffer
                (toUInt8 x.manager.responseLength) b now).ret =
                (parseBasicInfoResponse x.manager.responseBuffer
                  (toUInt8 x.manager.responseLength) a now).ret := by
              rw [Bool.eq_iff_iff, basic_ret_iff, basic_ret_iff]
            refine ⟨_, rfl, hi, rfl, rfl, ?_⟩
            rcases basic_cases x.manager.responseBuffer (toUInt8 x.manager.responseLength) a now
              with ⟨_, e1, e2, _⟩ | ⟨_, e2⟩
            · rcases basic_cases x.manager.responseBuffer (toUInt8 x.manager.responseLength)
                b now with ⟨_, f1, f2, _⟩ | ⟨_, f2⟩
              · exact Or.inl ⟨e1, e2, f2⟩
              · have hi2 := hi
                rw [e1, f2] at hi2
                cases hi2
            · exact Or.inr (Or.inl ⟨congrArg Outcome.ret e2, h3, congrArg Outcome.ret e2,
                rfl, rfl⟩)
          · rw [if_neg h3] at h ⊢
            by_cases h4 : cmd = CMD_READ_CELL_VOLTAGES
            · rw [if_pos h4] at h ⊢
              cases h
              have hi : (parseCellVoltageResponse x.manager.responseBuffer
                  (toUInt8 x.manager.responseLength) b now).ret =
                  (parseCellVoltageResponse x.manager.responseBuffer
                    (toUInt8 x.manager.responseLength) a now).ret := by
                rw [Bool.eq_iff_iff, cell_ret_iff, cell_ret_iff]
              refine ⟨_, rfl, hi, rfl, rfl, ?_⟩
              rcases cell_cases x.manager.responseBuffer (toUInt8 x.manager.responseLength) a now
                with ⟨_, e1, e2, _⟩ | ⟨_, e2⟩
              · rcases cell_cases x.manager.responseBuffer (toUInt8 x.manager.responseLength)
                  b now with ⟨_, f1, f2, _⟩ | ⟨_, f2⟩
                · exact Or.inl ⟨e1, e2, f2⟩
                · have hi2 := hi
                  rw [e1, f2] at hi2
                  cases hi2
              · exact Or.inr (Or.inr ⟨congrArg Outcome.ret e2, h4, congrArg Outcome.ret e2,
                  rfl, rfl⟩)
            · rw [if_neg h4] at h ⊢
              cases h
              exact ⟨_, rfl, rfl, rfl, rfl, Or.inl ⟨rfl, rfl, rfl⟩⟩
  · rw [if_neg hc] at h ⊢
    cases h
    exact ⟨_, rfl, rfl, rfl, rfl, Or.inl ⟨rfl, rfl, rfl⟩⟩

theorem scan_two_runs (self : BluetoothManager) (macAddress : String)
    (bd bd2 : BatteryData) (env : Scan) (r : Scanned)
    (h : self.readBatteryData macAddress bd env = some r) (hr : r.ret = true) :
    ∃ r1 r2 rb,
      (env.connect self).2.tryCommand CMD_READ_BASIC_INFO
        { bd with macAddress := macAddress, dataValid := false } env.basic env.basicNow
          = some r1 ∧
      r1.ret = true ∧
      r1.manager.tryCommand CMD_READ_CELL_VOLTAGES r1.batteryData env.cell env.cellNow
        = some r2 ∧
      self.readBatteryData macAddress bd2 env = some rb ∧ rb.ret = true ∧
      rb.manager = r.manager ∧ rb.attempted = r.attempted ∧
      r.batteryData.dataValid = true ∧
      SameCore r.batteryData rb.batteryData ∧
      (27 < toUInt8 r1.manager.responseLength →
        r.batteryData.switches = rb.batteryData.switches) ∧
      (¬ 27 < toUInt8 r1.manager.responseLength →
        r.batteryData.switches = bd.switches) ∧
      (r2.ret = true → SameCells r.batteryData rb.batteryData) ∧
      (r2.ret = false →
        r.batteryData.numCells = bd.numCells ∧ r.batteryData.cellVoltages = bd.cellVoltages) := by
  unfold BluetoothManager.readBatteryData at h
  by_cases hc : (env.connect self).1 = false
  · rw [if_pos hc] at h
    cases h
    cases hr
  rw [if_neg hc] at h
  cases h1 : (env.connect self).2.tryCommand CMD_READ_BASIC_INFO
      { bd with macAddress := macAddress, dataValid := false } env.basic env.basicNow with
  | none =>
    simp only [h1] at h
    cases h
  | some r1 =>
    simp only [h1] at h
    by_cases hr1 : r1.ret = true
    swap
    · rw [if_neg hr1] at h
      cases h
      simp at hr
    rw [if_pos hr1] at h
    cases h2 : r1.manager.tryCommand CMD_READ_CELL_VOLTAGES r1.batteryData env.cell
        env.cellNow with
    | none =>
      simp only [h2] at h
      cases h
    | some r2 =>
      simp only [h2] at h
      cases h
      have hv : r2.batteryData.dataValid = true := by simpa using hr
      obtain ⟨q1, g1, e1r, e1m, _, d1⟩ := tryCommand_two_runs (env.connect self).2
        CMD_READ_BASIC_INFO { bd with macAddress := macAddress, dataValid := false }
        { bd2 with macAddress := macAddress, dataValid := false } env.basic env.basicNow r1 h1
      obtain ⟨q2, g2, e2r, e2m, _, d2⟩ := tryCommand_two_runs r1.manager
        CMD_READ_CELL_VOLTAGES r1.batteryData q1.batteryData env.cell env.cellNow r2 h2
      have hq : self.readBatteryData macAddress bd2 env =
          some { ret := true && q2.batteryData.dataValid, manager := q2.manager.disconnect,
                 batteryData := q2.batteryData,
                 attempted := [CMD_READ_BASIC_INFO, CMD_READ_CELL_VOLTAGES] } := by
        unfold BluetoothManager.readBatteryData
        rw [if_neg hc]
        simp only [g1]
        rw [if_pos (e1r.trans hr1), e1m]
        simp only [g2]
      rcases d1 with ⟨f, _⟩ | ⟨_, _, pr, ea, eb⟩ | ⟨_, k, _⟩
      · rw [hr1] at f
        cases f
      swap
      · exact absurd k (by decide)
      obtain ⟨B1, B2, B3, B4, B5, _⟩ := basic_two_runs r1.manager.responseBuffer
        (toUInt8 r1.manager.responseLength)
        { bd with macAddress := macAddress, dataValid := false }
        { bd2 with macAddress := macAddress, dataValid := false } env.basicNow rfl pr
      rw [← ea, ← eb] at B1 B2
      rw [← ea] at B3 B4 B5
      have key : SameCore r2.batteryData q2.batteryData ∧
          r2.batteryData.switches = r1.batteryData.switches ∧
          q2.batteryData.switches = q1.batteryData.switches ∧
          (r2.ret = true → SameCells r2.batteryData q2.batteryData) ∧
          (r2.ret = false → r2.batteryData = r1.batteryData) := by
        rcases d2 with ⟨f, ea2, eb2⟩ | ⟨_, k, _⟩ | ⟨t, _, pr2, ea2, eb2⟩
        · rw [ea2, eb2]
          exact ⟨B1, rfl, rfl, fun t => (by rw [f] at t; cases t), fun _ => rfl⟩
        · exact absurd k (by decide)
        · obtain ⟨C1, C2, C3, C4, _⟩ := cell_two_runs r2.manager.responseBuffer
            (toUInt8 r2.manager.responseLength) r1.batteryData q1.batteryData env.cellNow B1 pr2
          rw [← ea2, ← eb2] at C1 C2
          rw [← ea2] at C3
          rw [← eb2] at C4
          exact ⟨C1, C3, C4, fun _ => C2, fun f => (by rw [t] at f; cases f)⟩
      obtain ⟨K1, K2, K3, K4, K5⟩ := key
      have hdv : q2.batteryData.dataValid = true := K1.2.2.2.2.2.2.2.2.1.symm.trans hv
      refine ⟨r1, r2, _, rfl, hr1, h2, hq, ?_, ?_, rfl, hv, K1, ?_, ?_, K4, ?_⟩
      · show (true && q2.batteryData.dataValid) = true
        rw [hdv]
        rfl
      · show q2.manager.disconnect = r2.manager.disconnect
        rw [e2m]
      · exact fun h27 => K2.trans ((B2 h27).trans K3.symm)
      · exact fun h27 => K2.trans (B3 h27)
      · intro f
        show r2.batteryData.numCells = bd.numCells ∧ r2.batteryData.cellVoltages = bd.cellVoltages
        rw [K5 f]
        exact ⟨B4, B5⟩

/-! ## The stored records -/

theorem store_at (w : WebServerManager) (k : Nat) (bd : BatteryData) (now : Nat)
    (hk : k < BATTERY_COUNT) :
    (w.updateBatteryData (k : Int) bd).setBatteryDataUpdateTime (k : Int) now =
      { latestBatteryData := Function.update w.latestBatteryData k bd
        lastDataUpdate := Function.update w.lastDataUpdate k now } := by
  have hg : (k : Int) ≥ 0 ∧ (k : Int) < (BATTERY_COUNT : Int) := ⟨by omega, by omega⟩
  unfold WebServerManager.updateBatteryData WebServerManager.setBatteryDataUpdateTime
  rw [if_pos hg, if_pos hg, Int.toNat_natCast]

theorem storeLoop_spec (addresses : Nat → String) (macAddress : String) (bd : BatteryData)
    (now : Nat) (fuel : Nat) :
    ∀ (i : Nat) (w : WebServerManager), BATTERY_COUNT ≤ i + fuel →
      ((∀ j, i ≤ j → j < BATTERY_COUNT → addresses j ≠ macAddress) ∧
        storeLoop addresses macAddress bd now fuel i w = w) ∨
      ∃ k, i ≤ k ∧ k < BATTERY_COUNT ∧ addresses k = macAddress ∧
        (∀ j, i ≤ j → j < k → addresses j ≠ macAddress) ∧
        storeLoop addresses macAddress bd now fuel i w =
          { latestBatteryData := Function.update w.latestBatteryData k bd
            lastDataUpdate := Function.update w.lastDataUpdate k now } := by
  induction fuel with
  | zero =>
    intro i w h
    exact Or.inl ⟨fun j h1 h2 => by omega, rfl⟩
  | succ n ih =>
    intro i w h
    unfold storeLoop
    by_cases hi : i < BATTERY_COUNT
    · rw [if_pos hi]
      by_cases ha : addresses i = macAddress
      · rw [if_pos ha, store_at w i bd now hi]
        exact Or.inr ⟨i, le_refl i, hi, ha, fun j h1 h2 => by omega, rfl⟩
      · rw [if_neg ha]
        rcases ih (i + 1) w (by omega) with ⟨h1, h2⟩ | ⟨k, k1, k2, k3, k4, k5⟩
        · refine Or.inl ⟨fun j j1 j2 => ?_, h2⟩
          by_cases e : j = i
          · rw [e]
            exact ha
          · exact h1 j (by omega) j2
        · refine Or.inr ⟨k, by omega, k2, k3, fun j j1 j2 => ?_, k5⟩
          by_cases e : j = i
          · rw [e]
            exact ha
          · exact k4 j (by omega) j2
    · rw [if_neg hi]
      exact Or.inl ⟨fun j h1 h2 => by omega, rfl⟩

/-- C22: the `readBatteryData` of `main.cpp` ends whenever the scan does, leaving
the manager the scan left. When the scan returns false or leaves `dataValid`
false, the stored `latestBatteryData` and `lastDataUpdate` are unchanged and
nothing is published. When it succeeds, every entry whose configured address
differs from the scanned address, and every index outside the array, is
unchanged; the first index whose configured address equals the scanned address
receives the record and the update time, every other entry is unchanged; and
the record is published when MQTT is connected. -/
theorem failure_preserves_store (g : Globals) (macAddress : String) (env : Reading)
    (r : Scanned)
    (hr : g.bluetoothManager.readBatteryData macAddress env.uninitialised env.scan = some r) :
    ∃ g2, readBatteryData g macAddress env = some g2 ∧ g2.bluetoothManager = r.manager ∧
      (r.ret = false ∨ r.batteryData.dataValid = false →
        g2.webServerManager = g.webServerManager ∧ g2.published = g.published) ∧
      (r.ret = true ∧ r.batteryData.dataValid = true →
        (∀ j, env.addresses j ≠ macAddress ∨ BATTERY_COUNT ≤ j →
          g2.webServerManager.latestBatteryData j = g.webServerManager.latestBatteryData j ∧
          g2.webServerManager.lastDataUpdate j = g.webServerManager.lastDataUpdate j) ∧
        (∀ k, k < BATTERY_COUNT → env.addresses k = macAddress →
          (∀ i, i < k → env.addresses i ≠ macAddress) →
          g2.webServerManager.latestBatteryData k = r.batteryData ∧
          g2.webServerManager.lastDataUpdate k = env.now ∧
          ∀ j, j ≠ k →
            g2.webServerManager.latestBatteryData j = g.webServerManager.latestBatteryData j ∧
            g2.webServerManager.lastDataUpdate j = g.webServerManager.lastDataUpdate j) ∧
        g2.published =
          if env.mqttConnected = true then g.published ++ [r.batteryData] else g.published) := by
  unfold readBatteryData
  simp only [hr]
  by_cases hs : r.ret = true ∧ r.batteryData.dataValid = true
  · rw [if_pos hs]
    refine ⟨_, rfl, rfl, fun hf => ?_, fun _ => ⟨?_, ?_, rfl⟩⟩
    · rcases hf with hf | hf
      · rw [hs.1] at hf
        cases hf
      · rw [hs.2] at hf
        cases hf
    · intro j hj
      show (storeLoop env.addresses macAddress r.batteryData env.now BATTERY_COUNT 0
          g.webServerManager).latestBatteryData j = _ ∧
        (storeLoop env.addresses macAddress r.batteryData env.now BATTERY_COUNT 0
          g.webServerManager).lastDataUpdate j = _
      rcases storeLoop_spec env.addresses macAddress r.batteryData env.now BATTERY_COUNT 0
        g.webServerManager (by omega) with ⟨_, e⟩ | ⟨k, _, k2, k3, _, e⟩
      · rw [e]
        exact ⟨rfl, rfl⟩
      · rw [e]
        have hjk : j ≠ k := by
          rintro rfl
          rcases hj with hj | hj
          · exact hj k3
          · omega
        exact ⟨Function.update_noteq hjk _ _, Function.update_noteq hjk _ _⟩
    · intro k hk hak hfirst
      show (storeLoop env.addresses macAddress r.batteryData env.now BATTERY_COUNT 0
          g.webServerManager).latestBatteryData k = _ ∧
        (storeLoop env.addresses macAddress r.batteryData env.now BATTERY_COUNT 0
          g.webServerManager).lastDataUpdate k = _ ∧
        ∀ j, j ≠ k →
          (storeLoop env.addresses macAddress r.batteryData env.now BATTERY_COUNT 0
            g.webServerManager).latestBatteryData j = _ ∧
          (storeLoop env.addresses macAddress r.batteryData env.now BATTERY_COUNT 0
            g.webServerManager).lastDataUpdate j = _
      rcases storeLoop_spec env.addresses macAddress r.batteryData env.now BATTERY_COUNT 0
        g.webServerManager (by omega) with ⟨e0, _⟩ | ⟨m, _, m2, m3, m4, e⟩
      · exact absurd hak (e0 k (Nat.zero_le k) hk)
      · have hmk : m = k := by
          rcases Nat.lt_trichotomy m k with c | c | c
          · exact absurd m3 (hfirst m c)
          · exact c
          · exact absurd hak (m4 k (Nat.zero_le k) c)
        rw [e, hmk]
        exact ⟨Function.update_same _ _ _, Function.update_same _ _ _,
          fun j hj => ⟨Function.update_noteq hj _ _, Function.update_noteq hj _ _⟩⟩
  · rw [if_neg hs]
    exact ⟨_, rfl, rfl, fun _ => ⟨rfl, rfl⟩, fun hf => absurd hf hs⟩

/-- Witness of C22: with addresses `"AA:BB"` and `"CC:DD"` configured and both
entries holding `seededRecord`, a scan of `"CC:DD"` whose basic-info exchange
times out leaves the store unchanged and publishes nothing; a scan of `"CC:DD"`
in which both frames arrive replaces entry 1 by the scanned record with update
time 99 and leaves entry 0 as it was. -/
theorem failure_preserves_store_witness :
    failedScanned.ret = false ∧
    (∃ g2, readBatteryData seededGlobals "CC:DD" (readingOf scanBasicTimeout) = some g2 ∧
      g2.webServerManager = seededGlobals.webServerManager ∧ g2.published = []) ∧
    (secondScanned.ret = true ∧ secondScanned.batteryData.dataValid = true) ∧
    (∃ g2, readBatteryData seededGlobals "CC:DD" (readingOf scanBoth) = some g2 ∧
      g2.webServerManager.latestBatteryData 1 = secondScanned.batteryData ∧
      g2.webServerManager.lastDataUpdate 1 = 99 ∧
      g2.webServerManager.latestBatteryData 0 = seededRecord ∧
      g2.webServerManager.lastDataUpdate 0 = 5 ∧
      g2.published = [secondScanned.batteryData]) := by
  have hf : failedScanned.ret = false := by decide
  have hs : secondScanned.ret = true ∧ secondScanned.batteryData.dataValid = true := by decide
  obtain ⟨a, a1, _, a3, _⟩ := failure_preserves_store seededGlobals "CC:DD"
    (readingOf scanBasicTimeout) failedScanned (eq_some_getD_of _ _ (by decide))
  obtain ⟨b, b1, _, _, b4⟩ := failure_preserves_store seededGlobals "CC:DD"
    (readingOf scanBoth) secondScanned (eq_some_getD_of _ _ (by decide))
  obtain ⟨c1, c2, c3⟩ := b4 hs
  obtain ⟨d1, d2, _⟩ := c2 1 (by decide) (by decide) (fun i hi => by
    have h0 : i = 0 := by omega
    rw [h0]
    decide)
  exact ⟨hf, ⟨a, a1, (a3 (Or.inl hf)).1, (a3 (Or.inl hf)).2⟩, hs,
    ⟨b, b1, d1, d2, (c1 0 (Or.inl (by decide))).1, (c1 0 (Or.inl (by decide))).2, c3⟩⟩

/-! ## What a scan without cell voltages stores -/

/-- C21 fails in the code: in `scanCellTimeout` the 15-byte `basicFrame` is
received and the cell-voltage exchange times out. Whatever the local
`batteryData` of `readBatteryData` in `main.cpp` held before the scan, the record
stored for battery 0 and published is marked valid, and its `switches`,
`numCells` and `cellVoltages` are that earlier content of the local: no frame of
the call assigned them. -/
theorem stale_fields_published (u : BatteryData) :
    ∃ g2, readBatteryData seededGlobals "AA:BB"
        { readingOf scanCellTimeout with uninitialised := u } = some g2 ∧
      (g2.webServerManager.latestBatteryData 0).dataValid = true ∧
      (g2.webServerManager.latestBatteryData 0).switches = u.switches ∧
      (g2.webServerManager.latestBatteryData 0).numCells = u.numCells ∧
      (g2.webServerManager.latestBatteryData 0).cellVoltages = u.cellVoltages ∧
      g2.webServerManager.lastDataUpdate 0 = 99 ∧
      g2.published = [g2.webServerManager.latestBatteryData 0] := by
  have hret : scanCellTimeoutScanned.ret = true := by decide
  obtain ⟨_, _, rb, _, _, _, hb, hbr, _⟩ := scan_two_runs idleManager "AA:BB" emptyRecord u
    scanCellTimeout scanCellTimeoutScanned (eq_some_getD_of _ _ (by decide)) hret
  obtain ⟨r1, r2, _, h1, _, h2, _, _, _, _, hdv, _, _, hsw, _, hcells⟩ :=
    scan_two_runs idleManager "AA:BB" u emptyRecord scanCellTimeout rb hb hbr
  obtain ⟨q1, g1, _, e1m, _⟩ := tryCommand_two_runs (scanCellTimeout.connect idleManager).2
    CMD_READ_BASIC_INFO { emptyRecord with macAddress := "AA:BB", dataValid := false }
    { u with macAddress := "AA:BB", dataValid := false } scanCellTimeout.basic
    scanCellTimeout.basicNow scanCellTimeoutBasic (eq_some_getD_of _ _ (by decide))
  have hr1 : r1 = q1 := Option.some.inj (h1.symm.trans g1)
  have hman : r1.manager = scanCellTimeoutBasic.manager := by rw [hr1, e1m]
  obtain ⟨q2, g2, e2r, _⟩ := tryCommand_two_runs scanCellTimeoutBasic.manager
    CMD_READ_CELL_VOLTAGES scanCellTimeoutBasic.batteryData r1.batteryData
    scanCellTimeout.cell scanCellTimeout.cellNow scanCellTimeoutCell
    (eq_some_getD_of _ _ (by decide))
  rw [hman] at h2
  have hr2 : r2 = q2 := Option.some.inj (h2.symm.trans g2)
  have hfalse : r2.ret = false := by
    rw [hr2, e2r]
    decide
  have hshort : ¬ 27 < toUInt8 r1.manager.responseLength := by
    rw [hman]
    decide
  obtain ⟨hn, hv⟩ := hcells hfalse
  have hstore : storeLoop (readingOf scanCellTimeout).addresses "AA:BB" rb.batteryData 99
      BATTERY_COUNT 0 seededGlobals.webServerManager =
      { latestBatteryData :=
          Function.update seededGlobals.webServerManager.latestBatteryData 0 rb.batteryData
        lastDataUpdate := Function.update seededGlobals.webServerManager.lastDataUpdate 0 99 } := by
    rcases storeLoop_spec (readingOf scanCellTimeout).addresses "AA:BB" rb.batteryData 99
      BATTERY_COUNT 0 seededGlobals.webServerManager (by omega) with ⟨e0, _⟩ | ⟨k, _, _, _, k4, e⟩
    · exact absurd rfl (e0 0 (le_refl 0) (by decide))
    · have hk : k = 0 := by
        by_contra hne
        exact k4 0 (le_refl 0) (Nat.pos_of_ne_zero hne) rfl
      rw [e, hk]
  have hb2 : seededGlobals.bluetoothManager.readBatteryData "AA:BB"
      ({ readingOf scanCellTimeout with uninitialised := u } : Reading).uninitialised
      ({ readingOf scanCellTimeout with uninitialised := u } : Reading).scan = some rb := hb
  unfold readBatteryData
  simp only [hb2]
  rw [if_pos ⟨hbr, hdv⟩]
  refine ⟨_, rfl, ?_⟩
  show ((storeLoop (readingOf scanCellTimeout).addresses "AA:BB" rb.batteryData 99
      BATTERY_COUNT 0 seededGlobals.webServerManager).latestBatteryData 0).dataValid = true ∧ _
  rw [hstore]
  exact ⟨hdv, hsw hshort, hn, hv, rfl, rfl⟩

end BatteryProtocol
